import Mathlib

/-!
BLE-Scanner (Bluer): the scan, decode and track pipeline.

A shallow embedding of `bluetooth.cpp` (the advertisement filter and decoder in
`BLEScannerScanCallbacks::onResult`) and of `scandev.cpp` (the bounded machine
registry: `ScanDevSetup`, `ScanDevAddMachine`, `ScanDevUpdate`).

Conventions of the embedding:
* a `char` / `uint8_t` is a `Byte` (`Fin 256`); a `char` buffer or a
  `std::string` is a `List Byte`; a `const char*` argument is the list of bytes
  it points to, whose C-string content is `cstr` (the bytes before the first NUL);
* `time_t` values and `int` counters are `Int` (seconds; no wrap-around is
  modelled for clock values), `unsigned long` configuration values are `Nat`
  reduced modulo `2^32` where they are used;
* the global table `_machines[SCANDEV_MAX_MACHINES]` is a function from
  `Fin SCANDEV_MAX_MACHINES`; `now()` is an explicit argument; the result of
  `MqttPublishMachineStatus` is an explicit per-slot outcome.
-/

namespace Bluer

/-! ## config.h -/

/-- One `char` / `uint8_t`. -/
abbrev Byte := Fin 256

/-- The `BLEAddress` of the radio stack, kept abstract as a number (zero is the
all-zero address left by `memset`). -/
abbrev BLEAddress := Nat

/-- `#define MACHINE_ID_MAX_LEN 16` -/
abbrev MACHINE_ID_MAX_LEN : Nat := 16

/-- `#define TARGET_MANUFACTURER_ID 0xFFFF` -/
abbrev TARGET_MANUFACTURER_ID : Nat := 0xFFFF

/-- `#define TARGET_DEVICE_NAME "LaundryMachine"` (ASCII bytes). -/
def TARGET_DEVICE_NAME : List Byte :=
  [76, 97, 117, 110, 100, 114, 121, 77, 97, 99, 104, 105, 110, 101]

/-- `CONFIG_BT_T`: the fields of `_config.bluetooth` used by the pipeline. -/
structure CONFIG_BT_T where
  scan_time : Nat
  pause_time : Nat
  activescan_timeout : Nat
  absence_cycles : Int
deriving DecidableEq, Repr

/-! ## C strings -/

/-- The content of a C string: the bytes before the first NUL. -/
def cstr (s : List Byte) : List Byte := s.takeWhile (fun b => b ≠ 0)

/-- `strcmp(a, b) == 0` -/
def strcmpEq (a b : List Byte) : Bool := decide (cstr a = cstr b)

/-- `strncpy(dst, src, n)`: writes exactly `n` bytes to `dst`, the bytes of the
C string `src` (at most `n` of them) followed by NUL padding; the rest of `dst`
is kept. -/
def strncpy (dst src : List Byte) (n : Nat) : List Byte :=
  let c := (cstr src).take n
  c ++ List.replicate (n - c.length) 0 ++ dst.drop n

/-! ## bluetooth.cpp : the decoder in `onResult` -/

/-- What `onResult` reads from a `BLEAdvertisedDevice`. `manufacturerData` is
`none` when `haveManufacturerData()` is false. -/
structure BLEAdvertisedDevice where
  name : List Byte
  address : BLEAddress
  manufacturerData : Option (List Byte)
  rssi : Int
deriving DecidableEq, Repr

/-- The arguments `onResult` hands to `ScanDevAddMachine`; `machineId` is the
local buffer `char machineId[MACHINE_ID_MAX_LEN + 1]`. -/
structure Observation where
  addr : BLEAddress
  machineId : List Byte
  running : Bool
  empty : Bool
  rssi : Int
deriving DecidableEq, Repr

/-- `uint16_t manufacturer_id = (uint8_t)manufData[0] | ((uint8_t)manufData[1] << 8);` -/
def manufacturerIdOf (manufData : List Byte) : Nat :=
  (((manufData.getD 0 0).val ||| ((manufData.getD 1 0).val <<< 8))) % 2 ^ 16

/-- The copy loop
`for (int i = 0; i < idLen && manufData[2 + i] != '\0'; i++) machineId[i] = manufData[2 + i];`
started at index `i` with the buffer `buf`. The loop runs at most `idLen`
times; `fuel` bounds the number of iterations. -/
def copyMachineId (manufData : List Byte) (idLen : Nat) : Nat → Nat → List Byte → List Byte
  | _, 0, buf => buf
  | i, fuel + 1, buf =>
    if i < idLen ∧ manufData.getD (2 + i) 0 ≠ 0 then
      copyMachineId manufData idLen (i + 1) fuel (buf.set i (manufData.getD (2 + i) 0))
    else buf

/-- The machine id buffer built by `onResult` (lines 89-97). -/
def parseMachineId (manufData : List Byte) : List Byte :=
  let idLen0 := manufData.length - 3
  let idLen := if idLen0 > MACHINE_ID_MAX_LEN then MACHINE_ID_MAX_LEN else idLen0
  copyMachineId manufData idLen 0 MACHINE_ID_MAX_LEN (List.replicate (MACHINE_ID_MAX_LEN + 1) 0)

/-- `uint8_t statusByte = (uint8_t)manufData[manufData.length() - 1];` -/
def statusByteOf (manufData : List Byte) : Byte := manufData.getD (manufData.length - 1) 0

/-- The filter and decoder of `onResult` (lines 50-102) for an expected device
name and manufacturer id: `none` when the advertisement is skipped, otherwise
the observation forwarded to `ScanDevAddMachine`. -/
def decode (expectedName : List Byte) (expectedManufacturerId : Nat)
    (dev : BLEAdvertisedDevice) : Option Observation :=
  if dev.name ≠ expectedName then none
  else match dev.manufacturerData with
    | none => none
    | some manufData =>
      if manufData.length < 4 then none
      else if manufacturerIdOf manufData ≠ expectedManufacturerId then none
      else
        let statusByte := statusByteOf manufData
        some { addr := dev.address
               machineId := parseMachineId manufData
               running := decide (statusByte.val &&& 0x01 ≠ 0)
               empty := decide (statusByte.val &&& 0x02 ≠ 0)
               rssi := dev.rssi }

/-! ## scandev.h / scandev.cpp : the registry -/

/-- `#define SCANDEV_MAX_MACHINES 50` -/
abbrev SCANDEV_MAX_MACHINES : Nat := 50

/-- `#define MIN_POST_INTERVAL 5` -/
abbrev MIN_POST_INTERVAL : Int := 5

/-- `SCANDEV_MACHINE_T` -/
structure SCANDEV_MACHINE_T where
  addr : BLEAddress
  machineId : List Byte
  running : Bool
  empty : Bool
  rssi : Int
  last_seen : Int
  present : Bool
  state_changed : Bool
  last_posted : Int
  post_pending : Bool
  prev_running : Bool
  prev_empty : Bool
  in_use : Bool
deriving DecidableEq, Repr

/-- A slot after `memset(machine, 0, sizeof(SCANDEV_MACHINE_T))`. -/
def zeroMachine : SCANDEV_MACHINE_T :=
  { addr := 0
    machineId := List.replicate (MACHINE_ID_MAX_LEN + 1) 0
    running := false
    empty := false
    rssi := 0
    last_seen := 0
    present := false
    state_changed := false
    last_posted := 0
    post_pending := false
    prev_running := false
    prev_empty := false
    in_use := false }

/-- The module state of `scandev.cpp`: `_machines` and `_machine_count`. -/
structure Registry where
  machines : Fin SCANDEV_MAX_MACHINES → SCANDEV_MACHINE_T
  machine_count : Int

/-- The loop shared by the three finders:
`for (i; i < SCANDEV_MAX_MACHINES; i++) if (p(_machines[i])) return &_machines[i]; return NULL;`
started at index `i`; `fuel` bounds the number of iterations. -/
def findFrom (p : SCANDEV_MACHINE_T → Bool)
    (ms : Fin SCANDEV_MAX_MACHINES → SCANDEV_MACHINE_T) :
    Nat → Nat → Option (Fin SCANDEV_MAX_MACHINES)
  | _, 0 => none
  | i, fuel + 1 =>
    if h : i < SCANDEV_MAX_MACHINES then
      if p (ms ⟨i, h⟩) then some ⟨i, h⟩ else findFrom p ms (i + 1) fuel
    else none

/-- `findMachineByAddr` -/
def findMachineByAddr (r : Registry) (addr : BLEAddress) : Option (Fin SCANDEV_MAX_MACHINES) :=
  findFrom (fun m => m.in_use && decide (m.addr = addr)) r.machines 0 SCANDEV_MAX_MACHINES

/-- `findMachineById` -/
def findMachineById (r : Registry) (machineId : List Byte) : Option (Fin SCANDEV_MAX_MACHINES) :=
  findFrom (fun m => m.in_use && strcmpEq m.machineId machineId) r.machines 0 SCANDEV_MAX_MACHINES

/-- `findEmptySlot` -/
def findEmptySlot (r : Registry) : Option (Fin SCANDEV_MAX_MACHINES) :=
  findFrom (fun m => !m.in_use) r.machines 0 SCANDEV_MAX_MACHINES

/-- The slot initialised for a new machine (lines 88-93). -/
def newMachine (addr : BLEAddress) (machineId : List Byte) (running empty : Bool) :
    SCANDEV_MACHINE_T :=
  { zeroMachine with
    in_use := true
    addr := addr
    machineId := strncpy zeroMachine.machineId machineId MACHINE_ID_MAX_LEN
    prev_running := !running
    prev_empty := !empty }

/-- Lines 77-97 of `ScanDevAddMachine`: the slot `machine` points to when the
state comparison is made, and the registry at that point; `none` when the table
is full and the call returns false. -/
def claimSlot (r : Registry) (addr : BLEAddress) (machineId : List Byte)
    (running empty : Bool) : Option (Fin SCANDEV_MAX_MACHINES × Registry) :=
  match findMachineById r machineId with
  | some i => some (i, r)
  | none =>
    match findEmptySlot r with
    | none => none
    | some i =>
      some (i, { machines := Function.update r.machines i (newMachine addr machineId running empty)
                 machine_count := r.machine_count + 1 })

/-- Lines 99-118 of `ScanDevAddMachine`, on the slot `machine` points to. -/
def touchMachine (m : SCANDEV_MACHINE_T) (now : Int) (addr : BLEAddress)
    (running empty : Bool) (rssi : Int) : SCANDEV_MACHINE_T :=
  let stateChanged : Bool := (m.running != running) || (m.empty != empty)
  let m1 := { m with
    addr := addr
    running := running
    empty := empty
    rssi := rssi
    last_seen := now
    present := true }
  if stateChanged then
    { m1 with
      state_changed := true
      post_pending := true
      prev_running := running
      prev_empty := empty }
  else m1

/-- `ScanDevAddMachine` called at time `now`: the returned flag and the registry
afterwards. -/
def ScanDevAddMachine (r : Registry) (now : Int) (addr : BLEAddress) (machineId : List Byte)
    (running empty : Bool) (rssi : Int) : Bool × Registry :=
  match claimSlot r addr machineId running empty with
  | none => (false, r)
  | some (i, r1) =>
    (true, { r1 with
      machines := Function.update r1.machines i
        (touchMachine (r1.machines i) now addr running empty rssi) })

/-- `ScanDevSetup` -/
def ScanDevSetup : Registry :=
  { machines := fun _ => zeroMachine
    machine_count := 0 }

/-- `ScanDevGetCount` -/
def ScanDevGetCount (r : Registry) : Int := r.machine_count

/-- `unsigned long` is 32 bits wide on the target. -/
abbrev ULONG_MOD : Nat := 2 ^ 32

/-- `ABSENCE_TIMEOUT(cfg)`: `int * (unsigned long + unsigned long)`, computed in
`unsigned long`. -/
def ABSENCE_TIMEOUT (cfg : CONFIG_BT_T) : Nat :=
  ((cfg.absence_cycles % (ULONG_MOD : Int)).toNat
    * ((cfg.scan_time % ULONG_MOD + cfg.pause_time % ULONG_MOD) % ULONG_MOD)) % ULONG_MOD

/-- The conversion of an `unsigned long` to `int` in
`int absence_timeout = ABSENCE_TIMEOUT(_config);` -/
def toInt32 (n : Nat) : Int :=
  if n % ULONG_MOD < 2 ^ 31 then ((n % ULONG_MOD : Nat) : Int)
  else ((n % ULONG_MOD : Nat) : Int) - (ULONG_MOD : Int)

/-- One call of `MqttPublishMachineStatus` made by `ScanDevUpdate`: the slot it is
made for and the arguments passed (`machine->machineId`, `machine->running`,
`machine->empty`). -/
structure PublishCall where
  slot : Fin SCANDEV_MAX_MACHINES
  machineId : List Byte
  running : Bool
  empty : Bool
deriving DecidableEq, Repr

/-- The body of the loop of `ScanDevUpdate` for an in-use slot (lines 146-168):
the slot afterwards and whether `MqttPublishMachineStatus` was called; `mqtt` is
what that call returns. -/
def updateMachine (currentTime absence_timeout : Int) (mqtt : Bool) (m : SCANDEV_MACHINE_T) :
    SCANDEV_MACHINE_T × Bool :=
  let m1 :=
    if m.present && decide (currentTime - m.last_seen > absence_timeout) then
      { m with present := false }
    else m
  if m1.post_pending && m1.present then
    if currentTime - m1.last_posted ≥ MIN_POST_INTERVAL then
      if mqtt then
        ({ m1 with post_pending := false, state_changed := false, last_posted := currentTime }, true)
      else (m1, true)
    else (m1, false)
  else (m1, false)

/-- The loop of `ScanDevUpdate` from index `i` on, threading the table and the
list of publish calls made so far; `fuel` bounds the number of iterations. -/
def updateFrom (currentTime absence_timeout : Int) (mqtt : Fin SCANDEV_MAX_MACHINES → Bool) :
    Nat → Nat → (Fin SCANDEV_MAX_MACHINES → SCANDEV_MACHINE_T) → List PublishCall →
    (Fin SCANDEV_MAX_MACHINES → SCANDEV_MACHINE_T) × List PublishCall
  | _, 0, ms, log => (ms, log)
  | i, fuel + 1, ms, log =>
    if h : i < SCANDEV_MAX_MACHINES then
      if !(ms ⟨i, h⟩).in_use then updateFrom currentTime absence_timeout mqtt (i + 1) fuel ms log
      else
        let res := updateMachine currentTime absence_timeout (mqtt ⟨i, h⟩) (ms ⟨i, h⟩)
        let call : PublishCall :=
          { slot := ⟨i, h⟩
            machineId := (ms ⟨i, h⟩).machineId
            running := (ms ⟨i, h⟩).running
            empty := (ms ⟨i, h⟩).empty }
        updateFrom currentTime absence_timeout mqtt (i + 1) fuel
          (Function.update ms ⟨i, h⟩ res.1) (if res.2 then log ++ [call] else log)
    else (ms, log)

/-- `ScanDevUpdate` called at time `currentTime` with configuration `cfg`;
`mqtt i` is what `MqttPublishMachineStatus` returns if it is called for slot `i`
in this tick. Returns the registry afterwards and the publish calls made, in
order. -/
def ScanDevUpdate (cfg : CONFIG_BT_T) (r : Registry) (currentTime : Int)
    (mqtt : Fin SCANDEV_MAX_MACHINES → Bool) : Registry × List PublishCall :=
  let absence_timeout := toInt32 (ABSENCE_TIMEOUT cfg)
  let res := updateFrom currentTime absence_timeout mqtt 0 SCANDEV_MAX_MACHINES r.machines []
  ({ r with machines := res.1 }, res.2)

/-- `onResult` as a step of the registry: a skipped advertisement leaves it
unchanged, an accepted one is forwarded to `ScanDevAddMachine`. The call in
`bluetooth.cpp` passes an additional `NULL` room argument that the function
defined in `scandev.cpp` does not take; it carries no data and is left out. -/
def onResult (r : Registry) (now : Int) (dev : BLEAdvertisedDevice) : Registry :=
  match decode TARGET_DEVICE_NAME TARGET_MANUFACTURER_ID dev with
  | none => r
  | some obs => (ScanDevAddMachine r now obs.addr obs.machineId obs.running obs.empty obs.rssi).2

/-- A call made on the registry after `ScanDevSetup`. -/
inductive Call where
  | addMachine (now : Int) (addr : BLEAddress) (machineId : List Byte)
      (running empty : Bool) (rssi : Int)
  | update (cfg : CONFIG_BT_T) (currentTime : Int) (mqtt : Fin SCANDEV_MAX_MACHINES → Bool)

/-- The registry after one call. -/
def Call.apply (r : Registry) : Call → Registry
  | .addMachine now addr machineId running empty rssi =>
    (ScanDevAddMachine r now addr machineId running empty rssi).2
  | .update cfg currentTime mqtt => (ScanDevUpdate cfg r currentTime mqtt).1

/-- Whether the machine id passed by a call has at most `MACHINE_ID_MAX_LEN`
bytes (true for a `ScanDevUpdate` call, which passes none). -/
def Call.idWithinLimit : Call → Bool
  | .addMachine _ _ machineId _ _ _ => decide ((cstr machineId).length ≤ MACHINE_ID_MAX_LEN)
  | .update _ _ _ => true

/-- The registry after `ScanDevSetup` followed by the calls, in order. -/
def runCalls (calls : List Call) : Registry := calls.foldl Call.apply ScanDevSetup

/-- The payload of end-to-end scenario A: `FF FF 'R' 'O' 'O' 'M' '1' 03`. -/
def scenarioA : BLEAdvertisedDevice :=
  { name := TARGET_DEVICE_NAME
    address := 1
    manufacturerData := some [0xFF, 0xFF, 82, 79, 79, 77, 49, 0x03]
    rssi := -60 }

/-- The observation expected in scenario A: machine id "ROOM1" in the
17-byte buffer, running and empty both set. -/
def scenarioA_obs : Observation :=
  { addr := 1
    machineId := [82, 79, 79, 77, 49, 0, 0, 0, 0, 0, 0, 0, 0, 0, 0, 0, 0]
    running := true
    empty := true
    rssi := -60 }


/-- A configuration with the values of `BT_SCAN_TIME` (10), `BT_PAUSE_TIME` (20)
and `BT_ABSENCE_CYCLES` (3) of `config.h`; the absence timeout is 90 seconds. -/
def hardcodedConfig : CONFIG_BT_T :=
  { scan_time := 10
    pause_time := 20
    activescan_timeout := 60
    absence_cycles := 3 }

/-- A short run: machines "A" and "B" are seen, a tick publishes, "A" is seen
again with a new state. -/
def sampleCalls : List Call :=
  [ Call.addMachine 100 7 [65, 0] true false (-50),
    Call.addMachine 101 8 [66, 0] false true (-61),
    Call.update hardcodedConfig 105 (fun _ => true),
    Call.addMachine 130 7 [65, 0] false false (-52) ]

/-- The registry after machine "A" was seen once, at time 100. -/
def seenOnce : Registry :=
  (ScanDevAddMachine ScanDevSetup 100 7 [65, 0] true false (-50)).2

/-- A registry at capacity: slot `i` is in use and holds the machine id made of
the letter 'M' followed by the byte `i + 1`. -/
def fullRegistry : Registry :=
  { machines := fun i =>
      { zeroMachine with
        in_use := true
        machineId := strncpy zeroMachine.machineId [77, Fin.ofNat (i.val + 1)] MACHINE_ID_MAX_LEN
        present := true }
    machine_count := 50 }

/-- The record of the call `MqttPublishMachineStatus(machine->machineId,
machine->running, machine->empty)` that `ScanDevUpdate` makes for slot `k` of
the table `ms`. -/
def publishCallOf (ms : Fin SCANDEV_MAX_MACHINES → SCANDEV_MACHINE_T)
    (k : Fin SCANDEV_MAX_MACHINES) : PublishCall :=
  { slot := k
    machineId := (ms k).machineId
    running := (ms k).running
    empty := (ms k).empty }

/-- One tick of the scheduler: the configuration in force, the value of `now()`
and what `MqttPublishMachineStatus` returns for each slot during the tick. -/
structure Tick where
  cfg : CONFIG_BT_T
  currentTime : Int
  mqtt : Fin SCANDEV_MAX_MACHINES → Bool

/-- Consecutive `ScanDevUpdate` calls: the registry after the last one and the
publish calls made by each tick, in order. -/
def runTicks (r : Registry) : List Tick → Registry × List (List PublishCall)
  | [] => (r, [])
  | tk :: rest =>
    let res := ScanDevUpdate tk.cfg r tk.currentTime tk.mqtt
    let out := runTicks res.1 rest
    (out.1, res.2 :: out.2)

/-- Scenario B, first advertisement: `FF FF 'R' 'O' 'O' 'M' '1' 01`. -/
def scenarioB_first : BLEAdvertisedDevice :=
  { name := TARGET_DEVICE_NAME
    address := 1
    manufacturerData := some ([0xFF, 0xFF, 82, 79, 79, 77, 49] ++ [0x01])
    rssi := -60 }

/-- Scenario B, second advertisement: `FF FF 'R' 'O' 'O' 'M' '1' 00`. -/
def scenarioB_second : BLEAdvertisedDevice :=
  { name := TARGET_DEVICE_NAME
    address := 1
    manufacturerData := some ([0xFF, 0xFF, 82, 79, 79, 77, 49] ++ [0x00])
    rssi := -62 }

/-- The observation decoded from the first advertisement of scenario B. -/
def scenarioB_obs : Observation :=
  { addr := 1
    machineId := [82, 79, 79, 77, 49, 0, 0, 0, 0, 0, 0, 0, 0, 0, 0, 0, 0]
    running := true
    empty := false
    rssi := -60 }

/-! ## mqtt.cpp / httpApi.cpp : the sinks -/

/-- The machine status handed to a transport (`_mqttClient.publish` or
`http.POST`): the id as a C string and the two flags of the JSON payload. -/
structure SinkMessage where
  machineId : List Byte
  running : Bool
  empty : Bool
deriving DecidableEq, Repr

/-- What one call into `mqtt.cpp` sees of the PubSubClient, the clock and the
static `_lastConnectAttempt`: the values returned by `_mqttClient.connected()`,
`millis()`, `_mqttClient.connect(...)` and `_mqttClient.publish(...)`. -/
structure MqttClientView where
  connected : Bool
  millis : Nat
  lastConnectAttempt : Nat
  connectResult : Bool
  publishResult : Bool
deriving DecidableEq, Repr

/-- `#define MQTT_RECONNECT_INTERVAL 5000` -/
abbrev MQTT_RECONNECT_INTERVAL : Nat := 5000

/-- The value returned by `mqttConnect` (`now - _lastConnectAttempt` is computed
in `unsigned long`). -/
def mqttConnect (c : MqttClientView) : Bool :=
  if c.connected then true
  else if (c.millis % ULONG_MOD + ULONG_MOD - c.lastConnectAttempt % ULONG_MOD) % ULONG_MOD
      < MQTT_RECONNECT_INTERVAL then false
  else c.connectResult

/-- `MqttPublishMachineStatus`: the returned flag and the status handed to
`_mqttClient.publish`, if that call is reached. `ScanDevUpdate` passes no room
name, so the optional room field of the payload is absent. The function does
not consult `StateCheck(STATE_CONFIGURING)`. -/
def MqttPublishMachineStatus (c : MqttClientView) (machineId : List Byte)
    (running empty : Bool) : Bool × Option SinkMessage :=
  if !c.connected && !mqttConnect c then (false, none)
  else (c.publishResult, some { machineId := cstr machineId, running := running, empty := empty })

/-- What one call of `HttpApiPostMachineStatus` sees of its environment: the
values returned by `StateCheck(STATE_CONFIGURING)`, `http.begin(...)` and
`http.POST(payload)`. -/
structure HttpView where
  configuring : Bool
  beginResult : Bool
  postResult : Int
deriving DecidableEq, Repr

/-- `HttpApiPostMachineStatus`: the returned flag and the status handed to
`http.POST`, if that call is reached. `HTTP_CODE_OK` and `HTTP_CODE_CREATED` are
constants of the HTTP client library, which is not part of the repository; they
are parameters here (the library defines them as 200 and 201). -/
def HttpApiPostMachineStatus (HTTP_CODE_OK HTTP_CODE_CREATED : Int) (h : HttpView)
    (machineId : List Byte) (running empty : Bool) : Bool × Option SinkMessage :=
  if h.configuring then (false, none)
  else if !h.beginResult then (false, none)
  else
    let httpCode := h.postResult
    let sent : Option SinkMessage :=
      some { machineId := cstr machineId, running := running, empty := empty }
    if httpCode > 0 then
      if httpCode = HTTP_CODE_OK ∨ httpCode = HTTP_CODE_CREATED then (true, sent)
      else (false, sent)
    else (false, sent)

/-- The state one scheduler tick runs in: the lifecycle flag
`StateCheck(STATE_CONFIGURING)`, the MQTT client and the registry. -/
structure System where
  configuring : Bool
  mqtt : MqttClientView
  registry : Registry

/-- `ScanDevUpdate` with `MqttPublishMachineStatus` as the publish call: the
registry afterwards and the statuses handed to `_mqttClient.publish`, in order.
Neither function reads the lifecycle flag. -/
def System.scanDevUpdate (cfg : CONFIG_BT_T) (s : System) (currentTime : Int) :
    Registry × List SinkMessage :=
  let res := ScanDevUpdate cfg s.registry currentTime (fun k =>
    (MqttPublishMachineStatus s.mqtt (s.registry.machines k).machineId
      (s.registry.machines k).running (s.registry.machines k).empty).1)
  (res.1, res.2.filterMap (fun c =>
    (MqttPublishMachineStatus s.mqtt c.machineId c.running c.empty).2))

/-- The device in the 'configuring' lifecycle state with the MQTT client
connected and machine "A" pending since time 100. -/
def configuringSystem : System :=
  { configuring := true
    mqtt := { connected := true
              millis := 105000
              lastConnectAttempt := 0
              connectResult := true
              publishResult := true }
    registry := seenOnce }

/-! ## bluetooth.cpp : starting a scan -/

/-- The statics `_last_scan` and `_last_activescan` of `bluetooth.cpp`. -/
structure ScanState where
  last_scan : Int
  last_activescan : Int
deriving DecidableEq, Repr

/-- What `BluetoothScanStart` tells the scan object: `setActiveScan(active)`,
`setInterval`, `setWindow` and the duration passed to `start`, in ms. -/
structure ScanRequest where
  active : Bool
  interval : Nat
  window : Nat
  duration : Nat
deriving DecidableEq, Repr

/-- `BluetoothScanStart` called at time `now`: the returned flag, the statics
afterwards and the request made to the scan object. The reads of `now()` within
one call return the same second; `time_t` is wider than the 32-bit
`unsigned long` timeout, so the comparison is the one of the integers. -/
def BluetoothScanStart (cfg : CONFIG_BT_T) (s : ScanState) (now : Int) :
    Bool × ScanState × ScanRequest :=
  let active : Bool :=
    decide (now - s.last_activescan > ((cfg.activescan_timeout % ULONG_MOD : Nat) : Int))
  let last_activescan := if active then now else s.last_activescan
  let scan_interval : Nat := 3000
  (true,
   { last_scan := now, last_activescan := last_activescan },
   { active := active
     interval := scan_interval
     window := scan_interval - 1
     duration := (cfg.scan_time % ULONG_MOD * 1000) % ULONG_MOD })

/-- Consecutive calls of `BluetoothScanStart` at the given times with one
configuration: the statics after the last call and, for every call, its time
and whether it chose an active scan. -/
def scanStarts (cfg : CONFIG_BT_T) : ScanState → List Int → ScanState × List (Int × Bool)
  | s, [] => (s, [])
  | s, now :: rest =>
    let res := BluetoothScanStart cfg s now
    let out := scanStarts cfg res.2.1 rest
    (out.1, (now, res.2.2.active) :: out.2)

/-- The time of a call when it is a `ScanDevUpdate` tick. -/
def Call.tickTime : Call → Option Int
  | .addMachine _ _ _ _ _ _ => none
  | .update _ currentTime _ => some currentTime

/-- A beacon whose first id byte is NUL: `FF FF 00 'X' 01`. -/
def nulIdFirst : BLEAdvertisedDevice :=
  { name := TARGET_DEVICE_NAME
    address := 21
    manufacturerData := some [0xFF, 0xFF, 0, 88, 0x01]
    rssi := -70 }

/-- Another beacon whose first id byte is NUL: `FF FF 00 'Y' 'Z' 02`. -/
def nulIdSecond : BLEAdvertisedDevice :=
  { name := TARGET_DEVICE_NAME
    address := 22
    manufacturerData := some [0xFF, 0xFF, 0, 89, 90, 0x02]
    rssi := -71 }

/-- The id bytes the copy loop still has to read when it stands at index `i`. -/
def idRest (manufData : List Byte) (idLen i : Nat) : List Byte :=
  ((manufData.drop (2 + i)).take (idLen - i)).takeWhile (fun b => b ≠ 0)

theorem idRest_step (data : List Byte) (idLen i : Nat) (hi : i < idLen)
    (hb : data.getD (2 + i) 0 ≠ 0) :
    idRest data idLen i = data.getD (2 + i) 0 :: idRest data idLen (i + 1) := by
  have hlt : 2 + i < data.length := by
    by_contra hge
    apply hb
    simp [List.getD, List.getElem?_eq_none (Nat.le_of_not_lt hge)]
  have hget : data.getD (2 + i) 0 = data[2 + i] := List.getD_eq_getElem _ _ hlt
  have hsub : idLen - i = (idLen - (i + 1)) + 1 := by omega
  unfold idRest
  rw [List.drop_eq_getElem_cons hlt, hsub, List.take_succ_cons, List.takeWhile_cons]
  rw [hget] at hb ⊢
  simp [hb, Nat.add_assoc]

theorem idRest_stop (data : List Byte) (idLen i : Nat)
    (h : ¬ (i < idLen ∧ data.getD (2 + i) 0 ≠ 0)) : idRest data idLen i = [] := by
  unfold idRest
  by_cases hi : i < idLen
  · have hz : data.getD (2 + i) 0 = 0 := by
      by_contra hne
      exact h ⟨hi, hne⟩
    by_cases hlt : 2 + i < data.length
    · have hget : data.getD (2 + i) 0 = data[2 + i] := List.getD_eq_getElem _ _ hlt
      have hsub : idLen - i = (idLen - (i + 1)) + 1 := by omega
      rw [List.drop_eq_getElem_cons hlt, hsub, List.take_succ_cons, List.takeWhile_cons]
      rw [hget] at hz
      simp [hz]
    · rw [List.drop_eq_nil_of_le (Nat.le_of_not_lt hlt)]
      simp
  · have : idLen - i = 0 := by omega
    simp [this]

theorem copyMachineId_eq (data : List Byte) (idLen : Nat) :
    ∀ (fuel i : Nat) (buf : List Byte), idLen ≤ i + fuel → idLen ≤ buf.length →
      copyMachineId data idLen i fuel buf
        = buf.take i ++ idRest data idLen i ++ buf.drop (i + (idRest data idLen i).length) := by
  intro fuel
  induction fuel with
  | zero =>
    intro i buf hfuel _
    have hstop : idRest data idLen i = [] := idRest_stop data idLen i (by omega)
    simp [copyMachineId, hstop]
  | succ fuel ih =>
    intro i buf hfuel hlen
    unfold copyMachineId
    split
    · rename_i hc
      have hi : i < buf.length := by omega
      rw [ih (i + 1) _ (by omega) (by simpa using hlen), idRest_step data idLen i hc.1 hc.2]
      rw [List.set_eq_take_append_cons_drop]
      simp only [hi, if_true, List.length_cons]
      have h1 : List.take (i + 1) (List.take i buf ++ data.getD (2 + i) 0 :: List.drop (i + 1) buf)
          = List.take i buf ++ [data.getD (2 + i) 0] := by
        rw [List.take_append_eq_append_take]
        simp [List.length_take, Nat.min_eq_left (Nat.le_of_lt hi)]
      have h2 : List.drop (i + 1 + (idRest data idLen (i + 1)).length)
            (List.take i buf ++ data.getD (2 + i) 0 :: List.drop (i + 1) buf)
          = List.drop (i + ((idRest data idLen (i + 1)).length + 1)) buf := by
        rw [List.drop_append_eq_append_drop]
        simp [List.length_take, Nat.min_eq_left (Nat.le_of_lt hi)]
        have : i + 1 + (idRest data idLen (i + 1)).length - i = (idRest data idLen (i + 1)).length + 1 := by omega
        rw [this, List.drop_succ_cons, List.drop_drop]
        have e1 : List.drop (i + 1 + (idRest data idLen (i + 1)).length) (List.take i buf) = [] := by
          apply List.drop_eq_nil_of_le
          simp [List.length_take]
          omega
        rw [e1]
        simp
        congr 1
        omega
      rw [h1, h2]
      simp
    · rename_i hc
      rw [idRest_stop data idLen i hc]
      simp


theorem byte_or_shift (a b : Byte) : (a.val ||| (b.val <<< 8)) % 2 ^ 16 = a.val + 256 * b.val := by
  have ha := a.isLt
  have hb := b.isLt
  have h := Nat.mul_add_lt_is_or (i := 8) (b := a.val) (by simp) b.val
  rw [Nat.shiftLeft_eq, Nat.or_comm, Nat.mul_comm b.val (2 ^ 8), ← h]
  omega

theorem manufacturerIdOf_eq (data : List Byte) :
    manufacturerIdOf data = (data.getD 0 0).val + 256 * (data.getD 1 0).val := by
  unfold manufacturerIdOf
  exact byte_or_shift _ _

theorem status_bit0 (b : Byte) : decide (b.val &&& 0x01 ≠ 0) = b.val.testBit 0 := by
  have h := Nat.and_two_pow b.val 0
  simp only [pow_zero, mul_one] at h
  cases hb : b.val.testBit 0 <;> simp [hb] at h ⊢ <;> omega

theorem status_bit1 (b : Byte) : decide (b.val &&& 0x02 ≠ 0) = b.val.testBit 1 := by
  have h := Nat.and_two_pow b.val 1
  simp only [pow_one] at h
  cases hb : b.val.testBit 1 <;> simp [hb] at h ⊢ <;> omega

theorem cstr_nonzero (s : List Byte) : ∀ b ∈ cstr s, b ≠ 0 := by
  intro b hb
  have := List.mem_takeWhile_imp hb
  simpa using this

theorem cstr_append_zeros (w : List Byte) (n : Nat) (hw : ∀ b ∈ w, b ≠ 0) :
    cstr (w ++ List.replicate n 0) = w := by
  unfold cstr
  rw [List.takeWhile_append_of_pos (by simpa using hw)]
  simp [List.takeWhile_replicate]

theorem cstr_of_nonzero (w : List Byte) (hw : ∀ b ∈ w, b ≠ 0) : cstr w = w := by
  have := cstr_append_zeros w 0 hw
  simpa using this

theorem idRest_nonzero (data : List Byte) (idLen i : Nat) : ∀ b ∈ idRest data idLen i, b ≠ 0 := by
  intro b hb
  have := List.mem_takeWhile_imp hb
  simpa using this

theorem idRest_length_le (data : List Byte) (idLen i : Nat) :
    (idRest data idLen i).length ≤ idLen - i := by
  unfold idRest
  have h1 := (List.takeWhile_prefix (fun b : Byte => decide (b ≠ 0))
    (l := (data.drop (2 + i)).take (idLen - i))).length_le
  have h2 := List.length_take_le (idLen - i) (data.drop (2 + i))
  omega

/-- The C string left in the buffer by `onResult` is the NUL-free prefix of the
id bytes at positions `[2, 2 + min (len - 3) 16)`. -/
theorem cstr_parseMachineId (data : List Byte) :
    cstr (parseMachineId data)
      = ((data.drop 2).take (min (data.length - 3) MACHINE_ID_MAX_LEN)).takeWhile (fun b => b ≠ 0) := by
  have hmin : (if data.length - 3 > MACHINE_ID_MAX_LEN then MACHINE_ID_MAX_LEN else data.length - 3)
      = min (data.length - 3) MACHINE_ID_MAX_LEN := by
    split <;> omega
  unfold parseMachineId
  simp only [hmin]
  have hle : min (data.length - 3) MACHINE_ID_MAX_LEN ≤ MACHINE_ID_MAX_LEN := Nat.min_le_right _ _
  rw [copyMachineId_eq data _ MACHINE_ID_MAX_LEN 0 _ (by omega) (by simp)]
  have hlen := idRest_length_le data (min (data.length - 3) MACHINE_ID_MAX_LEN) 0
  simp only [List.take_zero, List.nil_append, Nat.zero_add, List.drop_replicate]
  rw [cstr_append_zeros _ _ (idRest_nonzero _ _ _)]
  simp [idRest]


theorem decode_eq_some (expectedName : List Byte) (expectedManufacturerId : Nat)
    (dev : BLEAdvertisedDevice) (data : List Byte) (obs : Observation)
    (hdata : dev.manufacturerData = some data)
    (hacc : decode expectedName expectedManufacturerId dev = some obs) :
    4 ≤ data.length ∧
    obs = { addr := dev.address
            machineId := parseMachineId data
            running := decide ((statusByteOf data).val &&& 0x01 ≠ 0)
            empty := decide ((statusByteOf data).val &&& 0x02 ≠ 0)
            rssi := dev.rssi } := by
  unfold decode at hacc
  rw [hdata] at hacc
  by_cases hname : dev.name = expectedName
  · by_cases hlen : data.length < 4
    · simp [hname, hlen] at hacc
    · by_cases hid : manufacturerIdOf data = expectedManufacturerId
      · simp only [hname, hlen, hid, ne_eq, not_true_eq_false, if_false, Option.some.injEq] at hacc
        exact ⟨by omega, hacc.symm⟩
      · simp [hname, hlen, hid] at hacc
  · simp [hname] at hacc

theorem prefix_takeWhile_of_all {α : Type} (q : α → Bool) (p l : List α) (hp : p <+: l)
    (hq : ∀ b ∈ p, q b = true) : p <+: l.takeWhile q := by
  obtain ⟨t, rfl⟩ := hp
  rw [List.takeWhile_append_of_pos hq]
  exact List.prefix_append _ _

theorem takeWhile_stop_at {α : Type} (q : α → Bool) (l : List α) (k : Nat) (hk : k < l.length)
    (hz : q l[k] = false) (hbefore : ∀ b ∈ l.take k, q b = true) :
    l.takeWhile q = l.take k := by
  conv_lhs => rw [← List.take_append_drop k l]
  rw [List.takeWhile_append_of_pos hbefore, List.drop_eq_getElem_cons hk, List.takeWhile_cons]
  simp [hz]

theorem getElem_idBytes (data : List Byte) (m j : Nat)
    (hj : j < ((data.drop 2).take m).length) :
    ((data.drop 2).take m)[j] = data.getD (2 + j) 0 := by
  have hlt : 2 + j < data.length := by
    simp only [List.length_take, List.length_drop] at hj
    omega
  rw [List.getD_eq_getElem _ _ hlt]
  simp

/-! ## Claims about the decoder -/

/-- C2: `decode` (the filter of `onResult`) accepts an advertisement exactly when
the advertised name equals the expected name, manufacturer data is present, it
has at least 4 bytes and `byte0 + 256 * byte1` equals the expected manufacturer
id; every manufacturer blob shorter than 4 bytes is rejected; and `onResult`
leaves the registry untouched on rejection and forwards the decoded observation
to `ScanDevAddMachine` on acceptance. -/
theorem decode_accepts_iff (expectedName : List Byte) (expectedManufacturerId : Nat)
    (dev : BLEAdvertisedDevice) :
    ((decode expectedName expectedManufacturerId dev).isSome = true ↔
      (dev.name = expectedName ∧
        ∃ data, dev.manufacturerData = some data ∧ 4 ≤ data.length ∧
          (data.getD 0 0).val + 256 * (data.getD 1 0).val = expectedManufacturerId)) ∧
    (∀ data, dev.manufacturerData = some data → data.length < 4 →
      decode expectedName expectedManufacturerId dev = none) ∧
    (∀ r now, decode TARGET_DEVICE_NAME TARGET_MANUFACTURER_ID dev = none →
      onResult r now dev = r) ∧
    (∀ r now obs, decode TARGET_DEVICE_NAME TARGET_MANUFACTURER_ID dev = some obs →
      onResult r now dev
        = (ScanDevAddMachine r now obs.addr obs.machineId obs.running obs.empty obs.rssi).2) := by
  refine ⟨?_, ?_, ?_, ?_⟩
  · unfold decode
    by_cases hname : dev.name = expectedName
    · cases hdata : dev.manufacturerData with
      | none => simp [hname]
      | some data =>
        by_cases hlen : data.length < 4
        · simp only [hname, hlen, ne_eq, not_true_eq_false, if_false, if_true, Option.isSome_none,
            Bool.false_eq_true, true_and, Option.some.injEq, exists_eq_left', false_iff, not_and]
          intro h4
          omega
        · by_cases hid : manufacturerIdOf data = expectedManufacturerId
          · have hid2 := hid
            rw [manufacturerIdOf_eq] at hid2
            simp only [hname, hlen, hid, ne_eq, not_true_eq_false, if_false, Option.isSome_some,
              true_and, Option.some.injEq, exists_eq_left', true_iff]
            exact ⟨by omega, hid2⟩
          · have hid2 := hid
            rw [manufacturerIdOf_eq] at hid2
            simp only [hname, hlen, hid, ne_eq, not_true_eq_false, not_false_eq_true, if_false,
              if_true, Option.isSome_none, Bool.false_eq_true, true_and, Option.some.injEq,
              exists_eq_left', false_iff, not_and]
            intro _
            exact hid2
    · simp [hname]
  · intro data hdata hlen
    unfold decode
    simp [hdata, hlen]
  · intro r now h
    simp [onResult, h]
  · intro r now obs h
    simp [onResult, h]

/-- C3: for an accepted payload `data`, the machine id handed on (the C string
in the buffer) is the longest NUL-free prefix of the id bytes at positions
`[2, 2 + min (len - 3) 16)`: it is a NUL-free prefix of these bytes, no longer
NUL-free prefix exists, it stops at the first NUL when there is one, it is all
of these bytes when none of them is NUL, and it is read from positions
`[2, len - 1)` only, so it never contains the status byte. -/
theorem machineId_prefix_up_to_nul (expectedName : List Byte)
    (expectedManufacturerId : Nat) (dev : BLEAdvertisedDevice) (data : List Byte)
    (obs : Observation) (hdata : dev.manufacturerData = some data)
    (hacc : decode expectedName expectedManufacturerId dev = some obs) :
    4 ≤ data.length ∧
    cstr obs.machineId
      = ((data.drop 2).take (min (data.length - 3) 16)).takeWhile (fun b => b ≠ 0) ∧
    cstr obs.machineId <+: (data.drop 2).take (min (data.length - 3) 16) ∧
    (∀ b ∈ cstr obs.machineId, b ≠ 0) ∧
    (∀ p : List Byte, p <+: (data.drop 2).take (min (data.length - 3) 16) →
      (∀ b ∈ p, b ≠ 0) → p <+: cstr obs.machineId) ∧
    (∀ k, k < min (data.length - 3) 16 → data.getD (2 + k) 0 = 0 →
      (∀ j, j < k → data.getD (2 + j) 0 ≠ 0) →
      cstr obs.machineId = (data.drop 2).take k) ∧
    ((∀ b ∈ (data.drop 2).take (min (data.length - 3) 16), b ≠ 0) →
      cstr obs.machineId = (data.drop 2).take (min (data.length - 3) 16)) ∧
    cstr obs.machineId <+: (data.drop 2).take (data.length - 3) := by
  obtain ⟨hlen, hobs⟩ := decode_eq_some expectedName expectedManufacturerId dev data obs hdata hacc
  have hid : cstr obs.machineId
      = ((data.drop 2).take (min (data.length - 3) 16)).takeWhile (fun b => b ≠ 0) := by
    rw [hobs]
    exact cstr_parseMachineId data
  refine ⟨hlen, hid, ?_, cstr_nonzero _, ?_, ?_, ?_, ?_⟩
  · rw [hid]
    exact List.takeWhile_prefix _
  · intro p hp hnz
    rw [hid]
    exact prefix_takeWhile_of_all _ p _ hp (by simpa using hnz)
  · intro k hk hz hbefore
    rw [hid]
    have hk1 : k < data.length - 3 := lt_of_lt_of_le hk (Nat.min_le_left _ _)
    have hklen : k < ((data.drop 2).take (min (data.length - 3) 16)).length := by
      simp only [List.length_take, List.length_drop]
      omega
    rw [takeWhile_stop_at _ _ k hklen]
    · rw [List.take_take, Nat.min_eq_left (Nat.le_of_lt hk)]
    · rw [getElem_idBytes, hz]
      simp
    · intro b hb
      obtain ⟨j, hj, rfl⟩ := List.mem_iff_getElem.mp hb
      have hjk : j < k := by
        simp only [List.length_take, List.length_drop] at hj
        omega
      have h1 := hbefore j hjk
      rw [List.getElem_take, getElem_idBytes]
      simpa using h1
  · intro hnz
    rw [hid]
    exact List.takeWhile_eq_self_iff.mpr (by simpa using hnz)
  · rw [hid]
    exact (List.takeWhile_prefix _).trans
      (List.take_prefix_take_left _ (Nat.min_le_left _ _))


theorem parseMachineId_eq (data : List Byte) :
    parseMachineId data
      = ((data.drop 2).take (min (data.length - 3) MACHINE_ID_MAX_LEN)).takeWhile (fun b => b ≠ 0)
        ++ List.replicate (MACHINE_ID_MAX_LEN + 1 -
            (((data.drop 2).take (min (data.length - 3) MACHINE_ID_MAX_LEN)).takeWhile
              (fun b => b ≠ 0)).length) 0 := by
  have hmin : (if data.length - 3 > MACHINE_ID_MAX_LEN then MACHINE_ID_MAX_LEN else data.length - 3)
      = min (data.length - 3) MACHINE_ID_MAX_LEN := by
    split <;> omega
  unfold parseMachineId
  simp only [hmin]
  have hle : min (data.length - 3) MACHINE_ID_MAX_LEN ≤ MACHINE_ID_MAX_LEN := Nat.min_le_right _ _
  rw [copyMachineId_eq data _ MACHINE_ID_MAX_LEN 0 _ (by omega) (by simp)]
  simp [idRest]

theorem parseMachineId_append_status (pre : List Byte) (s1 s2 : Byte) (hpre : 3 ≤ pre.length) :
    parseMachineId (pre ++ [s1]) = parseMachineId (pre ++ [s2]) := by
  have key : ∀ s : Byte, ((pre ++ [s]).drop 2).take (min ((pre ++ [s]).length - 3) MACHINE_ID_MAX_LEN)
      = (pre.drop 2).take (min (pre.length - 2) MACHINE_ID_MAX_LEN) := by
    intro s
    have h1 : (pre ++ [s]).drop 2 = pre.drop 2 ++ [s] := by
      rw [List.drop_append_eq_append_drop]
      have : 2 - pre.length = 0 := by omega
      simp [this]
    have h2 : (pre ++ [s]).length - 3 = pre.length - 2 := by
      simp only [List.length_append, List.length_singleton]
      omega
    rw [h1, h2, List.take_append_of_le_length]
    simp only [List.length_drop]
    exact Nat.min_le_left _ _
  rw [parseMachineId_eq, parseMachineId_eq, key s1, key s2]

theorem manufacturerIdOf_append_status (pre : List Byte) (s1 s2 : Byte) (hpre : 3 ≤ pre.length) :
    manufacturerIdOf (pre ++ [s1]) = manufacturerIdOf (pre ++ [s2]) := by
  unfold manufacturerIdOf
  rw [List.getD_append _ _ _ _ (by omega), List.getD_append _ _ _ _ (by omega),
    List.getD_append _ _ _ _ (by omega), List.getD_append _ _ _ _ (by omega)]

theorem statusByteOf_append (pre : List Byte) (s : Byte) : statusByteOf (pre ++ [s]) = s := by
  unfold statusByteOf
  have h : (pre ++ [s]).length - 1 = pre.length := by simp
  rw [h, List.getD_append_right _ _ _ _ (Nat.le_refl _)]
  simp

/-- C4: for an accepted payload the status byte is the last byte of the
manufacturer data, `running` is its bit 0 and `empty` is its bit 1; and a
payload that differs from an accepted one only in bits 2..7 of the last byte
is accepted too and decodes to the same observation. -/
theorem status_byte_decoding (expectedName : List Byte) (expectedManufacturerId : Nat)
    (dev : BLEAdvertisedDevice) (data : List Byte) (obs : Observation)
    (hdata : dev.manufacturerData = some data)
    (hacc : decode expectedName expectedManufacturerId dev = some obs) :
    (∃ s : Byte, data.getLast? = some s ∧
      obs.running = s.val.testBit 0 ∧ obs.empty = s.val.testBit 1) ∧
    (∀ (pre : List Byte) (s1 s2 : Byte), data = pre ++ [s1] →
      s2.val.testBit 0 = s1.val.testBit 0 → s2.val.testBit 1 = s1.val.testBit 1 →
      decode expectedName expectedManufacturerId
        { dev with manufacturerData := some (pre ++ [s2]) } = some obs) := by
  obtain ⟨hlen, hobs⟩ := decode_eq_some expectedName expectedManufacturerId dev data obs hdata hacc
  constructor
  · obtain ⟨pre, s, rfl⟩ : ∃ pre s, data = pre ++ [s] := by
      have hne : data ≠ [] := by
        intro h
        simp [h] at hlen
      exact ⟨data.dropLast, data.getLast hne, (List.dropLast_append_getLast hne).symm⟩
    refine ⟨s, by simp, ?_, ?_⟩
    · rw [hobs, statusByteOf_append]
      exact status_bit0 s
    · rw [hobs, statusByteOf_append]
      exact status_bit1 s
  · intro pre s1 s2 hd h0 h1
    subst hd
    have hpre : 3 ≤ pre.length := by
      simp only [List.length_append, List.length_singleton] at hlen
      omega
    have hacc2 := hacc
    unfold decode at hacc2 ⊢
    rw [hdata] at hacc2
    simp only [statusByteOf_append, status_bit0, status_bit1,
      manufacturerIdOf_append_status pre s2 s1 hpre,
      parseMachineId_append_status pre s2 s1 hpre, List.length_append, List.length_singleton,
      h0, h1] at hacc2 ⊢
    exact hacc2

/-- The observation decoded in end-to-end scenario A. -/
theorem scenarioA_decodes :
    decode TARGET_DEVICE_NAME TARGET_MANUFACTURER_ID scenarioA = some scenarioA_obs := by
  decide

/-- Witness of C3 on scenario A: the payload `FF FF 'R' 'O' 'O' 'M' '1' 03`
decodes to the machine id "ROOM1". -/
theorem machineId_prefix_up_to_nul_witness :
    scenarioA.manufacturerData = some [0xFF, 0xFF, 82, 79, 79, 77, 49, 0x03] ∧
    decode TARGET_DEVICE_NAME TARGET_MANUFACTURER_ID scenarioA = some scenarioA_obs ∧
    cstr scenarioA_obs.machineId = [82, 79, 79, 77, 49] ∧
    cstr scenarioA_obs.machineId
      = ((([0xFF, 0xFF, 82, 79, 79, 77, 49, 0x03] : List Byte).drop 2).take
          (min (([0xFF, 0xFF, 82, 79, 79, 77, 49, 0x03] : List Byte).length - 3) 16)).takeWhile
          (fun b => b ≠ 0) :=
  ⟨rfl, scenarioA_decodes, by decide,
    (machineId_prefix_up_to_nul TARGET_DEVICE_NAME TARGET_MANUFACTURER_ID scenarioA
      [0xFF, 0xFF, 82, 79, 79, 77, 49, 0x03] scenarioA_obs rfl scenarioA_decodes).2.1⟩

/-- Witness of C4 on scenario A: the status byte `0x03` gives `running = true`
and `empty = true`. -/
theorem status_byte_decoding_witness :
    scenarioA_obs.running = true ∧ scenarioA_obs.empty = true ∧
    ∃ s : Byte, ([0xFF, 0xFF, 82, 79, 79, 77, 49, 0x03] : List Byte).getLast? = some s ∧
      scenarioA_obs.running = s.val.testBit 0 ∧ scenarioA_obs.empty = s.val.testBit 1 :=
  ⟨rfl, rfl,
    (status_byte_decoding TARGET_DEVICE_NAME TARGET_MANUFACTURER_ID scenarioA
      [0xFF, 0xFF, 82, 79, 79, 77, 49, 0x03] scenarioA_obs rfl scenarioA_decodes).1⟩


/-! ## Registry lemmas -/

theorem findFrom_some (p : SCANDEV_MACHINE_T → Bool)
    (ms : Fin SCANDEV_MAX_MACHINES → SCANDEV_MACHINE_T) :
    ∀ (fuel i : Nat) (k : Fin SCANDEV_MAX_MACHINES), findFrom p ms i fuel = some k →
      p (ms k) = true ∧ i ≤ k.val ∧
        ∀ j : Fin SCANDEV_MAX_MACHINES, i ≤ j.val → j.val < k.val → p (ms j) = false := by
  intro fuel
  induction fuel with
  | zero =>
    intro i k h
    simp [findFrom] at h
  | succ fuel ih =>
    intro i k h
    unfold findFrom at h
    split at h
    · rename_i hi
      split at h
      · rename_i hp
        have hk : k = ⟨i, hi⟩ := (Option.some.inj h).symm
        subst hk
        refine ⟨hp, Nat.le_refl _, ?_⟩
        intro j h1 h2
        simp only at h2
        omega
      · rename_i hp
        obtain ⟨h1, h2, h3⟩ := ih (i + 1) k h
        refine ⟨h1, by omega, ?_⟩
        intro j hj1 hj2
        by_cases hji : j.val = i
        · have : j = ⟨i, hi⟩ := Fin.ext hji
          rw [this]
          simpa using hp
        · exact h3 j (by omega) hj2
    · simp at h

theorem findFrom_none (p : SCANDEV_MACHINE_T → Bool)
    (ms : Fin SCANDEV_MAX_MACHINES → SCANDEV_MACHINE_T) :
    ∀ (fuel i : Nat), SCANDEV_MAX_MACHINES ≤ i + fuel → findFrom p ms i fuel = none →
      ∀ j : Fin SCANDEV_MAX_MACHINES, i ≤ j.val → p (ms j) = false := by
  intro fuel
  induction fuel with
  | zero =>
    intro i hfuel _ j hj
    have := j.isLt
    omega
  | succ fuel ih =>
    intro i hfuel h j hj
    unfold findFrom at h
    split at h
    · rename_i hi
      split at h
      · simp at h
      · rename_i hp
        by_cases hji : j.val = i
        · have : j = ⟨i, hi⟩ := Fin.ext hji
          rw [this]
          simpa using hp
        · exact ih (i + 1) (by omega) h j (by omega)
    · have := j.isLt
      omega

theorem findFrom_congr (p q : SCANDEV_MACHINE_T → Bool)
    (ms ms2 : Fin SCANDEV_MAX_MACHINES → SCANDEV_MACHINE_T)
    (h : ∀ j, p (ms j) = q (ms2 j)) :
    ∀ (fuel i : Nat), findFrom p ms i fuel = findFrom q ms2 i fuel := by
  intro fuel
  induction fuel with
  | zero => intro i; rfl
  | succ fuel ih =>
    intro i
    unfold findFrom
    split
    · rename_i hi
      rw [h ⟨i, hi⟩, ih (i + 1)]
    · rfl

/-- The finder returns the slot `k` when `k` is the only slot satisfying `p`. -/
theorem findFrom_unique (p : SCANDEV_MACHINE_T → Bool)
    (ms : Fin SCANDEV_MAX_MACHINES → SCANDEV_MACHINE_T) (k : Fin SCANDEV_MAX_MACHINES)
    (hk : p (ms k) = true) (huniq : ∀ j, p (ms j) = true → j = k) :
    findFrom p ms 0 SCANDEV_MAX_MACHINES = some k := by
  cases h : findFrom p ms 0 SCANDEV_MAX_MACHINES with
  | none =>
    have := findFrom_none p ms SCANDEV_MAX_MACHINES 0 (by omega) h k (Nat.zero_le _)
    rw [hk] at this
    exact absurd this (by simp)
  | some j =>
    have := (findFrom_some p ms SCANDEV_MAX_MACHINES 0 j h).1
    rw [huniq j this]

theorem findMachineById_some (r : Registry) (id : List Byte) (k : Fin SCANDEV_MAX_MACHINES)
    (h : findMachineById r id = some k) :
    (r.machines k).in_use = true ∧ cstr (r.machines k).machineId = cstr id := by
  have := (findFrom_some _ _ _ _ _ h).1
  simpa [strcmpEq] using this

theorem findMachineById_none (r : Registry) (id : List Byte) (h : findMachineById r id = none) :
    ∀ j, (r.machines j).in_use = true → cstr (r.machines j).machineId ≠ cstr id := by
  intro j hj
  have := findFrom_none _ _ _ _ (by omega) h j (Nat.zero_le _)
  simpa [strcmpEq, hj] using this

theorem findMachineById_eq_none (r : Registry) (id : List Byte)
    (h : ∀ j, (r.machines j).in_use = true → cstr (r.machines j).machineId ≠ cstr id) :
    findMachineById r id = none := by
  cases hf : findMachineById r id with
  | none => rfl
  | some k =>
    obtain ⟨h1, h2⟩ := findMachineById_some r id k hf
    exact absurd h2 (h k h1)

theorem findEmptySlot_some (r : Registry) (k : Fin SCANDEV_MAX_MACHINES)
    (h : findEmptySlot r = some k) : (r.machines k).in_use = false := by
  have := (findFrom_some _ _ _ _ _ h).1
  simpa using this

theorem findEmptySlot_none (r : Registry) (h : findEmptySlot r = none) :
    ∀ j, (r.machines j).in_use = true := by
  intro j
  have := findFrom_none _ _ _ _ (by omega) h j (Nat.zero_le _)
  simpa using this

theorem findEmptySlot_eq_none (r : Registry) (h : ∀ j, (r.machines j).in_use = true) :
    findEmptySlot r = none := by
  cases hf : findEmptySlot r with
  | none => rfl
  | some k =>
    have := findEmptySlot_some r k hf
    rw [h k] at this
    exact absurd this (by simp)

theorem findEmptySlot_isSome (r : Registry) (k : Fin SCANDEV_MAX_MACHINES)
    (hk : (r.machines k).in_use = false) : ∃ j, findEmptySlot r = some j := by
  cases hf : findEmptySlot r with
  | none =>
    have := findEmptySlot_none r hf k
    rw [hk] at this
    exact absurd this (by simp)
  | some j => exact ⟨j, rfl⟩


theorem cstr_append_of_zeros (w z : List Byte) (hw : ∀ b ∈ w, b ≠ 0) (hz : ∀ b ∈ z, b = 0) :
    cstr (w ++ z) = w := by
  unfold cstr
  rw [List.takeWhile_append_of_pos (by simpa using hw)]
  cases z with
  | nil => simp
  | cons b t =>
    have hb : b = 0 := hz b (List.mem_cons_self _ _)
    simp [List.takeWhile_cons, hb]

theorem cstr_strncpy_zero (id : List Byte) :
    cstr (strncpy zeroMachine.machineId id MACHINE_ID_MAX_LEN)
      = (cstr id).take MACHINE_ID_MAX_LEN := by
  unfold strncpy
  simp only [List.append_assoc]
  apply cstr_append_of_zeros
  · intro b hb
    exact cstr_nonzero id b (List.mem_of_mem_take hb)
  · intro b hb
    rcases List.mem_append.mp hb with h | h
    · exact (List.mem_replicate.mp h).2
    · have h2 := List.mem_of_mem_drop h
      simp only [zeroMachine] at h2
      exact (List.mem_replicate.mp h2).2

theorem touchMachine_in_use (m : SCANDEV_MACHINE_T) (now : Int) (addr : BLEAddress)
    (running empty : Bool) (rssi : Int) :
    (touchMachine m now addr running empty rssi).in_use = m.in_use := by
  unfold touchMachine
  dsimp only
  split <;> rfl

theorem touchMachine_machineId (m : SCANDEV_MACHINE_T) (now : Int) (addr : BLEAddress)
    (running empty : Bool) (rssi : Int) :
    (touchMachine m now addr running empty rssi).machineId = m.machineId := by
  unfold touchMachine
  dsimp only
  split <;> rfl

/-- The fields `touchMachine` refreshes on every call (lines 103-108). -/
theorem touchMachine_refreshed (m : SCANDEV_MACHINE_T) (now : Int) (addr : BLEAddress)
    (running empty : Bool) (rssi : Int) :
    (touchMachine m now addr running empty rssi).last_seen = now ∧
    (touchMachine m now addr running empty rssi).present = true ∧
    (touchMachine m now addr running empty rssi).rssi = rssi ∧
    (touchMachine m now addr running empty rssi).addr = addr ∧
    (touchMachine m now addr running empty rssi).running = running ∧
    (touchMachine m now addr running empty rssi).empty = empty := by
  unfold touchMachine
  dsimp only
  split <;> exact ⟨rfl, rfl, rfl, rfl, rfl, rfl⟩

/-- An observation that repeats the stored flags changes none of the publish
bookkeeping. -/
theorem touchMachine_same_flags (m : SCANDEV_MACHINE_T) (now : Int) (addr : BLEAddress)
    (running empty : Bool) (rssi : Int) (hr : m.running = running) (he : m.empty = empty) :
    (touchMachine m now addr running empty rssi).post_pending = m.post_pending ∧
    (touchMachine m now addr running empty rssi).prev_running = m.prev_running ∧
    (touchMachine m now addr running empty rssi).prev_empty = m.prev_empty := by
  unfold touchMachine
  simp [hr, he]

/-- The publish bookkeeping of a slot right after its creation. -/
theorem touchMachine_newMachine (now : Int) (addr : BLEAddress) (id : List Byte)
    (running empty : Bool) (rssi : Int) :
    (touchMachine (newMachine addr id running empty) now addr running empty rssi).post_pending
      = (running || empty) ∧
    (touchMachine (newMachine addr id running empty) now addr running empty rssi).prev_running
      = (if running || empty then running else true) ∧
    (touchMachine (newMachine addr id running empty) now addr running empty rssi).prev_empty
      = (if running || empty then empty else true) := by
  cases running <;> cases empty <;> exact ⟨rfl, rfl, rfl⟩

theorem ScanDevAddMachine_found (r : Registry) (now : Int) (addr : BLEAddress) (id : List Byte)
    (running empty : Bool) (rssi : Int) (i : Fin SCANDEV_MAX_MACHINES)
    (h : findMachineById r id = some i) :
    ScanDevAddMachine r now addr id running empty rssi
      = (true, { machines := Function.update r.machines i
                    (touchMachine (r.machines i) now addr running empty rssi)
                 machine_count := r.machine_count }) := by
  simp [ScanDevAddMachine, claimSlot, h]

theorem ScanDevAddMachine_created (r : Registry) (now : Int) (addr : BLEAddress) (id : List Byte)
    (running empty : Bool) (rssi : Int) (j : Fin SCANDEV_MAX_MACHINES)
    (h : findMachineById r id = none) (hj : findEmptySlot r = some j) :
    ScanDevAddMachine r now addr id running empty rssi
      = (true, { machines := Function.update r.machines j
                    (touchMachine (newMachine addr id running empty) now addr running empty rssi)
                 machine_count := r.machine_count + 1 }) := by
  simp [ScanDevAddMachine, claimSlot, h, hj]

theorem ScanDevAddMachine_full (r : Registry) (now : Int) (addr : BLEAddress) (id : List Byte)
    (running empty : Bool) (rssi : Int)
    (h : findMachineById r id = none) (hj : findEmptySlot r = none) :
    ScanDevAddMachine r now addr id running empty rssi = (false, r) := by
  simp [ScanDevAddMachine, claimSlot, h, hj]

/-- Refreshing the slot the lookup returned does not change what the lookup
returns. -/
theorem findMachineById_touch (r : Registry) (id2 : List Byte) (i : Fin SCANDEV_MAX_MACHINES)
    (now : Int) (addr : BLEAddress) (running empty : Bool) (rssi : Int) (c : Int) :
    findMachineById
        { machines := Function.update r.machines i
            (touchMachine (r.machines i) now addr running empty rssi)
          machine_count := c } id2
      = findMachineById r id2 := by
  unfold findMachineById
  apply findFrom_congr
  intro j
  by_cases hji : j = i
  · subst hji
    simp [touchMachine_in_use, touchMachine_machineId]
  · simp [Function.update_noteq hji]


/-! ## Claims about `ScanDevAddMachine` -/

/-- C1 (evaluation at the failing input): right after `ScanDevSetup`, the first
observation of machine "A" with `running = false` and `empty = false` creates
slot 0 (the id was not in the registry, the call returns true, the count becomes
1) with `prev_running = prev_empty = true`, yet leaves `post_pending = false`;
with any other pair of flags the created entry has `post_pending = true`. -/
theorem first_sight_idle_machine_not_pending :
    findMachineById ScanDevSetup [65, 0] = none ∧
    findEmptySlot ScanDevSetup = some 0 ∧
    (ScanDevAddMachine ScanDevSetup 100 7 [65, 0] false false (-50)).1 = true ∧
    (ScanDevAddMachine ScanDevSetup 100 7 [65, 0] false false (-50)).2.machine_count = 1 ∧
    ((ScanDevAddMachine ScanDevSetup 100 7 [65, 0] false false (-50)).2.machines 0).in_use = true ∧
    cstr ((ScanDevAddMachine ScanDevSetup 100 7 [65, 0] false false (-50)).2.machines 0).machineId
      = [65] ∧
    ((ScanDevAddMachine ScanDevSetup 100 7 [65, 0] false false (-50)).2.machines 0).post_pending
      = false ∧
    ((ScanDevAddMachine ScanDevSetup 100 7 [65, 0] true false (-50)).2.machines 0).post_pending
      = true ∧
    ((ScanDevAddMachine ScanDevSetup 100 7 [65, 0] false true (-50)).2.machines 0).post_pending
      = true ∧
    ((ScanDevAddMachine ScanDevSetup 100 7 [65, 0] true true (-50)).2.machines 0).post_pending
      = true := by
  decide

/-- C5 (evaluation at the failing input): right after `ScanDevSetup`, observing
machine "A" with `running = false`, `empty = false` claims slot 0 with
`(prev_running, prev_empty) = (true, true)` when the comparison is made, which
differs from the observed flags; the call returns true but leaves
`post_pending = false` and `(prev_running, prev_empty) = (true, true)`. A second
identical observation (an update of slot 0) again meets
`(prev_running, prev_empty) = (true, true)` and again changes neither. -/
theorem idle_first_sight_prev_not_advanced :
    (claimSlot ScanDevSetup 7 [65, 0] false false).map
        (fun x => (x.1, (x.2.machines x.1).prev_running, (x.2.machines x.1).prev_empty))
      = some (0, true, true) ∧
    (ScanDevAddMachine ScanDevSetup 100 7 [65, 0] false false (-50)).1 = true ∧
    ((ScanDevAddMachine ScanDevSetup 100 7 [65, 0] false false (-50)).2.machines 0).post_pending
      = false ∧
    ((ScanDevAddMachine ScanDevSetup 100 7 [65, 0] false false (-50)).2.machines 0).prev_running
      = true ∧
    ((ScanDevAddMachine ScanDevSetup 100 7 [65, 0] false false (-50)).2.machines 0).prev_empty
      = true ∧
    (claimSlot (ScanDevAddMachine ScanDevSetup 100 7 [65, 0] false false (-50)).2
        7 [65, 0] false false).map
        (fun x => (x.1, (x.2.machines x.1).prev_running, (x.2.machines x.1).prev_empty))
      = some (0, true, true) ∧
    (ScanDevAddMachine (ScanDevAddMachine ScanDevSetup 100 7 [65, 0] false false (-50)).2
        130 7 [65, 0] false false (-50)).1 = true ∧
    ((ScanDevAddMachine (ScanDevAddMachine ScanDevSetup 100 7 [65, 0] false false (-50)).2
        130 7 [65, 0] false false (-50)).2.machines 0).post_pending = false ∧
    ((ScanDevAddMachine (ScanDevAddMachine ScanDevSetup 100 7 [65, 0] false false (-50)).2
        130 7 [65, 0] false false (-50)).2.machines 0).prev_running = true ∧
    ((ScanDevAddMachine (ScanDevAddMachine ScanDevSetup 100 7 [65, 0] false false (-50)).2
        130 7 [65, 0] false false (-50)).2.machines 0).prev_empty = true := by
  decide

/-- C7: when every slot is in use and the observed machine id matches no in-use
entry, `ScanDevAddMachine` returns false and the registry (every slot and
`_machine_count`) is the one before the call. -/
theorem full_registry_rejects_new_machine (r : Registry) (now : Int) (addr : BLEAddress)
    (machineId : List Byte) (running empty : Bool) (rssi : Int)
    (hfull : ∀ i, (r.machines i).in_use = true)
    (hnew : ∀ i, (r.machines i).in_use = true →
      cstr (r.machines i).machineId ≠ cstr machineId) :
    ScanDevAddMachine r now addr machineId running empty rssi = (false, r) :=
  ScanDevAddMachine_full r now addr machineId running empty rssi
    (findMachineById_eq_none r machineId hnew) (findEmptySlot_eq_none r hfull)

/-- Witness of C7: the registry with all 50 slots in use rejects the unseen
machine "N". -/
theorem full_registry_rejects_new_machine_witness :
    (∀ i, (fullRegistry.machines i).in_use = true) ∧
    (∀ i, (fullRegistry.machines i).in_use = true →
      cstr (fullRegistry.machines i).machineId ≠ cstr [78, 0]) ∧
    ScanDevAddMachine fullRegistry 100 7 [78, 0] true false (-50) = (false, fullRegistry) :=
  ⟨fun _ => rfl, by decide,
    full_registry_rejects_new_machine fullRegistry 100 7 [78, 0] true false (-50)
      (fun _ => rfl) (by decide)⟩


/-- After a creation in slot `j`, a lookup of the same id can only return `j`. -/
theorem findMachineById_after_create (r : Registry) (id : List Byte)
    (j k : Fin SCANDEV_MAX_MACHINES) (m : SCANDEV_MACHINE_T) (c : Int)
    (hnone : findMachineById r id = none)
    (hk : findMachineById { machines := Function.update r.machines j m, machine_count := c } id
      = some k) : k = j := by
  by_contra hne
  obtain ⟨h1, h2⟩ := findMachineById_some _ id k hk
  simp only [Function.update_noteq hne] at h1 h2
  exact findMachineById_none r id hnone k h1 h2

/-- After a creation in slot `j` whose stored id compares equal to the observed
id, the lookup of that id returns `j`. -/
theorem findMachineById_created (r : Registry) (id : List Byte)
    (j : Fin SCANDEV_MAX_MACHINES) (m : SCANDEV_MACHINE_T) (c : Int)
    (hnone : findMachineById r id = none) (huse : m.in_use = true)
    (hid : cstr m.machineId = cstr id) :
    findMachineById { machines := Function.update r.machines j m, machine_count := c } id
      = some j := by
  unfold findMachineById
  apply findFrom_unique
  · simp [huse, strcmpEq, hid]
  · intro k hk
    by_contra hne
    simp only [Function.update_noteq hne] at hk
    have hk2 : (r.machines k).in_use = true ∧ cstr (r.machines k).machineId = cstr id := by
      simpa [strcmpEq] using hk
    exact findMachineById_none r id hnone k hk2.1 hk2.2

/-- C8: after a call of `ScanDevAddMachine` at time `now` that returns true, the
slot the call worked on (found by id, or newly claimed) is in use, holds the
observed id (cut to 16 bytes on creation), is the entry `findMachineById`
returns for the observed id when that id has at most 16 bytes, and has
`last_seen = now`, `present = true` and the observed rssi, address, running
and empty. -/
theorem successful_add_refreshes_entry (r : Registry) (now : Int) (addr : BLEAddress)
    (machineId : List Byte) (running empty : Bool) (rssi : Int)
    (hok : (ScanDevAddMachine r now addr machineId running empty rssi).1 = true) :
    ∃ i r1, claimSlot r addr machineId running empty = some (i, r1) ∧
      ((ScanDevAddMachine r now addr machineId running empty rssi).2.machines i).in_use = true ∧
      (cstr ((ScanDevAddMachine r now addr machineId running empty rssi).2.machines i).machineId
          = cstr machineId ∨
        (findMachineById r machineId = none ∧
          cstr ((ScanDevAddMachine r now addr machineId running empty rssi).2.machines i).machineId
            = (cstr machineId).take MACHINE_ID_MAX_LEN)) ∧
      ((cstr machineId).length ≤ MACHINE_ID_MAX_LEN →
        findMachineById (ScanDevAddMachine r now addr machineId running empty rssi).2 machineId
          = some i) ∧
      ((ScanDevAddMachine r now addr machineId running empty rssi).2.machines i).last_seen = now ∧
      ((ScanDevAddMachine r now addr machineId running empty rssi).2.machines i).present = true ∧
      ((ScanDevAddMachine r now addr machineId running empty rssi).2.machines i).rssi = rssi ∧
      ((ScanDevAddMachine r now addr machineId running empty rssi).2.machines i).addr = addr ∧
      ((ScanDevAddMachine r now addr machineId running empty rssi).2.machines i).running
        = running ∧
      ((ScanDevAddMachine r now addr machineId running empty rssi).2.machines i).empty = empty := by
  cases hfind : findMachineById r machineId with
  | some i =>
    obtain ⟨huse, hid⟩ := findMachineById_some r machineId i hfind
    obtain ⟨h1, h2, h3, h4, h5, h6⟩ :=
      touchMachine_refreshed (r.machines i) now addr running empty rssi
    refine ⟨i, r, by simp [claimSlot, hfind], ?_⟩
    rw [ScanDevAddMachine_found r now addr machineId running empty rssi i hfind]
    simp only [Function.update_same]
    refine ⟨by rw [touchMachine_in_use]; exact huse,
      Or.inl (by rw [touchMachine_machineId]; exact hid), ?_, h1, h2, h3, h4, h5, h6⟩
    intro _
    rw [findMachineById_touch]
    exact hfind
  | none =>
    cases hslot : findEmptySlot r with
    | none =>
      rw [ScanDevAddMachine_full r now addr machineId running empty rssi hfind hslot] at hok
      simp at hok
    | some j =>
      obtain ⟨h1, h2, h3, h4, h5, h6⟩ :=
        touchMachine_refreshed (newMachine addr machineId running empty) now addr running empty rssi
      have hid : cstr (touchMachine (newMachine addr machineId running empty)
          now addr running empty rssi).machineId = (cstr machineId).take MACHINE_ID_MAX_LEN := by
        rw [touchMachine_machineId]
        exact cstr_strncpy_zero machineId
      have huse : (touchMachine (newMachine addr machineId running empty)
          now addr running empty rssi).in_use = true := by
        rw [touchMachine_in_use]
        rfl
      refine ⟨j, { machines := Function.update r.machines j (newMachine addr machineId running empty)
                   machine_count := r.machine_count + 1 },
        by simp only [claimSlot, hfind, hslot], ?_⟩
      rw [ScanDevAddMachine_created r now addr machineId running empty rssi j hfind hslot]
      simp only [Function.update_same]
      refine ⟨huse, Or.inr ⟨trivial, hid⟩, ?_, h1, h2, h3, h4, h5, h6⟩
      intro hlen
      apply findMachineById_created r machineId j _ _ hfind huse
      rw [hid, List.take_of_length_le hlen]

/-- Witness of C8: the first observation of machine "A" after `ScanDevSetup`. -/
theorem successful_add_refreshes_entry_witness :
    (ScanDevAddMachine ScanDevSetup 100 7 [65, 0] true false (-50)).1 = true ∧
    ∃ i r1, claimSlot ScanDevSetup 7 [65, 0] true false = some (i, r1) ∧
      ((ScanDevAddMachine ScanDevSetup 100 7 [65, 0] true false (-50)).2.machines i).last_seen
        = 100 ∧
      ((ScanDevAddMachine ScanDevSetup 100 7 [65, 0] true false (-50)).2.machines i).present
        = true :=
  ⟨by decide,
    let ⟨i, r1, h, _, _, _, h1, h2, _⟩ :=
      successful_add_refreshes_entry ScanDevSetup 100 7 [65, 0] true false (-50) (by decide)
    ⟨i, r1, h, h1, h2⟩⟩


/-- C6: two consecutive `ScanDevAddMachine` calls for the same machine id with
identical `(running, empty)`: with `r1` the registry after the first call and
`r2` the registry after the second, (a) every slot in use after the first call
has the same `post_pending`, `prev_running` and `prev_empty` in `r2` as in `r1`;
(b) the slot the second call worked on holds in `r2` the same three values as
the slot the first call worked on holds in `r1`; (c) when the id has at most 16
bytes, the second call works on the same slot and every slot of the table keeps
these three values. -/
theorem repeated_observation_keeps_pending (r r1 r2 : Registry) (machineId : List Byte)
    (running empty : Bool) (now1 now2 : Int) (addr1 addr2 : BLEAddress) (rssi1 rssi2 : Int)
    (h1 : r1 = (ScanDevAddMachine r now1 addr1 machineId running empty rssi1).2)
    (h2 : r2 = (ScanDevAddMachine r1 now2 addr2 machineId running empty rssi2).2) :
    (∀ k, (r1.machines k).in_use = true →
      (r2.machines k).post_pending = (r1.machines k).post_pending ∧
      (r2.machines k).prev_running = (r1.machines k).prev_running ∧
      (r2.machines k).prev_empty = (r1.machines k).prev_empty) ∧
    (∀ i1 ra i2 rb, claimSlot r addr1 machineId running empty = some (i1, ra) →
      claimSlot r1 addr2 machineId running empty = some (i2, rb) →
      (r2.machines i2).post_pending = (r1.machines i1).post_pending ∧
      (r2.machines i2).prev_running = (r1.machines i1).prev_running ∧
      (r2.machines i2).prev_empty = (r1.machines i1).prev_empty) ∧
    ((cstr machineId).length ≤ MACHINE_ID_MAX_LEN →
      (∀ i1 ra i2 rb, claimSlot r addr1 machineId running empty = some (i1, ra) →
        claimSlot r1 addr2 machineId running empty = some (i2, rb) → i2 = i1) ∧
      ∀ k, (r2.machines k).post_pending = (r1.machines k).post_pending ∧
        (r2.machines k).prev_running = (r1.machines k).prev_running ∧
        (r2.machines k).prev_empty = (r1.machines k).prev_empty) := by
  -- the second call when it finds the slot `i` the first call has just refreshed
  have refound : ∀ (i : Fin SCANDEV_MAX_MACHINES),
      findMachineById r1 machineId = some i →
      (r1.machines i).running = running → (r1.machines i).empty = empty →
      (∀ k, (r2.machines k).post_pending = (r1.machines k).post_pending ∧
        (r2.machines k).prev_running = (r1.machines k).prev_running ∧
        (r2.machines k).prev_empty = (r1.machines k).prev_empty) ∧
      ∀ i2 rb, claimSlot r1 addr2 machineId running empty = some (i2, rb) → i2 = i := by
    intro i hfind hr he
    constructor
    · intro k
      rw [h2, ScanDevAddMachine_found r1 now2 addr2 machineId running empty rssi2 i hfind]
      by_cases hk : k = i
      · subst hk
        simp only [Function.update_same]
        exact touchMachine_same_flags _ now2 addr2 running empty rssi2 hr he
      · simp [Function.update_noteq hk]
    · intro i2 rb hc
      simp only [claimSlot, hfind, Option.some.injEq, Prod.mk.injEq] at hc
      exact hc.1.symm
  cases hfind : findMachineById r machineId with
  | some i =>
    have hr1 : r1 = Registry.mk
        (Function.update r.machines i (touchMachine (r.machines i) now1 addr1 running empty rssi1))
        r.machine_count := by
      rw [h1, ScanDevAddMachine_found r now1 addr1 machineId running empty rssi1 i hfind]
    have hfind1 : findMachineById r1 machineId = some i := by
      rw [hr1, findMachineById_touch]
      exact hfind
    have hfl := touchMachine_refreshed (r.machines i) now1 addr1 running empty rssi1
    have hrun : (r1.machines i).running = running := by
      rw [hr1]
      simp only [Function.update_same]
      exact hfl.2.2.2.2.1
    have hemp : (r1.machines i).empty = empty := by
      rw [hr1]
      simp only [Function.update_same]
      exact hfl.2.2.2.2.2
    obtain ⟨hall, hsame⟩ := refound i hfind1 hrun hemp
    refine ⟨fun k _ => hall k, ?_, fun _ => ⟨?_, hall⟩⟩
    · intro i1 ra i2 rb hc1 hc2
      have e2 : i2 = i := hsame i2 rb hc2
      have e1 : i1 = i := by
        simp only [claimSlot, hfind, Option.some.injEq, Prod.mk.injEq] at hc1
        exact hc1.1.symm
      rw [e1, e2]
      exact hall i
    · intro i1 ra i2 rb hc1 hc2
      have e2 : i2 = i := hsame i2 rb hc2
      have e1 : i1 = i := by
        simp only [claimSlot, hfind, Option.some.injEq, Prod.mk.injEq] at hc1
        exact hc1.1.symm
      rw [e1, e2]
  | none =>
    cases hslot : findEmptySlot r with
    | none =>
      have hr1 : r1 = r := by
        rw [h1, ScanDevAddMachine_full r now1 addr1 machineId running empty rssi1 hfind hslot]
      have hr2 : r2 = r := by
        rw [h2, hr1, ScanDevAddMachine_full r now2 addr2 machineId running empty rssi2 hfind hslot]
      have hno : ∀ i1 ra, claimSlot r addr1 machineId running empty ≠ some (i1, ra) := by
        intro i1 ra
        simp [claimSlot, hfind, hslot]
      rw [hr1, hr2]
      exact ⟨fun k _ => ⟨rfl, rfl, rfl⟩, fun i1 ra i2 rb hc1 _ => absurd hc1 (hno i1 ra),
        fun _ => ⟨fun i1 ra i2 rb hc1 _ => absurd hc1 (hno i1 ra), fun k => ⟨rfl, rfl, rfl⟩⟩⟩
    | some j =>
      have hr1 : r1 = Registry.mk
          (Function.update r.machines j
            (touchMachine (newMachine addr1 machineId running empty) now1 addr1 running empty rssi1))
          (r.machine_count + 1) := by
        rw [h1, ScanDevAddMachine_created r now1 addr1 machineId running empty rssi1 j hfind hslot]
      have hc1j : ∀ i1 ra, claimSlot r addr1 machineId running empty = some (i1, ra) → i1 = j := by
        intro i1 ra hc1
        simp only [claimSlot, hfind, hslot, Option.some.injEq, Prod.mk.injEq] at hc1
        exact hc1.1.symm
      have hfl := touchMachine_refreshed (newMachine addr1 machineId running empty)
        now1 addr1 running empty rssi1
      have hr1j : r1.machines j = touchMachine (newMachine addr1 machineId running empty)
          now1 addr1 running empty rssi1 := by
        rw [hr1]
        simp only [Function.update_same]
      have hrun : (r1.machines j).running = running := by
        rw [hr1j]
        exact hfl.2.2.2.2.1
      have hemp : (r1.machines j).empty = empty := by
        rw [hr1j]
        exact hfl.2.2.2.2.2
      have huse : (r1.machines j).in_use = true := by
        rw [hr1j, touchMachine_in_use]
        rfl
      have hidj : cstr (r1.machines j).machineId = (cstr machineId).take MACHINE_ID_MAX_LEN := by
        rw [hr1j, touchMachine_machineId]
        exact cstr_strncpy_zero machineId
      cases hfind1 : findMachineById r1 machineId with
      | some i =>
        have hij : i = j := by
          rw [hr1] at hfind1
          exact findMachineById_after_create r machineId j i _ _ hfind hfind1
        subst hij
        obtain ⟨hall, hsame⟩ := refound i hfind1 hrun hemp
        refine ⟨fun k _ => hall k, ?_, fun _ => ⟨?_, hall⟩⟩
        · intro i1 ra i2 rb hc1 hc2
          rw [hc1j i1 ra hc1, hsame i2 rb hc2]
          exact hall i
        · intro i1 ra i2 rb hc1 hc2
          rw [hc1j i1 ra hc1, hsame i2 rb hc2]
      | none =>
        have hlong : ¬ (cstr machineId).length ≤ MACHINE_ID_MAX_LEN := by
          intro hlen
          apply findMachineById_none r1 machineId hfind1 j huse
          rw [hidj, List.take_of_length_le hlen]
        cases hslot1 : findEmptySlot r1 with
        | none =>
          have hr2 : r2 = r1 := by
            rw [h2, ScanDevAddMachine_full r1 now2 addr2 machineId running empty rssi2
              hfind1 hslot1]
          have hno : ∀ i2 rb, claimSlot r1 addr2 machineId running empty ≠ some (i2, rb) := by
            intro i2 rb
            simp [claimSlot, hfind1, hslot1]
          rw [hr2]
          exact ⟨fun k _ => ⟨rfl, rfl, rfl⟩, fun i1 ra i2 rb _ hc2 => absurd hc2 (hno i2 rb),
            fun hlen => absurd hlen hlong⟩
        | some j2 =>
          have hfree : (r1.machines j2).in_use = false := findEmptySlot_some r1 j2 hslot1
          have hr2 : r2 = Registry.mk
              (Function.update r1.machines j2
                (touchMachine (newMachine addr2 machineId running empty)
                  now2 addr2 running empty rssi2))
              (r1.machine_count + 1) := by
            rw [h2, ScanDevAddMachine_created r1 now2 addr2 machineId running empty rssi2 j2
              hfind1 hslot1]
          refine ⟨?_, ?_, fun hlen => absurd hlen hlong⟩
          · intro k hk
            have hne : k ≠ j2 := by
              intro e
              rw [e, hfree] at hk
              exact absurd hk (by simp)
            rw [hr2]
            simp [Function.update_noteq hne]
          · intro i1 ra i2 rb hc1 hc2
            have e1 : i1 = j := hc1j i1 ra hc1
            have e2 : i2 = j2 := by
              simp only [claimSlot, hfind1, hslot1, Option.some.injEq, Prod.mk.injEq] at hc2
              exact hc2.1.symm
            have n1 := touchMachine_newMachine now1 addr1 machineId running empty rssi1
            have n2 := touchMachine_newMachine now2 addr2 machineId running empty rssi2
            rw [e1, e2, hr1j, hr2]
            simp only [Function.update_same]
            exact ⟨n2.1.trans n1.1.symm, n2.2.1.trans n1.2.1.symm, n2.2.2.trans n1.2.2.symm⟩

/-- Witness of C6: machine "A" observed twice as running after `ScanDevSetup`;
the entry is pending after the first call and still pending after the second. -/
theorem repeated_observation_keeps_pending_witness :
    ((ScanDevAddMachine ScanDevSetup 100 7 [65, 0] true false (-50)).2.machines 0).in_use = true ∧
    ((ScanDevAddMachine ScanDevSetup 100 7 [65, 0] true false (-50)).2.machines 0).post_pending
      = true ∧
    ((ScanDevAddMachine (ScanDevAddMachine ScanDevSetup 100 7 [65, 0] true false (-50)).2
        130 7 [65, 0] true false (-55)).2.machines 0).post_pending
      = ((ScanDevAddMachine ScanDevSetup 100 7 [65, 0] true false (-50)).2.machines 0).post_pending :=
  ⟨by decide, by decide,
    ((repeated_observation_keeps_pending ScanDevSetup _ _ [65, 0] true false 100 130 7 7
      (-50) (-55) rfl rfl).1 0 (by decide)).1⟩


/-! ## `ScanDevUpdate` lemmas -/

theorem updateFrom_machines (currentTime absence_timeout : Int)
    (mqtt : Fin SCANDEV_MAX_MACHINES → Bool) :
    ∀ (fuel i : Nat) (ms : Fin SCANDEV_MAX_MACHINES → SCANDEV_MACHINE_T) (log : List PublishCall),
      SCANDEV_MAX_MACHINES ≤ i + fuel → ∀ k : Fin SCANDEV_MAX_MACHINES,
      (updateFrom currentTime absence_timeout mqtt i fuel ms log).1 k
        = if i ≤ k.val ∧ (ms k).in_use = true then
            (updateMachine currentTime absence_timeout (mqtt k) (ms k)).1
          else ms k := by
  intro fuel
  induction fuel with
  | zero =>
    intro i ms log hfuel k
    have := k.isLt
    have hik : ¬ i ≤ k.val := by omega
    simp [updateFrom, hik]
  | succ fuel ih =>
    intro i ms log hfuel k
    unfold updateFrom
    split
    · rename_i hi
      split
      · rename_i hfree
        rw [ih (i + 1) ms log (by omega) k]
        by_cases hki : k.val = i
        · have hk : k = ⟨i, hi⟩ := Fin.ext hki
          subst hk
          have hfree2 : (ms ⟨i, hi⟩).in_use = false := by simpa using hfree
          simp [hfree2]
        · have h1 : i + 1 ≤ k.val ↔ i ≤ k.val := by omega
          simp only [h1]
      · rename_i hused
        have hused2 : (ms ⟨i, hi⟩).in_use = true := by simpa using hused
        dsimp only
        rw [ih (i + 1) _ _ (by omega) k]
        by_cases hki : k.val = i
        · have hk : k = ⟨i, hi⟩ := Fin.ext hki
          subst hk
          simp [hused2]
        · have hne : k ≠ ⟨i, hi⟩ := fun e => hki (by rw [e])
          have h1 : i + 1 ≤ k.val ↔ i ≤ k.val := by omega
          rw [Function.update_noteq hne]
          simp only [h1]
    · have := k.isLt
      have hik : ¬ i ≤ k.val := by omega
      simp [hik]

/-- `ScanDevUpdate` acts slot by slot: an in-use slot is replaced by the result
of the loop body, any other slot is left alone. -/
theorem ScanDevUpdate_machines (cfg : CONFIG_BT_T) (r : Registry) (currentTime : Int)
    (mqtt : Fin SCANDEV_MAX_MACHINES → Bool) (k : Fin SCANDEV_MAX_MACHINES) :
    (ScanDevUpdate cfg r currentTime mqtt).1.machines k
      = if (r.machines k).in_use = true then
          (updateMachine currentTime (toInt32 (ABSENCE_TIMEOUT cfg)) (mqtt k) (r.machines k)).1
        else r.machines k := by
  unfold ScanDevUpdate
  dsimp only
  rw [updateFrom_machines _ _ _ _ _ _ _ (by omega) k]
  simp

theorem updateMachine_in_use (currentTime absence_timeout : Int) (mqtt : Bool)
    (m : SCANDEV_MACHINE_T) :
    (updateMachine currentTime absence_timeout mqtt m).1.in_use = m.in_use := by
  unfold updateMachine
  dsimp only
  split_ifs <;> rfl

theorem updateMachine_machineId (currentTime absence_timeout : Int) (mqtt : Bool)
    (m : SCANDEV_MACHINE_T) :
    (updateMachine currentTime absence_timeout mqtt m).1.machineId = m.machineId := by
  unfold updateMachine
  dsimp only
  split_ifs <;> rfl

theorem updateMachine_present (currentTime absence_timeout : Int) (mqtt : Bool)
    (m : SCANDEV_MACHINE_T) :
    (updateMachine currentTime absence_timeout mqtt m).1.present
      = (m.present && !decide (currentTime - m.last_seen > absence_timeout)) := by
  unfold updateMachine
  dsimp only
  split_ifs <;> simp_all

theorem ScanDevUpdate_in_use (cfg : CONFIG_BT_T) (r : Registry) (currentTime : Int)
    (mqtt : Fin SCANDEV_MAX_MACHINES → Bool) (k : Fin SCANDEV_MAX_MACHINES) :
    ((ScanDevUpdate cfg r currentTime mqtt).1.machines k).in_use = (r.machines k).in_use := by
  rw [ScanDevUpdate_machines]
  split
  · exact updateMachine_in_use _ _ _ _
  · rfl

theorem ScanDevUpdate_machineId (cfg : CONFIG_BT_T) (r : Registry) (currentTime : Int)
    (mqtt : Fin SCANDEV_MAX_MACHINES → Bool) (k : Fin SCANDEV_MAX_MACHINES) :
    ((ScanDevUpdate cfg r currentTime mqtt).1.machines k).machineId
      = (r.machines k).machineId := by
  rw [ScanDevUpdate_machines]
  split
  · exact updateMachine_machineId _ _ _ _
  · rfl

/-- When the product fits in an `int`, the value stored in `absence_timeout` is
`absence_cycles * (scan_time + pause_time)`. -/
theorem absence_timeout_eq (cfg : CONFIG_BT_T)
    (hlo : -(2 ^ 31 : Int) ≤ cfg.absence_cycles * ((cfg.scan_time : Int) + (cfg.pause_time : Int)))
    (hhi : cfg.absence_cycles * ((cfg.scan_time : Int) + (cfg.pause_time : Int)) < 2 ^ 31) :
    toInt32 (ABSENCE_TIMEOUT cfg)
      = cfg.absence_cycles * ((cfg.scan_time : Int) + (cfg.pause_time : Int)) := by
  have hcast : ((ABSENCE_TIMEOUT cfg : Nat) : Int)
      = (cfg.absence_cycles * ((cfg.scan_time : Int) + (cfg.pause_time : Int))) % 4294967296 := by
    have hnn : (0 : Int) ≤ cfg.absence_cycles % 4294967296 := Int.emod_nonneg _ (by decide)
    have e1 : (((cfg.absence_cycles % 4294967296).toNat : Nat) : Int)
        = cfg.absence_cycles % 4294967296 := Int.toNat_of_nonneg hnn
    have e2 : ((((cfg.scan_time % 4294967296 + cfg.pause_time % 4294967296) % 4294967296 : Nat)) : Int)
        = ((cfg.scan_time : Int) + (cfg.pause_time : Int)) % 4294967296 := by omega
    have e3 : ABSENCE_TIMEOUT cfg
        = ((cfg.absence_cycles % 4294967296).toNat
            * ((cfg.scan_time % 4294967296 + cfg.pause_time % 4294967296) % 4294967296))
          % 4294967296 := rfl
    rw [e3, Int.natCast_mod, Int.natCast_mul, e1, e2]
    exact (Int.mul_emod _ _ _).symm
  have hlt : ABSENCE_TIMEOUT cfg < 4294967296 := by
    unfold ABSENCE_TIMEOUT
    exact Nat.mod_lt _ (by decide)
  unfold toInt32
  simp only [ULONG_MOD]
  norm_num
  rw [Nat.mod_eq_of_lt hlt]
  split <;> omega


/-! ## Claims about the registry as a whole -/

/-- No two in-use slots hold ids that `strcmp` finds equal. -/
theorem distinct_ids_of_same_keys (r r2 : Registry)
    (hinv : ∀ i j, (r.machines i).in_use = true → (r.machines j).in_use = true → i ≠ j →
      cstr (r.machines i).machineId ≠ cstr (r.machines j).machineId)
    (hkeys : ∀ k, (r2.machines k).in_use = (r.machines k).in_use ∧
      (r2.machines k).machineId = (r.machines k).machineId) :
    ∀ i j, (r2.machines i).in_use = true → (r2.machines j).in_use = true → i ≠ j →
      cstr (r2.machines i).machineId ≠ cstr (r2.machines j).machineId := by
  intro i j hi hj hne
  rw [(hkeys i).1] at hi
  rw [(hkeys j).1] at hj
  rw [(hkeys i).2, (hkeys j).2]
  exact hinv i j hi hj hne

theorem distinct_ids_addMachine (r : Registry) (now : Int) (addr : BLEAddress)
    (machineId : List Byte) (running empty : Bool) (rssi : Int)
    (hlen : (cstr machineId).length ≤ MACHINE_ID_MAX_LEN)
    (hinv : ∀ i j, (r.machines i).in_use = true → (r.machines j).in_use = true → i ≠ j →
      cstr (r.machines i).machineId ≠ cstr (r.machines j).machineId) :
    ∀ i j, ((ScanDevAddMachine r now addr machineId running empty rssi).2.machines i).in_use = true →
      ((ScanDevAddMachine r now addr machineId running empty rssi).2.machines j).in_use = true →
      i ≠ j →
      cstr ((ScanDevAddMachine r now addr machineId running empty rssi).2.machines i).machineId
        ≠ cstr ((ScanDevAddMachine r now addr machineId running empty rssi).2.machines j).machineId := by
  cases hfind : findMachineById r machineId with
  | some k =>
    apply distinct_ids_of_same_keys r _ hinv
    intro a
    rw [ScanDevAddMachine_found r now addr machineId running empty rssi k hfind]
    by_cases hak : a = k
    · subst hak
      simp [touchMachine_in_use, touchMachine_machineId]
    · simp [Function.update_noteq hak]
  | none =>
    cases hslot : findEmptySlot r with
    | none =>
      rw [ScanDevAddMachine_full r now addr machineId running empty rssi hfind hslot]
      exact hinv
    | some k =>
      rw [ScanDevAddMachine_created r now addr machineId running empty rssi k hfind hslot]
      have hid : cstr (touchMachine (newMachine addr machineId running empty)
          now addr running empty rssi).machineId = cstr machineId := by
        rw [touchMachine_machineId]
        exact (cstr_strncpy_zero machineId).trans (List.take_of_length_le hlen)
      have hold := findMachineById_none r machineId hfind
      intro i j hi hj hne
      by_cases hik : i = k
      · subst hik
        have hjk : j ≠ i := fun e => hne e.symm
        simp only [Function.update_same, Function.update_noteq hjk] at hi hj ⊢
        rw [hid]
        exact fun e => hold j hj e.symm
      · by_cases hjk : j = k
        · subst hjk
          simp only [Function.update_same, Function.update_noteq hik] at hi hj ⊢
          rw [hid]
          exact hold i hi
        · simp only [Function.update_noteq hik, Function.update_noteq hjk] at hi hj ⊢
          exact hinv i j hi hj hne

theorem distinct_ids_foldl (calls : List Call) :
    ∀ r : Registry, (∀ c ∈ calls, c.idWithinLimit = true) →
      (∀ i j, (r.machines i).in_use = true → (r.machines j).in_use = true → i ≠ j →
        cstr (r.machines i).machineId ≠ cstr (r.machines j).machineId) →
      ∀ i j, ((calls.foldl Call.apply r).machines i).in_use = true →
        ((calls.foldl Call.apply r).machines j).in_use = true → i ≠ j →
        cstr ((calls.foldl Call.apply r).machines i).machineId
          ≠ cstr ((calls.foldl Call.apply r).machines j).machineId := by
  induction calls with
  | nil =>
    intro r _ hinv
    exact hinv
  | cons c rest ih =>
    intro r hfit hinv
    simp only [List.foldl_cons]
    apply ih (Call.apply r c) (fun d hd => hfit d (List.mem_cons_of_mem _ hd))
    have hc := hfit c (List.mem_cons_self _ _)
    cases c with
    | addMachine now addr machineId running empty rssi =>
      have hlen : (cstr machineId).length ≤ MACHINE_ID_MAX_LEN := by
        simpa [Call.idWithinLimit] using hc
      exact distinct_ids_addMachine r now addr machineId running empty rssi hlen hinv
    | update cfg currentTime mqtt =>
      apply distinct_ids_of_same_keys r _ hinv
      intro k
      exact ⟨ScanDevUpdate_in_use cfg r currentTime mqtt k,
        ScanDevUpdate_machineId cfg r currentTime mqtt k⟩

/-- C9: after `ScanDevSetup` and any sequence of `ScanDevAddMachine` calls whose
machine ids have at most 16 bytes and of `ScanDevUpdate` calls, two distinct
in-use slots never hold the same machine id: their ids differ as C strings (so
`strcmp` tells them apart) and hence the buffers differ. -/
theorem machine_ids_unique (calls : List Call) (hfit : ∀ c ∈ calls, c.idWithinLimit = true)
    (i j : Fin SCANDEV_MAX_MACHINES)
    (hi : ((runCalls calls).machines i).in_use = true)
    (hj : ((runCalls calls).machines j).in_use = true) (hne : i ≠ j) :
    cstr ((runCalls calls).machines i).machineId ≠ cstr ((runCalls calls).machines j).machineId ∧
    ((runCalls calls).machines i).machineId ≠ ((runCalls calls).machines j).machineId := by
  have hsetup : ∀ a b, (ScanDevSetup.machines a).in_use = true →
      (ScanDevSetup.machines b).in_use = true → a ≠ b →
      cstr (ScanDevSetup.machines a).machineId ≠ cstr (ScanDevSetup.machines b).machineId := by
    intro a b ha
    simp [ScanDevSetup, zeroMachine] at ha
  have h : cstr ((runCalls calls).machines i).machineId
      ≠ cstr ((runCalls calls).machines j).machineId :=
    distinct_ids_foldl calls ScanDevSetup hfit hsetup i j hi hj hne
  exact ⟨h, fun e => h (congrArg cstr e)⟩

/-- C10: with `timeout = absence_cycles * (scan_time + pause_time)` fitting in
an `int`, `ScanDevUpdate` at time `now` clears `present` for exactly the in-use
entries that were present and have `now - last_seen > timeout`; every other
entry keeps its `present` flag, so an entry with `now - last_seen = timeout`
stays present and no entry goes from absent to present. -/
theorem absence_sweep_exact (cfg : CONFIG_BT_T) (r : Registry) (now : Int)
    (mqtt : Fin SCANDEV_MAX_MACHINES → Bool) (timeout : Int)
    (htimeout : timeout = cfg.absence_cycles * ((cfg.scan_time : Int) + (cfg.pause_time : Int)))
    (hlo : -(2 ^ 31 : Int) ≤ timeout) (hhi : timeout < 2 ^ 31) (k : Fin SCANDEV_MAX_MACHINES) :
    (((ScanDevUpdate cfg r now mqtt).1.machines k).present = false ∧ (r.machines k).present = true
      ↔ (r.machines k).in_use = true ∧ (r.machines k).present = true ∧
          now - (r.machines k).last_seen > timeout) ∧
    (¬ ((r.machines k).in_use = true ∧ (r.machines k).present = true ∧
          now - (r.machines k).last_seen > timeout) →
      ((ScanDevUpdate cfg r now mqtt).1.machines k).present = (r.machines k).present) ∧
    ((r.machines k).present = true → now - (r.machines k).last_seen = timeout →
      ((ScanDevUpdate cfg r now mqtt).1.machines k).present = true) ∧
    ((r.machines k).present = false →
      ((ScanDevUpdate cfg r now mqtt).1.machines k).present = false) := by
  have hto : toInt32 (ABSENCE_TIMEOUT cfg) = timeout := by
    rw [htimeout] at hlo hhi ⊢
    exact absence_timeout_eq cfg hlo hhi
  have hp : ((ScanDevUpdate cfg r now mqtt).1.machines k).present
      = if (r.machines k).in_use = true then
          ((r.machines k).present && !decide (now - (r.machines k).last_seen > timeout))
        else (r.machines k).present := by
    rw [ScanDevUpdate_machines, hto]
    split
    · exact updateMachine_present _ _ _ _
    · rfl
  rw [hp]
  cases huse : (r.machines k).in_use <;> cases hpres : (r.machines k).present <;>
    by_cases hgt : now - (r.machines k).last_seen > timeout <;> simp [hgt]
  all_goals omega


/-- Witness of C9: after the sample run, slots 0 and 1 are in use and hold
different ids. -/
theorem machine_ids_unique_witness :
    (∀ c ∈ sampleCalls, c.idWithinLimit = true) ∧
    ((runCalls sampleCalls).machines 0).in_use = true ∧
    ((runCalls sampleCalls).machines 1).in_use = true ∧
    cstr ((runCalls sampleCalls).machines 0).machineId
      ≠ cstr ((runCalls sampleCalls).machines 1).machineId :=
  ⟨by decide, by decide, by decide,
    (machine_ids_unique sampleCalls (by decide) 0 1 (by decide) (by decide) (by decide)).1⟩

/-- Witness of C10: machine "A", last seen at time 100, is marked absent by the
tick at time 191 (91 > 90 seconds). -/
theorem absence_sweep_exact_witness :
    (90 : Int) = hardcodedConfig.absence_cycles
      * ((hardcodedConfig.scan_time : Int) + (hardcodedConfig.pause_time : Int)) ∧
    (seenOnce.machines 0).present = true ∧
    ((ScanDevUpdate hardcodedConfig seenOnce 191 (fun _ => true)).1.machines 0).present = false :=
  ⟨by decide, by decide,
    ((absence_sweep_exact hardcodedConfig seenOnce 191 (fun _ => true) 90 (by decide)
      (by decide) (by decide) 0).1.2 ⟨by decide, by decide, by decide⟩).1⟩


/-! ## The publish calls of `ScanDevUpdate` -/

/-- Whether the loop body calls `MqttPublishMachineStatus` does not depend on
what the call returns. -/
theorem updateMachine_attempt (currentTime absence_timeout : Int) (mqtt : Bool)
    (m : SCANDEV_MACHINE_T) :
    (updateMachine currentTime absence_timeout mqtt m).2
      = (m.post_pending && (m.present && !decide (currentTime - m.last_seen > absence_timeout))
          && decide (currentTime - m.last_posted ≥ MIN_POST_INTERVAL)) := by
  unfold updateMachine
  dsimp only
  split_ifs <;> simp_all

theorem updateFrom_log (currentTime absence_timeout : Int)
    (mqtt : Fin SCANDEV_MAX_MACHINES → Bool) :
    ∀ (fuel i : Nat) (ms : Fin SCANDEV_MAX_MACHINES → SCANDEV_MACHINE_T) (log : List PublishCall),
      SCANDEV_MAX_MACHINES ≤ i + fuel →
      ∃ tail : List PublishCall,
        (updateFrom currentTime absence_timeout mqtt i fuel ms log).2 = log ++ tail ∧
        (∀ c, c ∈ tail ↔ (i ≤ c.slot.val ∧ (ms c.slot).in_use = true ∧
          (updateMachine currentTime absence_timeout (mqtt c.slot) (ms c.slot)).2 = true ∧
          c = publishCallOf ms c.slot)) ∧
        tail.Pairwise (fun a b => a.slot < b.slot) := by
  intro fuel
  induction fuel with
  | zero =>
    intro i ms log hfuel
    refine ⟨[], by simp [updateFrom], ?_, List.Pairwise.nil⟩
    intro c
    have := c.slot.isLt
    constructor
    · intro h
      simp at h
    · intro h
      omega
  | succ fuel ih =>
    intro i ms log hfuel
    unfold updateFrom
    split
    · rename_i hi
      split
      · rename_i hfree
        have hfree2 : (ms ⟨i, hi⟩).in_use = false := by simpa using hfree
        obtain ⟨tail, h1, h2, h3⟩ := ih (i + 1) ms log (by omega)
        refine ⟨tail, h1, ?_, h3⟩
        intro c
        rw [h2 c]
        constructor
        · rintro ⟨a, b, d, e⟩
          exact ⟨by omega, b, d, e⟩
        · rintro ⟨a, b, d, e⟩
          refine ⟨?_, b, d, e⟩
          by_contra hlt
          have hci : c.slot = ⟨i, hi⟩ := Fin.ext (by simp only; omega)
          rw [hci, hfree2] at b
          exact absurd b (by simp)
      · rename_i hused
        have hused2 : (ms ⟨i, hi⟩).in_use = true := by simpa using hused
        dsimp only
        obtain ⟨tail, h1, h2, h3⟩ := ih (i + 1)
          (Function.update ms ⟨i, hi⟩
            (updateMachine currentTime absence_timeout (mqtt ⟨i, hi⟩) (ms ⟨i, hi⟩)).1)
          (if (updateMachine currentTime absence_timeout (mqtt ⟨i, hi⟩) (ms ⟨i, hi⟩)).2 = true then
            log ++ [publishCallOf ms ⟨i, hi⟩] else log) (by omega)
        have hother : ∀ k : Fin SCANDEV_MAX_MACHINES, i + 1 ≤ k.val →
            Function.update ms ⟨i, hi⟩
              (updateMachine currentTime absence_timeout (mqtt ⟨i, hi⟩) (ms ⟨i, hi⟩)).1 k = ms k := by
          intro k hk
          apply Function.update_noteq
          intro e
          rw [e] at hk
          simp only at hk
          omega
        have htail : ∀ c, c ∈ tail ↔ (i + 1 ≤ c.slot.val ∧ (ms c.slot).in_use = true ∧
            (updateMachine currentTime absence_timeout (mqtt c.slot) (ms c.slot)).2 = true ∧
            c = publishCallOf ms c.slot) := by
          intro c
          rw [h2 c]
          constructor
          · rintro ⟨a, b, d, e⟩
            rw [hother c.slot a] at b d
            refine ⟨a, b, d, ?_⟩
            rw [e]
            simp only [publishCallOf, hother c.slot a]
          · rintro ⟨a, b, d, e⟩
            rw [hother c.slot a]
            refine ⟨a, b, d, ?_⟩
            rw [e]
            simp only [publishCallOf, hother c.slot a]
        by_cases hatt : (updateMachine currentTime absence_timeout (mqtt ⟨i, hi⟩) (ms ⟨i, hi⟩)).2 = true
        · refine ⟨publishCallOf ms ⟨i, hi⟩ :: tail, ?_, ?_, ?_⟩
          · have := h1
            simp only [hatt, if_true] at this
            simpa [publishCallOf, hatt] using this
          · intro c
            simp only [List.mem_cons, htail c]
            constructor
            · rintro (h | ⟨a, b, d, e⟩)
              · subst h
                exact ⟨Nat.le_refl _, hused2, hatt, rfl⟩
              · exact ⟨by omega, b, d, e⟩
            · rintro ⟨a, b, d, e⟩
              by_cases hci : c.slot.val = i
              · left
                have hcs : c.slot = ⟨i, hi⟩ := Fin.ext hci
                rw [e, hcs]
              · right
                exact ⟨by omega, b, d, e⟩
          · refine List.Pairwise.cons ?_ h3
            intro c hc
            have := ((htail c).mp hc).1
            show (⟨i, hi⟩ : Fin SCANDEV_MAX_MACHINES) < c.slot
            exact Fin.mk_lt_of_lt_val (by omega)
        · refine ⟨tail, ?_, ?_, h3⟩
          · have := h1
            simp only [hatt] at this
            simpa [publishCallOf, hatt] using this
          · intro c
            rw [htail c]
            constructor
            · rintro ⟨a, b, d, e⟩
              exact ⟨by omega, b, d, e⟩
            · rintro ⟨a, b, d, e⟩
              refine ⟨?_, b, d, e⟩
              by_contra hlt
              have hci : c.slot = ⟨i, hi⟩ := Fin.ext (by simp only; omega)
              rw [hci] at d
              exact hatt d
    · refine ⟨[], by simp, ?_, List.Pairwise.nil⟩
      intro c
      have := c.slot.isLt
      constructor
      · intro h
        simp at h
      · intro h
        omega


/-- The publish calls of one `ScanDevUpdate`: exactly one call for every in-use
slot whose loop body reaches `MqttPublishMachineStatus`, in increasing slot
order. -/
theorem ScanDevUpdate_calls (cfg : CONFIG_BT_T) (r : Registry) (currentTime : Int)
    (mqtt : Fin SCANDEV_MAX_MACHINES → Bool) :
    (∀ c, c ∈ (ScanDevUpdate cfg r currentTime mqtt).2 ↔
      ((r.machines c.slot).in_use = true ∧
        (updateMachine currentTime (toInt32 (ABSENCE_TIMEOUT cfg)) (mqtt c.slot)
          (r.machines c.slot)).2 = true ∧
        c = publishCallOf r.machines c.slot)) ∧
    (ScanDevUpdate cfg r currentTime mqtt).2.Pairwise (fun a b => a.slot < b.slot) := by
  obtain ⟨tail, h1, h2, h3⟩ := updateFrom_log currentTime (toInt32 (ABSENCE_TIMEOUT cfg)) mqtt
    SCANDEV_MAX_MACHINES 0 r.machines [] (by omega)
  have hlog : (ScanDevUpdate cfg r currentTime mqtt).2 = tail := by
    unfold ScanDevUpdate
    dsimp only
    rw [h1]
    rfl
  rw [hlog]
  refine ⟨?_, h3⟩
  intro c
  rw [h2 c]
  simp

/-- A publish is attempted for slot `k` exactly when the slot is in use and its
loop body reaches `MqttPublishMachineStatus`. -/
theorem ScanDevUpdate_attempt_iff (cfg : CONFIG_BT_T) (r : Registry) (currentTime : Int)
    (mqtt : Fin SCANDEV_MAX_MACHINES → Bool) (k : Fin SCANDEV_MAX_MACHINES) :
    (∃ c ∈ (ScanDevUpdate cfg r currentTime mqtt).2, c.slot = k) ↔
      ((r.machines k).in_use = true ∧
        (updateMachine currentTime (toInt32 (ABSENCE_TIMEOUT cfg)) (mqtt k)
          (r.machines k)).2 = true) := by
  have h := (ScanDevUpdate_calls cfg r currentTime mqtt).1
  constructor
  · rintro ⟨c, hc, rfl⟩
    exact ⟨((h c).mp hc).1, ((h c).mp hc).2.1⟩
  · rintro ⟨h1, h2⟩
    exact ⟨publishCallOf r.machines k, (h _).mpr ⟨h1, h2, rfl⟩, rfl⟩

/-- The loop body when it does not reach `MqttPublishMachineStatus`: only the
absence check may have acted. -/
theorem updateMachine_no_attempt (currentTime absence_timeout : Int) (mqtt : Bool)
    (m : SCANDEV_MACHINE_T)
    (h : (updateMachine currentTime absence_timeout mqtt m).2 = false) :
    (updateMachine currentTime absence_timeout mqtt m).1
      = if m.present && decide (currentTime - m.last_seen > absence_timeout) then
          { m with present := false }
        else m := by
  unfold updateMachine at h ⊢
  dsimp only at h ⊢
  split_ifs at h ⊢ <;> simp_all

/-- The loop body after a publish call that returned true. -/
theorem updateMachine_published (currentTime absence_timeout : Int) (m : SCANDEV_MACHINE_T)
    (h : (updateMachine currentTime absence_timeout true m).2 = true) :
    (updateMachine currentTime absence_timeout true m).1
      = { m with post_pending := false, state_changed := false, last_posted := currentTime } := by
  unfold updateMachine at h ⊢
  dsimp only at h ⊢
  split_ifs at h ⊢ <;> simp_all

/-- The loop body after a publish call that returned false. -/
theorem updateMachine_failed (currentTime absence_timeout : Int) (m : SCANDEV_MACHINE_T)
    (h : (updateMachine currentTime absence_timeout false m).2 = true) :
    (updateMachine currentTime absence_timeout false m).1 = m := by
  unfold updateMachine at h ⊢
  dsimp only at h ⊢
  split_ifs at h ⊢ <;> simp_all

theorem updateMachine_post_pending (currentTime absence_timeout : Int) (mqtt : Bool)
    (m : SCANDEV_MACHINE_T) (h : m.post_pending = false) :
    (updateMachine currentTime absence_timeout mqtt m).1.post_pending = false := by
  unfold updateMachine
  dsimp only
  split_ifs <;> simp_all

/-- `last_posted` either stays or becomes the current time, and the latter only
when the minimum interval has elapsed. -/
theorem updateMachine_last_posted (currentTime absence_timeout : Int) (mqtt : Bool)
    (m : SCANDEV_MACHINE_T) :
    (updateMachine currentTime absence_timeout mqtt m).1.last_posted = m.last_posted ∨
    ((updateMachine currentTime absence_timeout mqtt m).1.last_posted = currentTime ∧
      currentTime - m.last_posted ≥ MIN_POST_INTERVAL) := by
  unfold updateMachine
  dsimp only
  split_ifs <;> simp_all


/-! ## Claims about `ScanDevUpdate` -/

/-- C11: the absence sweep has no publish side effect. For every registry, time
and publish outcome, `ScanDevUpdate` never turns `post_pending` from false to
true; and for an entry that is present before the tick and has
`now - last_seen > absence_timeout`, the tick marks it absent (when the slot is
in use), makes no publish call for its slot, and leaves `post_pending`,
`last_posted`, `running`, `empty`, `prev_running` and `prev_empty` as they
were. -/
theorem absence_sweep_no_publish (cfg : CONFIG_BT_T) (r : Registry) (now : Int)
    (mqtt : Fin SCANDEV_MAX_MACHINES → Bool) :
    (∀ k, (r.machines k).post_pending = false →
      ((ScanDevUpdate cfg r now mqtt).1.machines k).post_pending = false) ∧
    (∀ k, (r.machines k).present = true →
      now - (r.machines k).last_seen > toInt32 (ABSENCE_TIMEOUT cfg) →
      ((r.machines k).in_use = true →
        ((ScanDevUpdate cfg r now mqtt).1.machines k).present = false) ∧
      (¬ ∃ c ∈ (ScanDevUpdate cfg r now mqtt).2, c.slot = k) ∧
      ((ScanDevUpdate cfg r now mqtt).1.machines k).post_pending
        = (r.machines k).post_pending ∧
      ((ScanDevUpdate cfg r now mqtt).1.machines k).last_posted
        = (r.machines k).last_posted ∧
      ((ScanDevUpdate cfg r now mqtt).1.machines k).running = (r.machines k).running ∧
      ((ScanDevUpdate cfg r now mqtt).1.machines k).empty = (r.machines k).empty ∧
      ((ScanDevUpdate cfg r now mqtt).1.machines k).prev_running
        = (r.machines k).prev_running ∧
      ((ScanDevUpdate cfg r now mqtt).1.machines k).prev_empty
        = (r.machines k).prev_empty) := by
  constructor
  · intro k hk
    rw [ScanDevUpdate_machines]
    split
    · exact updateMachine_post_pending _ _ _ _ hk
    · exact hk
  · intro k hpres hgt
    have hno : (updateMachine now (toInt32 (ABSENCE_TIMEOUT cfg)) (mqtt k) (r.machines k)).2
        = false := by
      rw [updateMachine_attempt]
      simp [hpres, hgt]
    have hnocall : ¬ ∃ c ∈ (ScanDevUpdate cfg r now mqtt).2, c.slot = k := by
      rw [ScanDevUpdate_attempt_iff]
      rintro ⟨_, h2⟩
      rw [hno] at h2
      exact absurd h2 (by simp)
    have hslot : (ScanDevUpdate cfg r now mqtt).1.machines k
        = if (r.machines k).in_use = true then { r.machines k with present := false }
          else r.machines k := by
      rw [ScanDevUpdate_machines]
      split
      · rw [updateMachine_no_attempt _ _ _ _ hno]
        simp [hpres, hgt]
      · rfl
    refine ⟨?_, hnocall, ?_⟩
    · intro huse
      rw [hslot]
      simp [huse]
    · rw [hslot]
      split <;> exact ⟨rfl, rfl, rfl, rfl, rfl, rfl⟩

/-- C12: `ScanDevUpdate` at time `now` makes a publish call for slot `k` if and
only if the slot is in use, `post_pending` is true, `present` is true after this
tick's absence check and `now - last_posted >= MIN_POST_INTERVAL`; for an in-use
slot, present after the check means present before and not timed out; no call is
made for an entry that is absent before or after the check; the calls are in
strictly increasing slot order, so there is at most one per slot; each call
passes the slot's machine id, running and empty. -/
theorem publish_attempt_iff (cfg : CONFIG_BT_T) (r : Registry) (now : Int)
    (mqtt : Fin SCANDEV_MAX_MACHINES → Bool) :
    (∀ k, (∃ c ∈ (ScanDevUpdate cfg r now mqtt).2, c.slot = k) ↔
      ((r.machines k).in_use = true ∧ (r.machines k).post_pending = true ∧
        ((ScanDevUpdate cfg r now mqtt).1.machines k).present = true ∧
        now - (r.machines k).last_posted ≥ MIN_POST_INTERVAL)) ∧
    (∀ k, (r.machines k).in_use = true →
      (((ScanDevUpdate cfg r now mqtt).1.machines k).present = true ↔
        ((r.machines k).present = true ∧
          ¬ now - (r.machines k).last_seen > toInt32 (ABSENCE_TIMEOUT cfg)))) ∧
    (∀ c ∈ (ScanDevUpdate cfg r now mqtt).2,
      (r.machines c.slot).present = true ∧
      ((ScanDevUpdate cfg r now mqtt).1.machines c.slot).present = true) ∧
    (ScanDevUpdate cfg r now mqtt).2.Pairwise (fun a b => a.slot < b.slot) ∧
    (∀ k, ((ScanDevUpdate cfg r now mqtt).2.map PublishCall.slot).count k ≤ 1) ∧
    (∀ c ∈ (ScanDevUpdate cfg r now mqtt).2, c = publishCallOf r.machines c.slot) := by
  have hpresent : ∀ k, (r.machines k).in_use = true →
      ((ScanDevUpdate cfg r now mqtt).1.machines k).present
        = ((r.machines k).present
            && !decide (now - (r.machines k).last_seen > toInt32 (ABSENCE_TIMEOUT cfg))) := by
    intro k huse
    rw [ScanDevUpdate_machines]
    simp only [huse, if_true]
    exact updateMachine_present _ _ _ _
  have hiff : ∀ k, (∃ c ∈ (ScanDevUpdate cfg r now mqtt).2, c.slot = k) ↔
      ((r.machines k).in_use = true ∧ (r.machines k).post_pending = true ∧
        ((ScanDevUpdate cfg r now mqtt).1.machines k).present = true ∧
        now - (r.machines k).last_posted ≥ MIN_POST_INTERVAL) := by
    intro k
    rw [ScanDevUpdate_attempt_iff, updateMachine_attempt]
    constructor
    · rintro ⟨huse, h⟩
      rw [hpresent k huse]
      simp only [Bool.and_eq_true, decide_eq_true_eq] at h
      exact ⟨huse, h.1.1, by simpa using h.1.2, h.2⟩
    · rintro ⟨huse, hpend, hpres, hint⟩
      rw [hpresent k huse] at hpres
      refine ⟨huse, ?_⟩
      simp only [Bool.and_eq_true, decide_eq_true_eq]
      exact ⟨⟨hpend, by simpa using hpres⟩, hint⟩
  have hcalls := ScanDevUpdate_calls cfg r now mqtt
  refine ⟨hiff, ?_, ?_, hcalls.2, ?_, ?_⟩
  · intro k huse
    rw [hpresent k huse]
    simp
  · intro c hc
    obtain ⟨huse, _, hpres, _⟩ := (hiff c.slot).mp ⟨c, hc, rfl⟩
    refine ⟨?_, hpres⟩
    rw [hpresent c.slot huse] at hpres
    simp only [Bool.and_eq_true] at hpres
    exact hpres.1
  · have hnodup : ((ScanDevUpdate cfg r now mqtt).2.map PublishCall.slot).Nodup := by
      rw [List.Nodup, List.pairwise_map]
      exact hcalls.2.imp (fun h => ne_of_lt h)
    intro k
    exact List.nodup_iff_count_le_one.mp hnodup k
  · intro c hc
    exact ((hcalls.1 c).mp hc).2.2

/-- C14: when `ScanDevUpdate` at time `now` makes a publish call for slot `k`
and the call returns true, the entry afterwards has `post_pending = false`,
`state_changed = false` and `last_posted = now`, and every other field
(`machineId`, `addr`, `running`, `empty`, `rssi`, `last_seen`, `present`,
`prev_running`, `prev_empty`, `in_use`) is as before the tick. -/
theorem publish_success_updates_entry (cfg : CONFIG_BT_T) (r : Registry) (now : Int)
    (mqtt : Fin SCANDEV_MAX_MACHINES → Bool) (k : Fin SCANDEV_MAX_MACHINES)
    (hatt : ∃ c ∈ (ScanDevUpdate cfg r now mqtt).2, c.slot = k) (hok : mqtt k = true) :
    (ScanDevUpdate cfg r now mqtt).1.machines k
      = { r.machines k with post_pending := false, state_changed := false, last_posted := now } ∧
    ((ScanDevUpdate cfg r now mqtt).1.machines k).post_pending = false ∧
    ((ScanDevUpdate cfg r now mqtt).1.machines k).state_changed = false ∧
    ((ScanDevUpdate cfg r now mqtt).1.machines k).last_posted = now ∧
    ((ScanDevUpdate cfg r now mqtt).1.machines k).machineId = (r.machines k).machineId ∧
    ((ScanDevUpdate cfg r now mqtt).1.machines k).addr = (r.machines k).addr ∧
    ((ScanDevUpdate cfg r now mqtt).1.machines k).running = (r.machines k).running ∧
    ((ScanDevUpdate cfg r now mqtt).1.machines k).empty = (r.machines k).empty ∧
    ((ScanDevUpdate cfg r now mqtt).1.machines k).rssi = (r.machines k).rssi ∧
    ((ScanDevUpdate cfg r now mqtt).1.machines k).last_seen = (r.machines k).last_seen ∧
    ((ScanDevUpdate cfg r now mqtt).1.machines k).present = (r.machines k).present ∧
    ((ScanDevUpdate cfg r now mqtt).1.machines k).prev_running = (r.machines k).prev_running ∧
    ((ScanDevUpdate cfg r now mqtt).1.machines k).prev_empty = (r.machines k).prev_empty ∧
    ((ScanDevUpdate cfg r now mqtt).1.machines k).in_use = (r.machines k).in_use := by
  obtain ⟨huse, hcall⟩ := (ScanDevUpdate_attempt_iff cfg r now mqtt k).mp hatt
  rw [hok] at hcall
  have hslot : (ScanDevUpdate cfg r now mqtt).1.machines k
      = { r.machines k with post_pending := false, state_changed := false, last_posted := now } := by
    rw [ScanDevUpdate_machines, if_pos huse, hok]
    exact updateMachine_published _ _ _ hcall
  rw [hslot]
  exact ⟨rfl, rfl, rfl, rfl, rfl, rfl, rfl, rfl, rfl, rfl, rfl, rfl, rfl, rfl⟩

/-- Witness of C14: machine "A", pending since time 100, is published by the
tick at time 105. -/
theorem publish_success_updates_entry_witness :
    (∃ c ∈ (ScanDevUpdate hardcodedConfig seenOnce 105 (fun _ => true)).2, c.slot = 0) ∧
    (seenOnce.machines 0).post_pending = true ∧
    ((ScanDevUpdate hardcodedConfig seenOnce 105 (fun _ => true)).1.machines 0).post_pending
      = false ∧
    ((ScanDevUpdate hardcodedConfig seenOnce 105 (fun _ => true)).1.machines 0).last_posted
      = 105 :=
  ⟨by decide, by decide,
    (publish_success_updates_entry hardcodedConfig seenOnce 105 (fun _ => true) 0
      (by decide) rfl).2.1,
    (publish_success_updates_entry hardcodedConfig seenOnce 105 (fun _ => true) 0
      (by decide) rfl).2.2.2.1⟩


/-- A pending, present entry whose publish keeps failing is called again by
every tick that finds it past the minimum interval and not timed out, and is
left as it is. -/
theorem failing_ticks_retry (k : Fin SCANDEV_MAX_MACHINES) (m : SCANDEV_MACHINE_T)
    (huse : m.in_use = true) (hpend : m.post_pending = true) (hpres : m.present = true) :
    ∀ (ticks : List Tick) (r : Registry), r.machines k = m →
      (∀ tk ∈ ticks, tk.mqtt k = false ∧ tk.currentTime - m.last_posted ≥ MIN_POST_INTERVAL ∧
        ¬ tk.currentTime - m.last_seen > toInt32 (ABSENCE_TIMEOUT tk.cfg)) →
      (runTicks r ticks).2.length = ticks.length ∧
      (∀ log ∈ (runTicks r ticks).2, ∃ c ∈ log, c.slot = k) ∧
      (runTicks r ticks).1.machines k = m := by
  intro ticks
  induction ticks with
  | nil =>
    intro r hr _
    simp [runTicks, hr]
  | cons tk rest ih =>
    intro r hr hall
    obtain ⟨hfail, hint, hnot⟩ := hall tk (List.mem_cons_self _ _)
    have hcall : (updateMachine tk.currentTime (toInt32 (ABSENCE_TIMEOUT tk.cfg)) false m).2
        = true := by
      rw [updateMachine_attempt]
      simp [hpend, hpres, hnot, hint]
    have hatt : ∃ c ∈ (ScanDevUpdate tk.cfg r tk.currentTime tk.mqtt).2, c.slot = k := by
      rw [ScanDevUpdate_attempt_iff, hr, hfail]
      exact ⟨huse, hcall⟩
    have hslot : (ScanDevUpdate tk.cfg r tk.currentTime tk.mqtt).1.machines k = m := by
      rw [ScanDevUpdate_machines, hr, if_pos huse, hfail]
      exact updateMachine_failed _ _ _ hcall
    obtain ⟨h1, h2, h3⟩ := ih (ScanDevUpdate tk.cfg r tk.currentTime tk.mqtt).1 hslot
      (fun t ht => hall t (List.mem_cons_of_mem _ ht))
    simp only [runTicks, List.length_cons, List.mem_cons]
    refine ⟨by rw [h1], ?_, h3⟩
    intro log hlog
    rcases hlog with h | h
    · rw [h]
      exact hatt
    · exact h2 log h

/-- C15: when `ScanDevUpdate` makes a publish call for slot `k` and the call
returns false, the entry is exactly as before the tick, with `post_pending`
still true and `last_posted` not advanced; and every later tick whose publish
fails again, however many there are, calls the publish again and leaves the
entry as it is, as long as the entry is not timed out. -/
theorem publish_failure_keeps_entry (cfg : CONFIG_BT_T) (r : Registry) (now : Int)
    (mqtt : Fin SCANDEV_MAX_MACHINES → Bool) (k : Fin SCANDEV_MAX_MACHINES)
    (hatt : ∃ c ∈ (ScanDevUpdate cfg r now mqtt).2, c.slot = k) (hfail : mqtt k = false) :
    (ScanDevUpdate cfg r now mqtt).1.machines k = r.machines k ∧
    ((ScanDevUpdate cfg r now mqtt).1.machines k).post_pending = true ∧
    ((ScanDevUpdate cfg r now mqtt).1.machines k).last_posted = (r.machines k).last_posted ∧
    ∀ ticks : List Tick,
      (∀ tk ∈ ticks, now ≤ tk.currentTime ∧ tk.mqtt k = false ∧
        ¬ tk.currentTime - (r.machines k).last_seen > toInt32 (ABSENCE_TIMEOUT tk.cfg)) →
      (runTicks (ScanDevUpdate cfg r now mqtt).1 ticks).2.length = ticks.length ∧
      (∀ log ∈ (runTicks (ScanDevUpdate cfg r now mqtt).1 ticks).2, ∃ c ∈ log, c.slot = k) ∧
      (runTicks (ScanDevUpdate cfg r now mqtt).1 ticks).1.machines k = r.machines k := by
  obtain ⟨huse, hcall⟩ := (ScanDevUpdate_attempt_iff cfg r now mqtt k).mp hatt
  rw [hfail] at hcall
  have hslot : (ScanDevUpdate cfg r now mqtt).1.machines k = r.machines k := by
    rw [ScanDevUpdate_machines, if_pos huse, hfail]
    exact updateMachine_failed _ _ _ hcall
  have hcond := hcall
  rw [updateMachine_attempt] at hcond
  simp only [Bool.and_eq_true, decide_eq_true_eq] at hcond
  obtain ⟨⟨hpend, hpres⟩, hint⟩ := hcond
  refine ⟨hslot, by rw [hslot]; exact hpend, by rw [hslot], ?_⟩
  intro ticks hall
  apply failing_ticks_retry k (r.machines k) huse hpend hpres.1 ticks _ hslot
  intro tk htk
  obtain ⟨hlater, hf, hnot⟩ := hall tk htk
  exact ⟨hf, by omega, hnot⟩

/-- Witness of C15: machine "A", pending since time 100, fails to publish at
time 105 and is called again by the ticks at times 106 and 107. -/
theorem publish_failure_keeps_entry_witness :
    (∃ c ∈ (ScanDevUpdate hardcodedConfig seenOnce 105 (fun _ => false)).2, c.slot = 0) ∧
    (ScanDevUpdate hardcodedConfig seenOnce 105 (fun _ => false)).1.machines 0
      = seenOnce.machines 0 ∧
    (∀ log ∈ (runTicks (ScanDevUpdate hardcodedConfig seenOnce 105 (fun _ => false)).1
        [Tick.mk hardcodedConfig 106 (fun _ => false),
          Tick.mk hardcodedConfig 107 (fun _ => false)]).2, ∃ c ∈ log, c.slot = 0) :=
  ⟨by decide,
    (publish_failure_keeps_entry hardcodedConfig seenOnce 105 (fun _ => false) 0
      (by decide) rfl).1,
    ((publish_failure_keeps_entry hardcodedConfig seenOnce 105 (fun _ => false) 0
      (by decide) rfl).2.2.2
        [Tick.mk hardcodedConfig 106 (fun _ => false),
          Tick.mk hardcodedConfig 107 (fun _ => false)] (by decide)).2.1⟩


/-! ## Slots across calls -/

theorem touchMachine_last_posted (m : SCANDEV_MACHINE_T) (now : Int) (addr : BLEAddress)
    (running empty : Bool) (rssi : Int) :
    (touchMachine m now addr running empty rssi).last_posted = m.last_posted := by
  unfold touchMachine
  dsimp only
  split <;> rfl

/-- `ScanDevAddMachine` leaves an in-use slot alone or refreshes it; it never
re-initialises it. -/
theorem ScanDevAddMachine_in_use_slot (r : Registry) (now : Int) (addr : BLEAddress)
    (machineId : List Byte) (running empty : Bool) (rssi : Int)
    (k : Fin SCANDEV_MAX_MACHINES) (huse : (r.machines k).in_use = true) :
    (ScanDevAddMachine r now addr machineId running empty rssi).2.machines k = r.machines k ∨
    (ScanDevAddMachine r now addr machineId running empty rssi).2.machines k
      = touchMachine (r.machines k) now addr running empty rssi := by
  cases hfind : findMachineById r machineId with
  | some i =>
    rw [ScanDevAddMachine_found r now addr machineId running empty rssi i hfind]
    by_cases hk : k = i
    · subst hk
      right
      simp
    · left
      simp [Function.update_noteq hk]
  | none =>
    cases hslot : findEmptySlot r with
    | none =>
      rw [ScanDevAddMachine_full r now addr machineId running empty rssi hfind hslot]
      exact Or.inl rfl
    | some j =>
      rw [ScanDevAddMachine_created r now addr machineId running empty rssi j hfind hslot]
      have hk : k ≠ j := by
        intro e
        have := findEmptySlot_some r j hslot
        rw [← e, huse] at this
        exact absurd this (by simp)
      left
      simp [Function.update_noteq hk]

/-- `_machine_count` after `ScanDevAddMachine` is the old count or one more. -/
theorem ScanDevAddMachine_count (r : Registry) (now : Int) (addr : BLEAddress)
    (machineId : List Byte) (running empty : Bool) (rssi : Int) :
    (ScanDevAddMachine r now addr machineId running empty rssi).2.machine_count
        = r.machine_count ∨
    (ScanDevAddMachine r now addr machineId running empty rssi).2.machine_count
        = r.machine_count + 1 := by
  cases hfind : findMachineById r machineId with
  | some i =>
    rw [ScanDevAddMachine_found r now addr machineId running empty rssi i hfind]
    exact Or.inl rfl
  | none =>
    cases hslot : findEmptySlot r with
    | none =>
      rw [ScanDevAddMachine_full r now addr machineId running empty rssi hfind hslot]
      exact Or.inl rfl
    | some j =>
      rw [ScanDevAddMachine_created r now addr machineId running empty rssi j hfind hslot]
      exact Or.inr rfl

theorem ScanDevUpdate_count (cfg : CONFIG_BT_T) (r : Registry) (currentTime : Int)
    (mqtt : Fin SCANDEV_MAX_MACHINES → Bool) :
    (ScanDevUpdate cfg r currentTime mqtt).1.machine_count = r.machine_count := rfl

/-- One call keeps an in-use slot in use, keeps its machine id, never moves
`last_posted` backwards and never lowers `_machine_count`. -/
theorem Call.apply_keeps_slot (r : Registry) (c : Call) (k : Fin SCANDEV_MAX_MACHINES)
    (huse : (r.machines k).in_use = true) :
    ((Call.apply r c).machines k).in_use = true ∧
    ((Call.apply r c).machines k).machineId = (r.machines k).machineId ∧
    (r.machines k).last_posted ≤ ((Call.apply r c).machines k).last_posted ∧
    r.machine_count ≤ (Call.apply r c).machine_count := by
  cases c with
  | addMachine now addr machineId running empty rssi =>
    simp only [Call.apply]
    have hcount := ScanDevAddMachine_count r now addr machineId running empty rssi
    have hc : r.machine_count
        ≤ (ScanDevAddMachine r now addr machineId running empty rssi).2.machine_count := by
      rcases hcount with h | h
      · rw [h]
      · rw [h]
        omega
    rcases ScanDevAddMachine_in_use_slot r now addr machineId running empty rssi k huse with h | h
    · rw [h]
      exact ⟨huse, rfl, Int.le_refl _, hc⟩
    · rw [h, touchMachine_in_use, touchMachine_machineId, touchMachine_last_posted]
      exact ⟨huse, rfl, Int.le_refl _, hc⟩
  | update cfg currentTime mqtt =>
    simp only [Call.apply]
    refine ⟨by rw [ScanDevUpdate_in_use]; exact huse, ScanDevUpdate_machineId _ _ _ _ _, ?_,
      by rw [ScanDevUpdate_count]⟩
    rw [ScanDevUpdate_machines, if_pos huse]
    rcases updateMachine_last_posted currentTime (toInt32 (ABSENCE_TIMEOUT cfg)) (mqtt k)
      (r.machines k) with h | ⟨h1, h2⟩
    · rw [h]
    · rw [h1]
      have : (5 : Int) ≤ currentTime - (r.machines k).last_posted := h2
      omega

/-- Any number of calls keeps an in-use slot in use, keeps its machine id, never
moves `last_posted` backwards and never lowers `_machine_count`. -/
theorem foldl_apply_keeps_slot (calls : List Call) (k : Fin SCANDEV_MAX_MACHINES) :
    ∀ r : Registry, (r.machines k).in_use = true →
      ((calls.foldl Call.apply r).machines k).in_use = true ∧
      ((calls.foldl Call.apply r).machines k).machineId = (r.machines k).machineId ∧
      (r.machines k).last_posted ≤ ((calls.foldl Call.apply r).machines k).last_posted ∧
      r.machine_count ≤ (calls.foldl Call.apply r).machine_count := by
  induction calls with
  | nil =>
    intro r huse
    exact ⟨huse, rfl, Int.le_refl _, Int.le_refl _⟩
  | cons c rest ih =>
    intro r huse
    obtain ⟨h1, h2, h3, h4⟩ := Call.apply_keeps_slot r c k huse
    obtain ⟨g1, g2, g3, g4⟩ := ih (Call.apply r c) h1
    simp only [List.foldl_cons]
    exact ⟨g1, g2.trans h2, Int.le_trans h3 g3, Int.le_trans h4 g4⟩

/-- No publish call is made for a slot whose `last_posted` is less than
`MIN_POST_INTERVAL` seconds old. -/
theorem no_attempt_within_interval (cfg : CONFIG_BT_T) (r : Registry) (now : Int)
    (mqtt : Fin SCANDEV_MAX_MACHINES → Bool) (k : Fin SCANDEV_MAX_MACHINES)
    (h : now - (r.machines k).last_posted < MIN_POST_INTERVAL) :
    ¬ ∃ c ∈ (ScanDevUpdate cfg r now mqtt).2, c.slot = k := by
  rw [ScanDevUpdate_attempt_iff, updateMachine_attempt]
  rintro ⟨_, hcall⟩
  simp only [Bool.and_eq_true, decide_eq_true_eq] at hcall
  have : (5 : Int) ≤ now - (r.machines k).last_posted := hcall.2
  have h5 : now - (r.machines k).last_posted < 5 := h
  omega

/-- The slot of a publish call that returned true, after the tick. -/
theorem ScanDevUpdate_published_slot (cfg : CONFIG_BT_T) (r : Registry) (now : Int)
    (mqtt : Fin SCANDEV_MAX_MACHINES → Bool) (k : Fin SCANDEV_MAX_MACHINES)
    (hatt : ∃ c ∈ (ScanDevUpdate cfg r now mqtt).2, c.slot = k) (hok : mqtt k = true) :
    (ScanDevUpdate cfg r now mqtt).1.machines k
      = { r.machines k with post_pending := false, state_changed := false, last_posted := now } := by
  obtain ⟨huse, hcall⟩ := (ScanDevUpdate_attempt_iff cfg r now mqtt k).mp hatt
  rw [hok] at hcall
  rw [ScanDevUpdate_machines, if_pos huse, hok]
  exact updateMachine_published _ _ _ hcall

/-- C13 (as stated, refuted): machine "A" is pending since time 100; the tick at
time 105 makes a publish call that fails, and the tick at time 106, less than
`MIN_POST_INTERVAL` seconds later, makes a publish call for the same slot
again. -/
theorem failed_publish_retried_within_interval :
    (105 : Int) ≤ 106 ∧ (106 : Int) - 105 < MIN_POST_INTERVAL ∧
    (∃ c ∈ (ScanDevUpdate hardcodedConfig seenOnce 105 (fun _ => false)).2, c.slot = 0) ∧
    (∃ c ∈ (ScanDevUpdate hardcodedConfig
        (ScanDevUpdate hardcodedConfig seenOnce 105 (fun _ => false)).1 106 (fun _ => false)).2,
      c.slot = 0) := by
  decide

/-- C13 (amended): if the tick at time `t1` makes a publish call for slot `k`
and the call returns true, then a tick at a time `t2` with
`t2 - t1 < MIN_POST_INTERVAL` makes no publish call for that slot, whatever
`ScanDevAddMachine` and `ScanDevUpdate` calls happen in between. -/
theorem no_second_publish_after_success (cfg1 cfg2 : CONFIG_BT_T) (r : Registry) (t1 t2 : Int)
    (mqtt1 mqtt2 : Fin SCANDEV_MAX_MACHINES → Bool) (between : List Call)
    (k : Fin SCANDEV_MAX_MACHINES)
    (hclose : t2 - t1 < MIN_POST_INTERVAL)
    (hatt : ∃ c ∈ (ScanDevUpdate cfg1 r t1 mqtt1).2, c.slot = k) (hok : mqtt1 k = true) :
    ¬ ∃ c ∈ (ScanDevUpdate cfg2
        (between.foldl Call.apply (ScanDevUpdate cfg1 r t1 mqtt1).1) t2 mqtt2).2, c.slot = k := by
  have hslot := ScanDevUpdate_published_slot cfg1 r t1 mqtt1 k hatt hok
  have hposted : ((ScanDevUpdate cfg1 r t1 mqtt1).1.machines k).last_posted = t1 := by
    rw [hslot]
  have huse : ((ScanDevUpdate cfg1 r t1 mqtt1).1.machines k).in_use = true := by
    rw [hslot]
    exact ((ScanDevUpdate_attempt_iff cfg1 r t1 mqtt1 k).mp hatt).1
  obtain ⟨_, _, hle, _⟩ := foldl_apply_keeps_slot between k _ huse
  rw [hposted] at hle
  apply no_attempt_within_interval
  have h5 : t2 - t1 < 5 := hclose
  show _ < (5 : Int)
  omega

/-- Witness of C13 (amended): after the successful publish at time 105, machine
"A" changes state at time 106, and the tick at time 107 makes no call for it. -/
theorem no_second_publish_after_success_witness :
    (∃ c ∈ (ScanDevUpdate hardcodedConfig seenOnce 105 (fun _ => true)).2, c.slot = 0) ∧
    ¬ ∃ c ∈ (ScanDevUpdate hardcodedConfig
        ([Call.addMachine 106 7 [65, 0] false false (-50)].foldl Call.apply
          (ScanDevUpdate hardcodedConfig seenOnce 105 (fun _ => true)).1) 107 (fun _ => true)).2,
        c.slot = 0 :=
  ⟨by decide,
    no_second_publish_after_success hardcodedConfig hardcodedConfig seenOnce 105 107
      (fun _ => true) (fun _ => true) [Call.addMachine 106 7 [65, 0] false false (-50)] 0
      (by decide) (by decide) rfl⟩


theorem Call.apply_count (r : Registry) (c : Call) :
    r.machine_count ≤ (Call.apply r c).machine_count := by
  cases c with
  | addMachine now addr machineId running empty rssi =>
    simp only [Call.apply]
    rcases ScanDevAddMachine_count r now addr machineId running empty rssi with h | h
    · rw [h]
    · rw [h]
      omega
  | update cfg currentTime mqtt =>
    simp only [Call.apply]
    rw [ScanDevUpdate_count]

theorem foldl_apply_count (calls : List Call) :
    ∀ r : Registry, r.machine_count ≤ (calls.foldl Call.apply r).machine_count := by
  induction calls with
  | nil =>
    intro r
    exact Int.le_refl _
  | cons c rest ih =>
    intro r
    simp only [List.foldl_cons]
    exact Int.le_trans (Call.apply_count r c) (ih (Call.apply r c))

/-- C19: a slot that is in use after `ScanDevSetup` and some calls is still in
use, with the same machine id, after any further `ScanDevAddMachine` and
`ScanDevUpdate` calls (whether or not the machine went absent), and
`_machine_count` never decreases; the same holds for a single call on any
registry. -/
theorem slots_never_released (before after : List Call) :
    (∀ k, ((runCalls before).machines k).in_use = true →
      ((runCalls (before ++ after)).machines k).in_use = true ∧
      ((runCalls (before ++ after)).machines k).machineId
        = ((runCalls before).machines k).machineId) ∧
    (runCalls before).machine_count ≤ (runCalls (before ++ after)).machine_count ∧
    (∀ (r : Registry) (c : Call),
      (∀ k, (r.machines k).in_use = true →
        ((Call.apply r c).machines k).in_use = true ∧
        ((Call.apply r c).machines k).machineId = (r.machines k).machineId) ∧
      r.machine_count ≤ (Call.apply r c).machine_count) := by
  have hrun : runCalls (before ++ after) = after.foldl Call.apply (runCalls before) := by
    simp [runCalls, List.foldl_append]
  rw [hrun]
  refine ⟨?_, foldl_apply_count after _, ?_⟩
  · intro k huse
    obtain ⟨h1, h2, _, _⟩ := foldl_apply_keeps_slot after k _ huse
    exact ⟨h1, h2⟩
  · intro r c
    refine ⟨?_, Call.apply_count r c⟩
    intro k huse
    obtain ⟨h1, h2, _, _⟩ := Call.apply_keeps_slot r c k huse
    exact ⟨h1, h2⟩

/-- The lookup finds the first in-use slot whose id compares equal. -/
theorem findMachineById_exists (r : Registry) (id : List Byte) (k : Fin SCANDEV_MAX_MACHINES)
    (huse : (r.machines k).in_use = true) (hid : cstr (r.machines k).machineId = cstr id) :
    ∃ i, findMachineById r id = some i ∧ i ≤ k := by
  cases hfind : findMachineById r id with
  | none => exact absurd hid (findMachineById_none r id hfind k huse)
  | some i =>
    refine ⟨i, rfl, ?_⟩
    by_contra hlt
    have hmin := (findFrom_some _ _ _ _ _ hfind).2.2 k (Nat.zero_le _)
      (by
        have : ¬ i.val ≤ k.val := fun h => hlt (Fin.le_def.mpr h)
        omega)
    simp [huse, strcmpEq, hid] at hmin

/-- The slot claimed for a new machine is the lowest free one. -/
theorem findEmptySlot_exists (r : Registry) (f : Fin SCANDEV_MAX_MACHINES)
    (hfree : (r.machines f).in_use = false) :
    ∃ j, findEmptySlot r = some j ∧ j ≤ f ∧ (r.machines j).in_use = false := by
  obtain ⟨j, hj⟩ := findEmptySlot_isSome r f hfree
  refine ⟨j, hj, ?_, findEmptySlot_some r j hj⟩
  by_contra hlt
  have hmin := (findFrom_some _ _ _ _ _ hj).2.2 f (Nat.zero_le _)
    (by
      have : ¬ j.val ≤ f.val := fun h => hlt (Fin.le_def.mpr h)
      omega)
  simp [hfree] at hmin

/-- C16: `ScanDevAddMachine` looks entries up by machine id only. (a) When an
in-use slot `k` holds the observed id, the call updates the first in-use slot
holding that id (slot `k` itself when it is the only one) whatever address is
stored there: the stored address becomes the observed one, `_machine_count` and
every `in_use` flag stay as they were and every other slot is untouched. (b)
When no in-use slot holds the observed id and a slot is free, the call claims
the lowest free slot, whatever the stored addresses: an in-use entry with the
observed address is left untouched. -/
theorem lookup_by_machine_id_only (r : Registry) (now : Int) (addr : BLEAddress)
    (machineId : List Byte) (running empty : Bool) (rssi : Int) :
    (∀ k, (r.machines k).in_use = true → cstr (r.machines k).machineId = cstr machineId →
      ∃ i, findMachineById r machineId = some i ∧ i ≤ k ∧
        (r.machines i).in_use = true ∧ cstr (r.machines i).machineId = cstr machineId ∧
        ((∀ j, (r.machines j).in_use = true →
          cstr (r.machines j).machineId = cstr machineId → j = k) → i = k) ∧
        (ScanDevAddMachine r now addr machineId running empty rssi).1 = true ∧
        ((ScanDevAddMachine r now addr machineId running empty rssi).2.machines i).addr = addr ∧
        (ScanDevAddMachine r now addr machineId running empty rssi).2.machine_count
          = r.machine_count ∧
        (∀ j, ((ScanDevAddMachine r now addr machineId running empty rssi).2.machines j).in_use
          = (r.machines j).in_use) ∧
        (∀ j, j ≠ i →
          (ScanDevAddMachine r now addr machineId running empty rssi).2.machines j
            = r.machines j)) ∧
    ((∀ j, (r.machines j).in_use = true → cstr (r.machines j).machineId ≠ cstr machineId) →
      ∀ f, (r.machines f).in_use = false →
      ∃ j, findEmptySlot r = some j ∧ j ≤ f ∧ (r.machines j).in_use = false ∧
        (ScanDevAddMachine r now addr machineId running empty rssi).1 = true ∧
        ((ScanDevAddMachine r now addr machineId running empty rssi).2.machines j).in_use
          = true ∧
        cstr ((ScanDevAddMachine r now addr machineId running empty rssi).2.machines j).machineId
          = (cstr machineId).take MACHINE_ID_MAX_LEN ∧
        ((ScanDevAddMachine r now addr machineId running empty rssi).2.machines j).addr = addr ∧
        (ScanDevAddMachine r now addr machineId running empty rssi).2.machine_count
          = r.machine_count + 1 ∧
        (∀ l, l ≠ j →
          (ScanDevAddMachine r now addr machineId running empty rssi).2.machines l
            = r.machines l) ∧
        (∀ e, (r.machines e).in_use = true → (r.machines e).addr = addr →
          (ScanDevAddMachine r now addr machineId running empty rssi).2.machines e
            = r.machines e)) := by
  constructor
  · intro k huse hid
    obtain ⟨i, hfind, hik⟩ := findMachineById_exists r machineId k huse hid
    obtain ⟨hi1, hi2⟩ := findMachineById_some r machineId i hfind
    refine ⟨i, hfind, hik, hi1, hi2, fun huniq => huniq i hi1 hi2, ?_⟩
    rw [ScanDevAddMachine_found r now addr machineId running empty rssi i hfind]
    refine ⟨rfl, ?_, rfl, ?_, ?_⟩
    · simp only [Function.update_same]
      exact (touchMachine_refreshed _ now addr running empty rssi).2.2.2.1
    · intro j
      by_cases hj : j = i
      · subst hj
        simp [touchMachine_in_use]
      · simp [Function.update_noteq hj]
    · intro j hj
      simp [Function.update_noteq hj]
  · intro hnew f hfree
    have hfind := findMachineById_eq_none r machineId hnew
    obtain ⟨j, hslot, hjf, hjfree⟩ := findEmptySlot_exists r f hfree
    refine ⟨j, hslot, hjf, hjfree, ?_⟩
    rw [ScanDevAddMachine_created r now addr machineId running empty rssi j hfind hslot]
    refine ⟨rfl, ?_, ?_, ?_, rfl, ?_, ?_⟩
    · simp only [Function.update_same]
      rw [touchMachine_in_use]
      rfl
    · simp only [Function.update_same]
      rw [touchMachine_machineId]
      exact cstr_strncpy_zero machineId
    · simp only [Function.update_same]
      exact (touchMachine_refreshed _ now addr running empty rssi).2.2.2.1
    · intro l hl
      simp [Function.update_noteq hl]
    · intro e huse _
      have hne : e ≠ j := by
        intro h
        rw [h, hjfree] at huse
        exact absurd huse (by simp)
      simp [Function.update_noteq hne]


/-- Witness of C16: with machine "A" stored under address 7, an observation of
"A" from address 9 updates slot 0, and an observation of "B" from address 7
claims slot 1. -/
theorem lookup_by_machine_id_only_witness :
    (seenOnce.machines 0).in_use = true ∧ (seenOnce.machines 0).addr = 7 ∧
    (∃ i, findMachineById seenOnce [65, 0] = some i ∧ i ≤ 0 ∧
      ((ScanDevAddMachine seenOnce 120 9 [65, 0] true false (-40)).2.machines i).addr = 9 ∧
      (ScanDevAddMachine seenOnce 120 9 [65, 0] true false (-40)).2.machine_count
        = seenOnce.machine_count) ∧
    (∃ j, findEmptySlot seenOnce = some j ∧ j ≤ 1 ∧
      ((ScanDevAddMachine seenOnce 120 7 [66, 0] true false (-40)).2.machines j).in_use = true ∧
      (ScanDevAddMachine seenOnce 120 7 [66, 0] true false (-40)).2.machine_count
        = seenOnce.machine_count + 1) :=
  ⟨by decide, by decide,
    let ⟨i, h1, h2, _, _, _, _, h3, h4, _⟩ :=
      (lookup_by_machine_id_only seenOnce 120 9 [65, 0] true false (-40)).1 0
        (by decide) (by decide)
    ⟨i, h1, h2, h3, h4⟩,
    let ⟨j, h1, h2, _, _, h3, _, _, h4, _⟩ :=
      (lookup_by_machine_id_only seenOnce 120 7 [66, 0] true false (-40)).2
        (by decide) 1 (by decide)
    ⟨j, h1, h2, h3, h4⟩⟩

/-! ## Scenario B -/

theorem updateMachine_running (currentTime absence_timeout : Int) (mqtt : Bool)
    (m : SCANDEV_MACHINE_T) :
    (updateMachine currentTime absence_timeout mqtt m).1.running = m.running ∧
    (updateMachine currentTime absence_timeout mqtt m).1.empty = m.empty := by
  unfold updateMachine
  dsimp only
  split_ifs <;> exact ⟨rfl, rfl⟩

theorem ScanDevUpdate_running (cfg : CONFIG_BT_T) (r : Registry) (currentTime : Int)
    (mqtt : Fin SCANDEV_MAX_MACHINES → Bool) (k : Fin SCANDEV_MAX_MACHINES) :
    ((ScanDevUpdate cfg r currentTime mqtt).1.machines k).running = (r.machines k).running ∧
    ((ScanDevUpdate cfg r currentTime mqtt).1.machines k).empty = (r.machines k).empty := by
  rw [ScanDevUpdate_machines]
  split
  · exact updateMachine_running _ _ _ _
  · exact ⟨rfl, rfl⟩

/-- The lookup only reads `in_use` and `machineId`. -/
theorem findMachineById_same_keys (r r2 : Registry) (id : List Byte)
    (hkeys : ∀ j, (r2.machines j).in_use = (r.machines j).in_use ∧
      (r2.machines j).machineId = (r.machines j).machineId) :
    findMachineById r2 id = findMachineById r id := by
  unfold findMachineById
  apply findFrom_congr
  intro j
  simp only [(hkeys j).1, (hkeys j).2]

/-- A state change seen on an existing entry marks it pending and advances the
previous-state fields. -/
theorem touchMachine_changed (m : SCANDEV_MACHINE_T) (now : Int) (addr : BLEAddress)
    (running empty : Bool) (rssi : Int) (h : m.running ≠ running ∨ m.empty ≠ empty) :
    (touchMachine m now addr running empty rssi).post_pending = true ∧
    (touchMachine m now addr running empty rssi).prev_running = running ∧
    (touchMachine m now addr running empty rssi).prev_empty = empty := by
  have hc : ((m.running != running) || (m.empty != empty)) = true := by
    rcases h with h | h
    · simp [h]
    · simp [h]
  unfold touchMachine
  dsimp only
  rw [if_pos hc]
  exact ⟨rfl, rfl, rfl⟩

/-- Scenario B on `ScanDevAddMachine`: a new machine (id of at most 16 bytes)
first seen running and non-empty is created pending; when it is next seen not
running, from any registry `mid` that agrees with the registry after the first
call on `in_use` and `machineId` and still stores `running = true` for the
entry, the entry is pending and `prev_running` is false. -/
theorem scenarioB_addMachine (r : Registry) (now1 : Int) (addr1 : BLEAddress)
    (machineId : List Byte) (rssi1 : Int)
    (hlen : (cstr machineId).length ≤ MACHINE_ID_MAX_LEN)
    (hnew : ∀ j, (r.machines j).in_use = true → cstr (r.machines j).machineId ≠ cstr machineId)
    (f : Fin SCANDEV_MAX_MACHINES) (hfree : (r.machines f).in_use = false) :
    ∃ i, (r.machines i).in_use = false ∧
      ((ScanDevAddMachine r now1 addr1 machineId true false rssi1).2.machines i).in_use = true ∧
      ((ScanDevAddMachine r now1 addr1 machineId true false rssi1).2.machines i).post_pending
        = true ∧
      ((ScanDevAddMachine r now1 addr1 machineId true false rssi1).2.machines i).running
        = true ∧
      ∀ (mid : Registry) (now2 : Int) (addr2 : BLEAddress) (rssi2 : Int),
        (∀ j, (mid.machines j).in_use
            = ((ScanDevAddMachine r now1 addr1 machineId true false rssi1).2.machines j).in_use ∧
          (mid.machines j).machineId
            = ((ScanDevAddMachine r now1 addr1 machineId true false rssi1).2.machines j).machineId) →
        (mid.machines i).running = true →
        ((ScanDevAddMachine mid now2 addr2 machineId false false rssi2).2.machines i).post_pending
          = true ∧
        ((ScanDevAddMachine mid now2 addr2 machineId false false rssi2).2.machines i).prev_running
          = false := by
  have hfind := findMachineById_eq_none r machineId hnew
  obtain ⟨i, hslot, _, hifree⟩ := findEmptySlot_exists r f hfree
  have hadd := ScanDevAddMachine_created r now1 addr1 machineId true false rssi1 i hfind hslot
  have huse : (touchMachine (newMachine addr1 machineId true false) now1 addr1 true false
      rssi1).in_use = true := by
    rw [touchMachine_in_use]
    rfl
  have hid : cstr (touchMachine (newMachine addr1 machineId true false) now1 addr1 true false
      rssi1).machineId = cstr machineId := by
    rw [touchMachine_machineId]
    exact (cstr_strncpy_zero machineId).trans (List.take_of_length_le hlen)
  have hfind1 : findMachineById
      (ScanDevAddMachine r now1 addr1 machineId true false rssi1).2 machineId = some i := by
    rw [hadd]
    exact findMachineById_created r machineId i _ _ hfind huse hid
  refine ⟨i, hifree, ?_, ?_, ?_, ?_⟩
  · rw [hadd]
    simp only [Function.update_same]
    exact huse
  · rw [hadd]
    simp only [Function.update_same]
    exact (touchMachine_newMachine now1 addr1 machineId true false rssi1).1
  · rw [hadd]
    simp only [Function.update_same]
    exact (touchMachine_refreshed _ now1 addr1 true false rssi1).2.2.2.2.1
  · intro mid now2 addr2 rssi2 hkeys hrun
    have hfind2 : findMachineById mid machineId = some i := by
      rw [findMachineById_same_keys _ mid machineId hkeys]
      exact hfind1
    rw [ScanDevAddMachine_found mid now2 addr2 machineId false false rssi2 i hfind2]
    simp only [Function.update_same]
    have hch := touchMachine_changed (mid.machines i) now2 addr2 false false rssi2
      (Or.inl (by rw [hrun]; simp))
    exact ⟨hch.1, hch.2.1⟩


theorem decode_accepted (expectedName : List Byte) (expectedManufacturerId : Nat)
    (dev : BLEAdvertisedDevice) (data : List Byte) (hname : dev.name = expectedName)
    (hdata : dev.manufacturerData = some data) (hlen : 4 ≤ data.length)
    (hid : manufacturerIdOf data = expectedManufacturerId) :
    decode expectedName expectedManufacturerId dev
      = some { addr := dev.address
               machineId := parseMachineId data
               running := decide ((statusByteOf data).val &&& 0x01 ≠ 0)
               empty := decide ((statusByteOf data).val &&& 0x02 ≠ 0)
               rssi := dev.rssi } := by
  have hlen2 : ¬ data.length < 4 := by omega
  unfold decode
  rw [hdata]
  simp only [hname, hlen2, hid, ne_eq, not_true_eq_false, if_false]

theorem decode_some_conditions (expectedName : List Byte) (expectedManufacturerId : Nat)
    (dev : BLEAdvertisedDevice) (data : List Byte) (obs : Observation)
    (hdata : dev.manufacturerData = some data)
    (hacc : decode expectedName expectedManufacturerId dev = some obs) :
    dev.name = expectedName ∧ manufacturerIdOf data = expectedManufacturerId := by
  unfold decode at hacc
  rw [hdata] at hacc
  by_cases hname : dev.name = expectedName
  · by_cases hlen : data.length < 4
    · simp [hname, hlen] at hacc
    · by_cases hid : manufacturerIdOf data = expectedManufacturerId
      · exact ⟨hname, hid⟩
      · simp [hname, hlen, hid] at hacc
  · simp [hname] at hacc

theorem cstr_parseMachineId_length (data : List Byte) :
    (cstr (parseMachineId data)).length ≤ MACHINE_ID_MAX_LEN := by
  rw [cstr_parseMachineId]
  have h1 := (List.takeWhile_prefix (fun b : Byte => decide (b ≠ 0))
    (l := (data.drop 2).take (min (data.length - 3) MACHINE_ID_MAX_LEN))).length_le
  have h2 := List.length_take_le (min (data.length - 3) MACHINE_ID_MAX_LEN) (data.drop 2)
  have h3 : min (data.length - 3) MACHINE_ID_MAX_LEN ≤ MACHINE_ID_MAX_LEN := Nat.min_le_right _ _
  omega

/-- C17 (scenario B): an accepted advertisement with status byte `0x01` for a
machine that is not in the registry, which has a free slot, decodes to running
and not empty and creates an entry with `post_pending = true`; the same payload
with status byte `0x00` is accepted too, decodes to the same machine id, not
running, not empty, and after it the entry has `post_pending = true` and
`prev_running = false`, both when it follows directly and when a
`ScanDevUpdate` (with any publish outcome, so also a successful publish that
clears `post_pending`) runs in between. -/
theorem scenario_B_state_change (r : Registry) (now1 now2 : Int)
    (dev1 dev2 : BLEAdvertisedDevice) (pre : List Byte) (obs1 : Observation)
    (hd1 : dev1.manufacturerData = some (pre ++ [0x01]))
    (hd2 : dev2.manufacturerData = some (pre ++ [0x00]))
    (hname2 : dev2.name = dev1.name)
    (hacc1 : decode TARGET_DEVICE_NAME TARGET_MANUFACTURER_ID dev1 = some obs1)
    (hnew : ∀ j, (r.machines j).in_use = true →
      cstr (r.machines j).machineId ≠ cstr obs1.machineId)
    (f : Fin SCANDEV_MAX_MACHINES) (hfree : (r.machines f).in_use = false) :
    obs1.running = true ∧ obs1.empty = false ∧
    (∃ obs2, decode TARGET_DEVICE_NAME TARGET_MANUFACTURER_ID dev2 = some obs2 ∧
      obs2.machineId = obs1.machineId ∧ obs2.running = false ∧ obs2.empty = false) ∧
    ∃ i, (r.machines i).in_use = false ∧
      ((onResult r now1 dev1).machines i).in_use = true ∧
      cstr ((onResult r now1 dev1).machines i).machineId = cstr obs1.machineId ∧
      ((onResult r now1 dev1).machines i).post_pending = true ∧
      ((onResult (onResult r now1 dev1) now2 dev2).machines i).post_pending = true ∧
      ((onResult (onResult r now1 dev1) now2 dev2).machines i).prev_running = false ∧
      ∀ (cfg : CONFIG_BT_T) (t : Int) (mqtt : Fin SCANDEV_MAX_MACHINES → Bool),
        ((onResult (ScanDevUpdate cfg (onResult r now1 dev1) t mqtt).1 now2 dev2).machines
          i).post_pending = true ∧
        ((onResult (ScanDevUpdate cfg (onResult r now1 dev1) t mqtt).1 now2 dev2).machines
          i).prev_running = false := by
  obtain ⟨hlen, hobs1⟩ := decode_eq_some _ _ dev1 _ obs1 hd1 hacc1
  obtain ⟨hname1, hmid1⟩ := decode_some_conditions _ _ dev1 _ obs1 hd1 hacc1
  have hpre : 3 ≤ pre.length := by
    simp only [List.length_append, List.length_singleton] at hlen
    omega
  have hrun1 : obs1.running = true := by
    rw [hobs1, statusByteOf_append]
    rfl
  have hemp1 : obs1.empty = false := by
    rw [hobs1, statusByteOf_append]
    rfl
  have hid1 : obs1.machineId = parseMachineId (pre ++ [0x01]) := by rw [hobs1]
  have hacc2 : decode TARGET_DEVICE_NAME TARGET_MANUFACTURER_ID dev2
      = some { addr := dev2.address
               machineId := obs1.machineId
               running := false
               empty := false
               rssi := dev2.rssi } := by
    rw [decode_accepted _ _ dev2 (pre ++ [0x00]) (hname2.trans hname1) hd2
      (by simp only [List.length_append, List.length_singleton]; omega)
      ((manufacturerIdOf_append_status pre 0x00 0x01 hpre).trans hmid1)]
    rw [statusByteOf_append, parseMachineId_append_status pre 0x00 0x01 hpre, hid1]
    rfl
  have hlen16 : (cstr obs1.machineId).length ≤ MACHINE_ID_MAX_LEN := by
    rw [hid1]
    exact cstr_parseMachineId_length _
  obtain ⟨i, hifree, huse, hpend, hrunning, hsecond⟩ :=
    scenarioB_addMachine r now1 obs1.addr obs1.machineId obs1.rssi hlen16 hnew f hfree
  have hfirst : onResult r now1 dev1
      = (ScanDevAddMachine r now1 obs1.addr obs1.machineId true false obs1.rssi).2 := by
    simp only [onResult, hacc1, hrun1, hemp1]
  have hstep : ∀ mid : Registry, onResult mid now2 dev2
      = (ScanDevAddMachine mid now2 dev2.address obs1.machineId false false dev2.rssi).2 := by
    intro mid
    simp only [onResult, hacc2]
  have hidi : cstr ((onResult r now1 dev1).machines i).machineId = cstr obs1.machineId := by
    have hfound := findMachineById_eq_none r obs1.machineId hnew
    obtain ⟨j, hslot, _, _⟩ := findEmptySlot_exists r f hfree
    have hcreated := ScanDevAddMachine_created r now1 obs1.addr obs1.machineId true false
      obs1.rssi j hfound hslot
    by_cases hij : i = j
    · rw [hfirst, hcreated, hij]
      simp only [Function.update_same]
      rw [touchMachine_machineId]
      exact (cstr_strncpy_zero obs1.machineId).trans (List.take_of_length_le hlen16)
    · exfalso
      rw [hcreated] at huse
      simp only [Function.update_noteq hij] at huse
      rw [hifree] at huse
      exact absurd huse (by simp)
  refine ⟨hrun1, hemp1, ⟨_, hacc2, rfl, rfl, rfl⟩, i, hifree, ?_, hidi, ?_, ?_, ?_, ?_⟩
  · rw [hfirst]
    exact huse
  · rw [hfirst]
    exact hpend
  · rw [hstep, hfirst]
    exact (hsecond _ now2 dev2.address dev2.rssi (fun j => ⟨rfl, rfl⟩) hrunning).1
  · rw [hstep, hfirst]
    exact (hsecond _ now2 dev2.address dev2.rssi (fun j => ⟨rfl, rfl⟩) hrunning).2
  · intro cfg t mqtt
    rw [hstep, hfirst]
    have h := hsecond (ScanDevUpdate cfg
        (ScanDevAddMachine r now1 obs1.addr obs1.machineId true false obs1.rssi).2 t mqtt).1
      now2 dev2.address dev2.rssi
      (fun j => ⟨ScanDevUpdate_in_use _ _ _ _ j, ScanDevUpdate_machineId _ _ _ _ j⟩)
      (by rw [(ScanDevUpdate_running _ _ _ _ i).1]; exact hrunning)
    exact h

theorem scenarioB_decodes :
    decode TARGET_DEVICE_NAME TARGET_MANUFACTURER_ID scenarioB_first = some scenarioB_obs := by
  decide

/-- Witness of C17: scenario B from the empty registry; the tick at time 105
publishes the entry of slot 0 and clears `post_pending`, and the second
advertisement sets it again. -/
theorem scenario_B_state_change_witness :
    ((onResult ScanDevSetup 100 scenarioB_first).machines 0).post_pending = true ∧
    ((ScanDevUpdate hardcodedConfig (onResult ScanDevSetup 100 scenarioB_first) 105
      (fun _ => true)).1.machines 0).post_pending = false ∧
    ((onResult (ScanDevUpdate hardcodedConfig (onResult ScanDevSetup 100 scenarioB_first) 105
      (fun _ => true)).1 110 scenarioB_second).machines 0).post_pending = true ∧
    ((onResult (ScanDevUpdate hardcodedConfig (onResult ScanDevSetup 100 scenarioB_first) 105
      (fun _ => true)).1 110 scenarioB_second).machines 0).prev_running = false ∧
    ∃ i, ((onResult ScanDevSetup 100 scenarioB_first).machines i).post_pending = true ∧
      ((onResult (onResult ScanDevSetup 100 scenarioB_first) 110 scenarioB_second).machines
        i).post_pending = true ∧
      ((onResult (onResult ScanDevSetup 100 scenarioB_first) 110 scenarioB_second).machines
        i).prev_running = false :=
  ⟨by decide, by decide, by decide, by decide,
    let ⟨_, _, _, i, _, _, _, h1, h2, h3, _⟩ :=
      scenario_B_state_change ScanDevSetup 100 110 scenarioB_first scenarioB_second
        [0xFF, 0xFF, 82, 79, 79, 77, 49] scenarioB_obs rfl rfl rfl scenarioB_decodes
        (by decide) 0 (by decide)
    ⟨i, h1, h2, h3⟩⟩


/-! ## Claims about the sinks -/

/-- C18 (evaluation at the failing input): with the lifecycle flag
'configuring' set, the MQTT client connected and machine "A" pending, present
and past the minimum interval, the tick at time 105 hands the status of "A" to
`_mqttClient.publish` and clears `post_pending`, while
`HttpApiPostMachineStatus` in the same lifecycle state returns false without
posting. -/
theorem publish_while_configuring :
    configuringSystem.configuring = true ∧
    (configuringSystem.registry.machines 0).post_pending = true ∧
    (System.scanDevUpdate hardcodedConfig configuringSystem 105).2
      = [{ machineId := [65], running := true, empty := false }] ∧
    ((System.scanDevUpdate hardcodedConfig configuringSystem 105).1.machines 0).post_pending
      = false ∧
    ((System.scanDevUpdate hardcodedConfig configuringSystem 105).1.machines 0).last_posted
      = 105 ∧
    HttpApiPostMachineStatus 200 201
        { configuring := true, beginResult := true, postResult := 200 } [65, 0] true false
      = (false, none) := by
  decide

/-- C20 (as stated, refuted): outside the configuring state and with the
connection opened, the 2xx response codes 202 and 204 make
`HttpApiPostMachineStatus` return false (with the library values 200 and 201
for `HTTP_CODE_OK` and `HTTP_CODE_CREATED`). -/
theorem http_204_is_not_success :
    (200 : Int) ≤ 204 ∧ (204 : Int) ≤ 299 ∧
    (HttpApiPostMachineStatus 200 201
      { configuring := false, beginResult := true, postResult := 204 } [65, 0] true false).1
      = false ∧
    (HttpApiPostMachineStatus 200 201
      { configuring := false, beginResult := true, postResult := 202 } [65, 0] true false).1
      = false := by
  decide

/-- C20 (amended): outside the configuring state and with the connection
opened, `HttpApiPostMachineStatus` returns true if and only if the response
code is positive and equals `HTTP_CODE_OK` or `HTTP_CODE_CREATED` (with the
library values: if and only if it is 200 or 201); every other outcome, also a
transport error with a non-positive code, returns false. -/
theorem http_post_success_iff (HTTP_CODE_OK HTTP_CODE_CREATED : Int) (h : HttpView)
    (machineId : List Byte) (running empty : Bool)
    (hcfg : h.configuring = false) (hbegin : h.beginResult = true) :
    ((HttpApiPostMachineStatus HTTP_CODE_OK HTTP_CODE_CREATED h machineId running empty).1 = true
      ↔ (0 < h.postResult ∧
          (h.postResult = HTTP_CODE_OK ∨ h.postResult = HTTP_CODE_CREATED))) ∧
    (h.postResult ≤ 0 →
      (HttpApiPostMachineStatus HTTP_CODE_OK HTTP_CODE_CREATED h machineId running empty).1
        = false) ∧
    (HTTP_CODE_OK = 200 → HTTP_CODE_CREATED = 201 →
      ((HttpApiPostMachineStatus HTTP_CODE_OK HTTP_CODE_CREATED h machineId running empty).1
          = true
        ↔ (h.postResult = 200 ∨ h.postResult = 201))) := by
  have key : (HttpApiPostMachineStatus HTTP_CODE_OK HTTP_CODE_CREATED h machineId running
      empty).1 = true
      ↔ (0 < h.postResult ∧
          (h.postResult = HTTP_CODE_OK ∨ h.postResult = HTTP_CODE_CREATED)) := by
    unfold HttpApiPostMachineStatus
    simp only [hcfg, hbegin, Bool.false_eq_true, if_false, Bool.not_true]
    by_cases hpos : h.postResult > 0
    · by_cases hcode : h.postResult = HTTP_CODE_OK ∨ h.postResult = HTTP_CODE_CREATED
      · simp [hpos, hcode]
      · simp [hpos, hcode]
    · have hn : ¬ 0 < h.postResult := hpos
      simp [hpos, hn]
  refine ⟨key, ?_, ?_⟩
  · intro hle
    cases hres : (HttpApiPostMachineStatus HTTP_CODE_OK HTTP_CODE_CREATED h machineId running
      empty).1 with
    | false => rfl
    | true =>
      have := (key.mp hres).1
      omega
  · intro hok hcr
    rw [key, hok, hcr]
    constructor
    · rintro ⟨_, h2⟩
      exact h2
    · intro h2
      refine ⟨?_, h2⟩
      rcases h2 with h2 | h2 <;> omega

/-- Witness of C20 (amended): response code 201 is a success. -/
theorem http_post_success_iff_witness :
    (HttpApiPostMachineStatus 200 201
      { configuring := false, beginResult := true, postResult := 201 } [65, 0] true false).1
      = true :=
  ((http_post_success_iff 200 201
    { configuring := false, beginResult := true, postResult := 201 } [65, 0] true false
    rfl rfl).1).mpr ⟨by decide, Or.inr rfl⟩


/-! ## Claims about `BluetoothScanStart` -/

theorem BluetoothScanStart_active (cfg : CONFIG_BT_T) (s : ScanState) (now : Int)
    (h : now - s.last_activescan > ((cfg.activescan_timeout % ULONG_MOD : Nat) : Int)) :
    (BluetoothScanStart cfg s now).2.2.active = true ∧
    (BluetoothScanStart cfg s now).2.1 = { last_scan := now, last_activescan := now } := by
  have hd : decide (now - s.last_activescan > ((cfg.activescan_timeout % ULONG_MOD : Nat) : Int))
      = true := decide_eq_true h
  unfold BluetoothScanStart
  dsimp only
  rw [hd]
  exact ⟨rfl, rfl⟩

theorem BluetoothScanStart_passive (cfg : CONFIG_BT_T) (s : ScanState) (now : Int)
    (h : ¬ now - s.last_activescan > ((cfg.activescan_timeout % ULONG_MOD : Nat) : Int)) :
    (BluetoothScanStart cfg s now).2.2.active = false ∧
    (BluetoothScanStart cfg s now).2.1
      = { last_scan := now, last_activescan := s.last_activescan } := by
  have hd : decide (now - s.last_activescan > ((cfg.activescan_timeout % ULONG_MOD : Nat) : Int))
      = false := decide_eq_false h
  unfold BluetoothScanStart
  dsimp only
  rw [hd]
  exact ⟨rfl, rfl⟩

/-- Every active start of a run comes more than the timeout after the
`_last_activescan` the run began with, and any two active starts of the run are
more than the timeout apart. -/
theorem scanStarts_spacing (cfg : CONFIG_BT_T) (times : List Int) :
    ∀ s : ScanState,
      (∀ e ∈ (scanStarts cfg s times).2, e.2 = true →
        e.1 - s.last_activescan > ((cfg.activescan_timeout % ULONG_MOD : Nat) : Int)) ∧
      (scanStarts cfg s times).2.Pairwise (fun a b => a.2 = true → b.2 = true →
        b.1 - a.1 > ((cfg.activescan_timeout % ULONG_MOD : Nat) : Int)) := by
  induction times with
  | nil =>
    intro s
    simp [scanStarts]
  | cons now rest ih =>
    intro s
    have hnn : (0 : Int) ≤ ((cfg.activescan_timeout % ULONG_MOD : Nat) : Int) :=
      Int.natCast_nonneg _
    by_cases hact : now - s.last_activescan > ((cfg.activescan_timeout % ULONG_MOD : Nat) : Int)
    · obtain ⟨h1, h2⟩ := ih { last_scan := now, last_activescan := now }
      have hrun : (scanStarts cfg s (now :: rest)).2
          = (now, true) :: (scanStarts cfg { last_scan := now, last_activescan := now } rest).2 := by
        obtain ⟨ha, hs⟩ := BluetoothScanStart_active cfg s now hact
        simp only [scanStarts, ha, hs]
      rw [hrun]
      constructor
      · intro e he hea
        rcases List.mem_cons.mp he with h | h
        · rw [h]
          exact hact
        · have := h1 e h hea
          simp only at this
          omega
      · refine List.Pairwise.cons ?_ h2
        intro b hb _ hba
        exact h1 b hb hba
    · obtain ⟨h1, h2⟩ := ih { last_scan := now, last_activescan := s.last_activescan }
      have hrun : (scanStarts cfg s (now :: rest)).2
          = (now, false) ::
            (scanStarts cfg { last_scan := now, last_activescan := s.last_activescan } rest).2 := by
        obtain ⟨ha, hs⟩ := BluetoothScanStart_passive cfg s now hact
        simp only [scanStarts, ha, hs]
      rw [hrun]
      constructor
      · intro e he hea
        rcases List.mem_cons.mp he with h | h
        · rw [h] at hea
          simp at hea
        · exact h1 e h hea
      · refine List.Pairwise.cons ?_ h2
        intro b _ ha
        simp at ha

/-- C21: `BluetoothScanStart` at time `now` chooses an active scan if and only
if `now - last_activescan > activescan_timeout` (strictly); it sets
`last_activescan = now` in exactly that case and leaves it unchanged for a
passive scan; it always records `last_scan = now` and returns true. Hence in
any run of scan starts, two starts that both choose active are more than
`activescan_timeout` seconds apart, and every start that comes after an active
start and at most `activescan_timeout` seconds later than it is passive. -/
theorem active_scan_selection (cfg : CONFIG_BT_T) (s : ScanState) (now : Int)
    (hcfg : cfg.activescan_timeout < ULONG_MOD) :
    ((BluetoothScanStart cfg s now).2.2.active = true ↔
      now - s.last_activescan > (cfg.activescan_timeout : Int)) ∧
    ((BluetoothScanStart cfg s now).2.2.active = true →
      (BluetoothScanStart cfg s now).2.1.last_activescan = now) ∧
    ((BluetoothScanStart cfg s now).2.2.active = false →
      (BluetoothScanStart cfg s now).2.1.last_activescan = s.last_activescan) ∧
    (BluetoothScanStart cfg s now).2.1.last_scan = now ∧
    (BluetoothScanStart cfg s now).1 = true ∧
    (∀ times : List Int,
      (scanStarts cfg s times).2.map Prod.fst = times ∧
      (scanStarts cfg s times).2.Pairwise (fun a b => a.2 = true → b.2 = true →
        b.1 - a.1 > (cfg.activescan_timeout : Int)) ∧
      (scanStarts cfg s times).2.Pairwise (fun a b => a.2 = true →
        b.1 - a.1 ≤ (cfg.activescan_timeout : Int) → b.2 = false)) := by
  have hmod : cfg.activescan_timeout % ULONG_MOD = cfg.activescan_timeout :=
    Nat.mod_eq_of_lt hcfg
  refine ⟨?_, ?_, ?_, rfl, rfl, ?_⟩
  · by_cases h : now - s.last_activescan > ((cfg.activescan_timeout % ULONG_MOD : Nat) : Int)
    · rw [(BluetoothScanStart_active cfg s now h).1]
      rw [hmod] at h
      exact ⟨fun _ => h, fun _ => rfl⟩
    · rw [(BluetoothScanStart_passive cfg s now h).1]
      rw [hmod] at h
      exact ⟨fun hf => absurd hf (by simp), fun hgt => absurd hgt h⟩
  · intro hact
    by_cases h : now - s.last_activescan > ((cfg.activescan_timeout % ULONG_MOD : Nat) : Int)
    · rw [(BluetoothScanStart_active cfg s now h).2]
    · rw [(BluetoothScanStart_passive cfg s now h).1] at hact
      exact absurd hact (by simp)
  · intro hpas
    by_cases h : now - s.last_activescan > ((cfg.activescan_timeout % ULONG_MOD : Nat) : Int)
    · rw [(BluetoothScanStart_active cfg s now h).1] at hpas
      exact absurd hpas (by simp)
    · rw [(BluetoothScanStart_passive cfg s now h).2]
  · intro times
    have hsp := (scanStarts_spacing cfg times s).2
    rw [hmod] at hsp
    refine ⟨?_, hsp, ?_⟩
    · clear hsp
      induction times generalizing s with
      | nil => rfl
      | cons t rest ih =>
        simp only [scanStarts, List.map_cons, List.cons.injEq, true_and]
        exact ih _
    · refine hsp.imp ?_
      intro a b hab ha hle
      cases hb : b.2 with
      | false => rfl
      | true =>
        have := hab ha hb
        omega

/-- Witness of C21: with a timeout of 60 seconds and the last active scan at
time 0, the starts at times 100, 130 and 161 are active, passive and active. -/
theorem active_scan_selection_witness :
    hardcodedConfig.activescan_timeout < ULONG_MOD ∧
    (scanStarts hardcodedConfig { last_scan := 0, last_activescan := 0 } [100, 130, 161]).2
      = [(100, true), (130, false), (161, true)] ∧
    ((BluetoothScanStart hardcodedConfig { last_scan := 0, last_activescan := 0 } 100).2.2.active
      = true ↔
      (100 : Int) - 0 > (hardcodedConfig.activescan_timeout : Int)) :=
  ⟨by decide, by decide,
    (active_scan_selection hardcodedConfig { last_scan := 0, last_activescan := 0 } 100
      (by decide)).1⟩


/-! ## Change detection as implemented -/

/-- C22: `ScanDevAddMachine` decides 'state changed' against the stored current
`running`/`empty` of the slot it works on, as they stand when the comparison is
made (the slot found, or the freshly initialised slot, whose `running`, `empty`
and `post_pending` are false), whatever `prev_running`/`prev_empty` hold. When
the observed flags differ from the stored ones the call sets `post_pending` and
advances `prev_running`/`prev_empty`; otherwise it leaves all three unchanged.
So a brand-new machine id ends with `post_pending = (running || empty)`, and a
machine first seen with both flags false ends with `post_pending = false` and
`prev_running = prev_empty = true`. -/
theorem change_detection_uses_current_state (r r1 : Registry) (now : Int) (addr : BLEAddress)
    (machineId : List Byte) (running empty : Bool) (rssi : Int)
    (i : Fin SCANDEV_MAX_MACHINES)
    (hslot : claimSlot r addr machineId running empty = some (i, r1)) :
    (ScanDevAddMachine r now addr machineId running empty rssi).1 = true ∧
    (((r1.machines i).running ≠ running ∨ (r1.machines i).empty ≠ empty) →
      ((ScanDevAddMachine r now addr machineId running empty rssi).2.machines i).post_pending
        = true ∧
      ((ScanDevAddMachine r now addr machineId running empty rssi).2.machines i).prev_running
        = running ∧
      ((ScanDevAddMachine r now addr machineId running empty rssi).2.machines i).prev_empty
        = empty) ∧
    (((r1.machines i).running = running ∧ (r1.machines i).empty = empty) →
      ((ScanDevAddMachine r now addr machineId running empty rssi).2.machines i).post_pending
        = (r1.machines i).post_pending ∧
      ((ScanDevAddMachine r now addr machineId running empty rssi).2.machines i).prev_running
        = (r1.machines i).prev_running ∧
      ((ScanDevAddMachine r now addr machineId running empty rssi).2.machines i).prev_empty
        = (r1.machines i).prev_empty) ∧
    (∀ k, findMachineById r machineId = some k → k = i ∧ r1.machines i = r.machines i) ∧
    (findMachineById r machineId = none →
      (r.machines i).in_use = false ∧
      (r1.machines i).running = false ∧ (r1.machines i).empty = false ∧
      (r1.machines i).post_pending = false ∧
      (r1.machines i).prev_running = !running ∧ (r1.machines i).prev_empty = !empty ∧
      ((ScanDevAddMachine r now addr machineId running empty rssi).2.machines i).post_pending
        = (running || empty) ∧
      (running = false → empty = false →
        ((ScanDevAddMachine r now addr machineId running empty rssi).2.machines i).post_pending
          = false ∧
        ((ScanDevAddMachine r now addr machineId running empty rssi).2.machines i).prev_running
          = true ∧
        ((ScanDevAddMachine r now addr machineId running empty rssi).2.machines i).prev_empty
          = true)) := by
  have hres : ScanDevAddMachine r now addr machineId running empty rssi
      = (true, Registry.mk
          (Function.update r1.machines i
            (touchMachine (r1.machines i) now addr running empty rssi))
          r1.machine_count) := by
    simp only [ScanDevAddMachine, hslot]
  rw [hres]
  simp only [Function.update_same]
  refine ⟨trivial, ?_, ?_, ?_, ?_⟩
  · intro hdiff
    exact touchMachine_changed _ now addr running empty rssi hdiff
  · rintro ⟨hr, he⟩
    exact touchMachine_same_flags _ now addr running empty rssi hr he
  · intro k hk
    simp only [claimSlot, hk, Option.some.injEq, Prod.mk.injEq] at hslot
    exact ⟨hslot.1, by rw [← hslot.2]⟩
  · intro hnone
    cases hfree : findEmptySlot r with
    | none => simp [claimSlot, hnone, hfree] at hslot
    | some j =>
      simp only [claimSlot, hnone, hfree, Option.some.injEq, Prod.mk.injEq] at hslot
      obtain ⟨hji, hr1⟩ := hslot
      subst hji
      have hnew : r1.machines j = newMachine addr machineId running empty := by
        rw [← hr1]
        simp
      have hfields := touchMachine_newMachine now addr machineId running empty rssi
      rw [hnew]
      refine ⟨findEmptySlot_some r j hfree, rfl, rfl, rfl, rfl, rfl, hfields.1, ?_⟩
      intro hr he
      subst hr
      subst he
      exact ⟨hfields.1, hfields.2.1, hfields.2.2⟩

/-- Witness of C22: machine "A" first seen idle and not empty after
`ScanDevSetup` is left with `post_pending = false`. -/
theorem change_detection_uses_current_state_witness :
    findMachineById ScanDevSetup [65, 0] = none ∧
    ((ScanDevAddMachine ScanDevSetup 100 7 [65, 0] false false (-50)).2.machines 0).post_pending
      = (false || false) :=
  ⟨by decide,
    ((change_detection_uses_current_state ScanDevSetup
      (Registry.mk (Function.update ScanDevSetup.machines 0 (newMachine 7 [65, 0] false false))
        (ScanDevSetup.machine_count + 1))
      100 7 [65, 0] false false (-50) 0 rfl).2.2.2.2 (by decide)).2.2.2.2.2.2.1⟩


/-! ## The machine count -/

theorem card_in_use_of_packed (ms : Fin SCANDEV_MAX_MACHINES → SCANDEV_MACHINE_T) (n : Nat)
    (hn : n ≤ SCANDEV_MAX_MACHINES) (hpacked : ∀ k, (ms k).in_use = true ↔ k.val < n) :
    (Finset.univ.filter (fun k => (ms k).in_use = true)).card = n := by
  have hset : (Finset.univ.filter (fun k => (ms k).in_use = true)).map Fin.valEmbedding
      = Finset.range n := by
    ext x
    simp only [Finset.mem_map, Finset.mem_filter, Finset.mem_univ, true_and, Finset.mem_range,
      Fin.valEmbedding_apply]
    constructor
    · rintro ⟨k, hk, rfl⟩
      exact (hpacked k).mp hk
    · intro hx
      exact ⟨⟨x, by omega⟩, (hpacked _).mpr hx, rfl⟩
  rw [← Finset.card_map Fin.valEmbedding, hset, Finset.card_range]

/-- The in-use slots are exactly the first `_machine_count` slots. -/
theorem packed_addMachine (r : Registry) (now : Int) (addr : BLEAddress)
    (machineId : List Byte) (running empty : Bool) (rssi : Int) (n : Nat)
    (hn : n ≤ SCANDEV_MAX_MACHINES) (hcount : r.machine_count = (n : Int))
    (hpacked : ∀ k, (r.machines k).in_use = true ↔ k.val < n) :
    ∃ n2 : Nat, n2 ≤ SCANDEV_MAX_MACHINES ∧
      (ScanDevAddMachine r now addr machineId running empty rssi).2.machine_count = (n2 : Int) ∧
      ∀ k, ((ScanDevAddMachine r now addr machineId running empty rssi).2.machines k).in_use = true
        ↔ k.val < n2 := by
  cases hfind : findMachineById r machineId with
  | some i =>
    rw [ScanDevAddMachine_found r now addr machineId running empty rssi i hfind]
    refine ⟨n, hn, hcount, ?_⟩
    intro k
    by_cases hk : k = i
    · subst hk
      simp only [Function.update_same, touchMachine_in_use]
      exact hpacked k
    · simp only [Function.update_noteq hk]
      exact hpacked k
  | none =>
    cases hslot : findEmptySlot r with
    | none =>
      rw [ScanDevAddMachine_full r now addr machineId running empty rssi hfind hslot]
      exact ⟨n, hn, hcount, hpacked⟩
    | some j =>
      rw [ScanDevAddMachine_created r now addr machineId running empty rssi j hfind hslot]
      have hjfree := findEmptySlot_some r j hslot
      have hjn : n ≤ j.val := by
        by_contra hlt
        have := (hpacked j).mpr (by omega)
        rw [hjfree] at this
        exact absurd this (by simp)
      have hj50 := j.isLt
      have hnfree : (r.machines ⟨n, by omega⟩).in_use = false := by
        cases h : (r.machines ⟨n, by omega⟩).in_use with
        | false => rfl
        | true =>
          have := (hpacked ⟨n, by omega⟩).mp h
          simp only at this
          omega
      obtain ⟨j2, hj2, hle, _⟩ := findEmptySlot_exists r ⟨n, by omega⟩ hnfree
      have hjj : j2 = j := Option.some.inj (hj2.symm.trans hslot)
      have hjeq : j.val = n := by
        rw [hjj] at hle
        have : j.val ≤ n := Fin.le_def.mp hle
        omega
      refine ⟨n + 1, by omega, by rw [hcount]; push_cast; rfl, ?_⟩
      intro k
      by_cases hk : k = j
      · subst hk
        simp only [Function.update_same, touchMachine_in_use]
        constructor
        · intro _
          omega
        · intro _
          rfl
      · simp only [Function.update_noteq hk]
        rw [hpacked k]
        have hne : k.val ≠ j.val := fun e => hk (Fin.ext e)
        omega

theorem packed_foldl (calls : List Call) :
    ∀ r : Registry,
      (∃ n : Nat, n ≤ SCANDEV_MAX_MACHINES ∧ r.machine_count = (n : Int) ∧
        ∀ k, (r.machines k).in_use = true ↔ k.val < n) →
      ∃ n : Nat, n ≤ SCANDEV_MAX_MACHINES ∧
        (calls.foldl Call.apply r).machine_count = (n : Int) ∧
        ∀ k, ((calls.foldl Call.apply r).machines k).in_use = true ↔ k.val < n := by
  induction calls with
  | nil =>
    intro r h
    exact h
  | cons c rest ih =>
    intro r h
    obtain ⟨n, hn, hcount, hpacked⟩ := h
    simp only [List.foldl_cons]
    apply ih
    cases c with
    | addMachine now addr machineId running empty rssi =>
      exact packed_addMachine r now addr machineId running empty rssi n hn hcount hpacked
    | update cfg currentTime mqtt =>
      refine ⟨n, hn, hcount, ?_⟩
      intro k
      simp only [Call.apply]
      rw [ScanDevUpdate_in_use]
      exact hpacked k

theorem packed_runCalls (calls : List Call) :
    ∃ n : Nat, n ≤ SCANDEV_MAX_MACHINES ∧ (runCalls calls).machine_count = (n : Int) ∧
      ∀ k, ((runCalls calls).machines k).in_use = true ↔ k.val < n := by
  apply packed_foldl calls ScanDevSetup
  refine ⟨0, by omega, rfl, ?_⟩
  intro k
  simp [ScanDevSetup, zeroMachine]

/-- C23: after `ScanDevSetup` and any sequence of `ScanDevAddMachine` and
`ScanDevUpdate` calls, `_machine_count` (the value of `ScanDevGetCount`) is the
number of slots with `in_use = true`, the in-use slots are exactly the slots
`0 .. _machine_count - 1`, `0 <= _machine_count <= 50`, and a further call for
an id that is not in the registry claims the slot whose index is the current
`_machine_count` (the lowest free index). -/
theorem machine_count_is_in_use_count (calls : List Call) :
    ScanDevGetCount (runCalls calls) = (runCalls calls).machine_count ∧
    (runCalls calls).machine_count
      = ((Finset.univ.filter
          (fun k => ((runCalls calls).machines k).in_use = true)).card : Int) ∧
    (∀ k : Fin SCANDEV_MAX_MACHINES, ((runCalls calls).machines k).in_use = true ↔
      (k.val : Int) < (runCalls calls).machine_count) ∧
    0 ≤ (runCalls calls).machine_count ∧
    (runCalls calls).machine_count ≤ (SCANDEV_MAX_MACHINES : Int) ∧
    (∀ (addr : BLEAddress) (machineId : List Byte) (running empty : Bool)
      (i : Fin SCANDEV_MAX_MACHINES) (r1 : Registry),
      findMachineById (runCalls calls) machineId = none →
      claimSlot (runCalls calls) addr machineId running empty = some (i, r1) →
      (i.val : Int) = (runCalls calls).machine_count ∧
      ∀ k : Fin SCANDEV_MAX_MACHINES, k.val < i.val →
        ((runCalls calls).machines k).in_use = true) := by
  obtain ⟨n, hn, hcount, hpacked⟩ := packed_runCalls calls
  have hcard := card_in_use_of_packed (runCalls calls).machines n hn hpacked
  refine ⟨rfl, by rw [hcard, hcount], ?_, by rw [hcount]; omega, by rw [hcount]; omega, ?_⟩
  · intro k
    rw [hpacked k, hcount]
    omega
  · intro addr machineId running empty i r1 hnone hclaim
    cases hslot : findEmptySlot (runCalls calls) with
    | none => simp [claimSlot, hnone, hslot] at hclaim
    | some j =>
      simp only [claimSlot, hnone, hslot, Option.some.injEq, Prod.mk.injEq] at hclaim
      obtain ⟨hji, _⟩ := hclaim
      subst hji
      have hjfree := findEmptySlot_some _ j hslot
      have hjn : n ≤ j.val := by
        by_contra hlt
        have := (hpacked j).mpr (by omega)
        rw [hjfree] at this
        exact absurd this (by simp)
      have hmin := (findFrom_some _ _ _ _ _ hslot).2.2
      have hjle : j.val ≤ n := by
        by_contra hgt
        have hj50 := j.isLt
        have := hmin ⟨n, by omega⟩ (Nat.zero_le _) (by simp only; omega)
        have hin : ((runCalls calls).machines ⟨n, by omega⟩).in_use = true := by
          simpa using this
        have := (hpacked ⟨n, by omega⟩).mp hin
        simp only at this
        omega
      have hjeq : j.val = n := by omega
      refine ⟨by rw [hcount, hjeq], ?_⟩
      intro k hk
      exact (hpacked k).mpr (by omega)


/-! ## Spacing of publishes after a success -/

/-- A call that is not a tick at `MIN_POST_INTERVAL` or more seconds after
`last_posted` keeps an in-use slot in use and keeps its `last_posted`. -/
theorem Call.apply_keeps_last_posted (r : Registry) (c : Call) (k : Fin SCANDEV_MAX_MACHINES)
    (t : Int) (huse : (r.machines k).in_use = true) (hposted : (r.machines k).last_posted = t)
    (hquiet : ∀ u, c.tickTime = some u → u - t < MIN_POST_INTERVAL) :
    ((Call.apply r c).machines k).in_use = true ∧
    ((Call.apply r c).machines k).last_posted = t := by
  refine ⟨(Call.apply_keeps_slot r c k huse).1, ?_⟩
  cases c with
  | addMachine now addr machineId running empty rssi =>
    simp only [Call.apply]
    rcases ScanDevAddMachine_in_use_slot r now addr machineId running empty rssi k huse with h | h
    · rw [h]
      exact hposted
    · rw [h, touchMachine_last_posted]
      exact hposted
  | update cfg currentTime mqtt =>
    simp only [Call.apply]
    rw [ScanDevUpdate_machines, if_pos huse]
    rcases updateMachine_last_posted currentTime (toInt32 (ABSENCE_TIMEOUT cfg)) (mqtt k)
      (r.machines k) with h | ⟨_, h2⟩
    · rw [h]
      exact hposted
    · have hq : currentTime - t < 5 := hquiet currentTime rfl
      have h5 : (5 : Int) ≤ currentTime - (r.machines k).last_posted := h2
      rw [hposted] at h5
      omega

theorem foldl_apply_keeps_last_posted (calls : List Call) (k : Fin SCANDEV_MAX_MACHINES)
    (t : Int) :
    ∀ r : Registry, (r.machines k).in_use = true → (r.machines k).last_posted = t →
      (∀ c ∈ calls, ∀ u, c.tickTime = some u → u - t < MIN_POST_INTERVAL) →
      ((calls.foldl Call.apply r).machines k).in_use = true ∧
      ((calls.foldl Call.apply r).machines k).last_posted = t := by
  induction calls with
  | nil =>
    intro r huse hposted _
    exact ⟨huse, hposted⟩
  | cons c rest ih =>
    intro r huse hposted hquiet
    obtain ⟨h1, h2⟩ := Call.apply_keeps_last_posted r c k t huse hposted
      (hquiet c (List.mem_cons_self _ _))
    simp only [List.foldl_cons]
    exact ih (Call.apply r c) h1 h2 (fun d hd => hquiet d (List.mem_cons_of_mem _ hd))

/-- C24: after the tick at time `t` made a publish call for slot `k` that
returned true, (a) no tick at a time `t2` with `t2 - t < MIN_POST_INTERVAL`
makes a publish call for that slot, whatever `ScanDevAddMachine` calls (also
state changes that set `post_pending` again) and `ScanDevUpdate` calls happen in
between; (b) when all ticks in between come less than `MIN_POST_INTERVAL`
seconds after `t`, `last_posted` is still `t`, and the tick at a time `t2` with
`t2 - t >= MIN_POST_INTERVAL` makes a publish call for the slot if and only if
the entry is pending and still present (present and not timed out at that
tick). -/
theorem publish_spacing_after_success (cfg1 : CONFIG_BT_T) (r : Registry) (t : Int)
    (mqtt1 : Fin SCANDEV_MAX_MACHINES → Bool) (k : Fin SCANDEV_MAX_MACHINES)
    (hatt : ∃ c ∈ (ScanDevUpdate cfg1 r t mqtt1).2, c.slot = k) (hok : mqtt1 k = true) :
    (∀ (between : List Call) (cfg2 : CONFIG_BT_T) (t2 : Int)
      (mqtt2 : Fin SCANDEV_MAX_MACHINES → Bool), t2 - t < MIN_POST_INTERVAL →
      ¬ ∃ c ∈ (ScanDevUpdate cfg2
          (between.foldl Call.apply (ScanDevUpdate cfg1 r t mqtt1).1) t2 mqtt2).2, c.slot = k) ∧
    (∀ (between : List Call),
      (∀ c ∈ between, ∀ u, c.tickTime = some u → u - t < MIN_POST_INTERVAL) →
      ((between.foldl Call.apply (ScanDevUpdate cfg1 r t mqtt1).1).machines k).last_posted = t ∧
      ∀ (cfg2 : CONFIG_BT_T) (t2 : Int) (mqtt2 : Fin SCANDEV_MAX_MACHINES → Bool),
        t2 - t ≥ MIN_POST_INTERVAL →
        ((∃ c ∈ (ScanDevUpdate cfg2
            (between.foldl Call.apply (ScanDevUpdate cfg1 r t mqtt1).1) t2 mqtt2).2, c.slot = k)
          ↔
          (((between.foldl Call.apply (ScanDevUpdate cfg1 r t mqtt1).1).machines k).post_pending
              = true ∧
            ((between.foldl Call.apply (ScanDevUpdate cfg1 r t mqtt1).1).machines k).present
              = true ∧
            ¬ t2 - ((between.foldl Call.apply (ScanDevUpdate cfg1 r t mqtt1).1).machines
                k).last_seen > toInt32 (ABSENCE_TIMEOUT cfg2)))) := by
  have hslot := ScanDevUpdate_published_slot cfg1 r t mqtt1 k hatt hok
  have hposted : ((ScanDevUpdate cfg1 r t mqtt1).1.machines k).last_posted = t := by
    rw [hslot]
  have huse : ((ScanDevUpdate cfg1 r t mqtt1).1.machines k).in_use = true := by
    rw [hslot]
    exact ((ScanDevUpdate_attempt_iff cfg1 r t mqtt1 k).mp hatt).1
  constructor
  · intro between cfg2 t2 mqtt2 hclose
    obtain ⟨_, _, hle, _⟩ := foldl_apply_keeps_slot between k _ huse
    rw [hposted] at hle
    apply no_attempt_within_interval
    have h5 : t2 - t < 5 := hclose
    show _ < (5 : Int)
    omega
  · intro between hquiet
    obtain ⟨huse2, hposted2⟩ := foldl_apply_keeps_last_posted between k t _ huse hposted hquiet
    refine ⟨hposted2, ?_⟩
    intro cfg2 t2 mqtt2 hlate
    rw [ScanDevUpdate_attempt_iff, updateMachine_attempt, hposted2]
    simp only [Bool.and_eq_true, decide_eq_true_eq, Bool.not_eq_true', decide_eq_false_iff_not]
    constructor
    · rintro ⟨_, ⟨hp, hpr, hnot⟩, _⟩
      exact ⟨hp, hpr, hnot⟩
    · rintro ⟨hp, hpr, hnot⟩
      exact ⟨huse2, ⟨hp, hpr, hnot⟩, hlate⟩

/-- Witness of C24: machine "A" is published at time 105 and changes state at
time 106; the tick at time 107 makes no call for it, the tick at time 110
does. -/
theorem publish_spacing_after_success_witness :
    (∃ c ∈ (ScanDevUpdate hardcodedConfig seenOnce 105 (fun _ => true)).2, c.slot = 0) ∧
    (([Call.addMachine 106 7 [65, 0] false false (-50)].foldl Call.apply
      (ScanDevUpdate hardcodedConfig seenOnce 105 (fun _ => true)).1).machines 0).post_pending
      = true ∧
    (¬ ∃ c ∈ (ScanDevUpdate hardcodedConfig
        ([Call.addMachine 106 7 [65, 0] false false (-50)].foldl Call.apply
          (ScanDevUpdate hardcodedConfig seenOnce 105 (fun _ => true)).1) 107 (fun _ => true)).2,
        c.slot = 0) ∧
    (∃ c ∈ (ScanDevUpdate hardcodedConfig
        ([Call.addMachine 106 7 [65, 0] false false (-50)].foldl Call.apply
          (ScanDevUpdate hardcodedConfig seenOnce 105 (fun _ => true)).1) 110 (fun _ => true)).2,
        c.slot = 0) :=
  ⟨by decide, by decide,
    (publish_spacing_after_success hardcodedConfig seenOnce 105 (fun _ => true) 0
      (by decide) rfl).1 [Call.addMachine 106 7 [65, 0] false false (-50)] hardcodedConfig 107
      (fun _ => true) (by decide),
    (((publish_spacing_after_success hardcodedConfig seenOnce 105 (fun _ => true) 0
      (by decide) rfl).2 [Call.addMachine 106 7 [65, 0] false false (-50)]
      (by decide)).2 hardcodedConfig 110 (fun _ => true) (by decide)).mpr
      ⟨by decide, by decide, by decide⟩⟩


/-! ## Beacons with an empty machine id -/

/-- `strcmp` only sees the C string of its argument. -/
theorem findMachineById_cstr_congr (r : Registry) (a b : List Byte) (h : cstr a = cstr b) :
    findMachineById r a = findMachineById r b := by
  unfold findMachineById
  apply findFrom_congr
  intro j
  simp only [strcmpEq, h]

/-- After a successful call for an id of at most 16 bytes, the lookup of that id
returns an in-use slot holding it. -/
theorem ScanDevAddMachine_then_found (r : Registry) (now : Int) (addr : BLEAddress)
    (machineId : List Byte) (running empty : Bool) (rssi : Int)
    (hlen : (cstr machineId).length ≤ MACHINE_ID_MAX_LEN)
    (hok : (ScanDevAddMachine r now addr machineId running empty rssi).1 = true) :
    ∃ i, findMachineById (ScanDevAddMachine r now addr machineId running empty rssi).2 machineId
        = some i ∧
      ((ScanDevAddMachine r now addr machineId running empty rssi).2.machines i).in_use = true ∧
      cstr ((ScanDevAddMachine r now addr machineId running empty rssi).2.machines i).machineId
        = cstr machineId := by
  have key : ∀ i, findMachineById (ScanDevAddMachine r now addr machineId running empty rssi).2
      machineId = some i →
      ∃ i, findMachineById (ScanDevAddMachine r now addr machineId running empty rssi).2 machineId
          = some i ∧
        ((ScanDevAddMachine r now addr machineId running empty rssi).2.machines i).in_use = true ∧
        cstr ((ScanDevAddMachine r now addr machineId running empty rssi).2.machines i).machineId
          = cstr machineId := by
    intro i hi
    obtain ⟨h1, h2⟩ := findMachineById_some _ machineId i hi
    exact ⟨i, hi, h1, h2⟩
  cases hfind : findMachineById r machineId with
  | some i =>
    apply key i
    rw [ScanDevAddMachine_found r now addr machineId running empty rssi i hfind,
      findMachineById_touch]
    exact hfind
  | none =>
    cases hslot : findEmptySlot r with
    | none =>
      rw [ScanDevAddMachine_full r now addr machineId running empty rssi hfind hslot] at hok
      simp at hok
    | some j =>
      apply key j
      rw [ScanDevAddMachine_created r now addr machineId running empty rssi j hfind hslot]
      apply findMachineById_created r machineId j _ _ hfind
      · rw [touchMachine_in_use]
        rfl
      · rw [touchMachine_machineId]
        exact (cstr_strncpy_zero machineId).trans (List.take_of_length_le hlen)

/-- An id field that starts with NUL decodes to the empty machine id. -/
theorem cstr_parseMachineId_nul (data : List Byte) (hnul : data.getD 2 0 = 0) :
    cstr (parseMachineId data) = [] := by
  rw [cstr_parseMachineId]
  by_cases hlt : 2 < data.length
  · have hget : data.getD 2 0 = data[2] := List.getD_eq_getElem _ _ hlt
    rw [hget] at hnul
    rw [List.drop_eq_getElem_cons hlt]
    cases hm : min (data.length - 3) MACHINE_ID_MAX_LEN with
    | zero => simp
    | succ m =>
      rw [List.take_succ_cons, List.takeWhile_cons]
      simp [hnul]
  · rw [List.drop_eq_nil_of_le (Nat.le_of_not_lt hlt)]
    simp

/-- C25: an advertisement that passes the name, length and manufacturer-id
checks and whose first id byte (byte 2) is NUL is accepted and decodes to the
empty machine id; `onResult` forwards it to `ScanDevAddMachine`; and when that
call succeeds, a second such beacon (any address, any other bytes) is looked up
to the same in-use entry with the empty id and updates it: no slot is claimed
and `_machine_count` is unchanged. -/
theorem empty_machine_id_accepted (r : Registry) (now1 now2 : Int)
    (dev1 dev2 : BLEAdvertisedDevice) (data1 data2 : List Byte)
    (hname1 : dev1.name = TARGET_DEVICE_NAME) (hdata1 : dev1.manufacturerData = some data1)
    (hlen1 : 4 ≤ data1.length)
    (hid1 : (data1.getD 0 0).val + 256 * (data1.getD 1 0).val = TARGET_MANUFACTURER_ID)
    (hnul1 : data1.getD 2 0 = 0)
    (hname2 : dev2.name = TARGET_DEVICE_NAME) (hdata2 : dev2.manufacturerData = some data2)
    (hlen2 : 4 ≤ data2.length)
    (hid2 : (data2.getD 0 0).val + 256 * (data2.getD 1 0).val = TARGET_MANUFACTURER_ID)
    (hnul2 : data2.getD 2 0 = 0) :
    ∃ obs1 obs2,
      decode TARGET_DEVICE_NAME TARGET_MANUFACTURER_ID dev1 = some obs1 ∧
      decode TARGET_DEVICE_NAME TARGET_MANUFACTURER_ID dev2 = some obs2 ∧
      cstr obs1.machineId = [] ∧ cstr obs2.machineId = [] ∧
      onResult r now1 dev1
        = (ScanDevAddMachine r now1 obs1.addr obs1.machineId obs1.running obs1.empty
            obs1.rssi).2 ∧
      ((ScanDevAddMachine r now1 obs1.addr obs1.machineId obs1.running obs1.empty
          obs1.rssi).1 = true →
        ∃ i, ((onResult r now1 dev1).machines i).in_use = true ∧
          cstr ((onResult r now1 dev1).machines i).machineId = [] ∧
          findMachineById (onResult r now1 dev1) obs2.machineId = some i ∧
          (onResult (onResult r now1 dev1) now2 dev2).machine_count
            = (onResult r now1 dev1).machine_count ∧
          (∀ j, ((onResult (onResult r now1 dev1) now2 dev2).machines j).in_use
            = ((onResult r now1 dev1).machines j).in_use) ∧
          ((onResult (onResult r now1 dev1) now2 dev2).machines i).addr = dev2.address ∧
          ((onResult (onResult r now1 dev1) now2 dev2).machines i).last_seen = now2) := by
  have hacc1 := decode_accepted TARGET_DEVICE_NAME TARGET_MANUFACTURER_ID dev1 data1 hname1
    hdata1 hlen1 ((manufacturerIdOf_eq data1).trans hid1)
  have hacc2 := decode_accepted TARGET_DEVICE_NAME TARGET_MANUFACTURER_ID dev2 data2 hname2
    hdata2 hlen2 ((manufacturerIdOf_eq data2).trans hid2)
  have he1 := cstr_parseMachineId_nul data1 hnul1
  have he2 := cstr_parseMachineId_nul data2 hnul2
  refine ⟨_, _, hacc1, hacc2, he1, he2, by simp only [onResult, hacc1], ?_⟩
  intro hok
  have hr1 : onResult r now1 dev1
      = (ScanDevAddMachine r now1 dev1.address (parseMachineId data1)
          (decide ((statusByteOf data1).val &&& 0x01 ≠ 0))
          (decide ((statusByteOf data1).val &&& 0x02 ≠ 0)) dev1.rssi).2 := by
    simp only [onResult, hacc1]
  have hlen : (cstr (parseMachineId data1)).length ≤ MACHINE_ID_MAX_LEN :=
    cstr_parseMachineId_length data1
  obtain ⟨i, hfound, huse, hid⟩ := ScanDevAddMachine_then_found r now1 dev1.address
    (parseMachineId data1) _ _ dev1.rssi hlen hok
  rw [← hr1] at hfound huse hid
  have hfound2 : findMachineById (onResult r now1 dev1) (parseMachineId data2) = some i := by
    rw [findMachineById_cstr_congr _ (parseMachineId data2) (parseMachineId data1)
      (he2.trans he1.symm)]
    exact hfound
  have hr2 : onResult (onResult r now1 dev1) now2 dev2
      = (ScanDevAddMachine (onResult r now1 dev1) now2 dev2.address (parseMachineId data2)
          (decide ((statusByteOf data2).val &&& 0x01 ≠ 0))
          (decide ((statusByteOf data2).val &&& 0x02 ≠ 0)) dev2.rssi).2 := by
    simp only [onResult, hacc2]
  refine ⟨i, huse, hid.trans he1, hfound2, ?_, ?_, ?_, ?_⟩
  · rw [hr2, ScanDevAddMachine_found _ now2 dev2.address _ _ _ dev2.rssi i hfound2]
  · intro j
    rw [hr2, ScanDevAddMachine_found _ now2 dev2.address _ _ _ dev2.rssi i hfound2]
    by_cases hj : j = i
    · subst hj
      simp [touchMachine_in_use]
    · simp [Function.update_noteq hj]
  · rw [hr2, ScanDevAddMachine_found _ now2 dev2.address _ _ _ dev2.rssi i hfound2]
    simp only [Function.update_same]
    exact (touchMachine_refreshed _ now2 dev2.address _ _ dev2.rssi).2.2.2.1
  · rw [hr2, ScanDevAddMachine_found _ now2 dev2.address _ _ _ dev2.rssi i hfound2]
    simp only [Function.update_same]
    exact (touchMachine_refreshed _ now2 dev2.address _ _ dev2.rssi).1

/-- Witness of C25: two different beacons with a NUL first id byte, seen after
`ScanDevSetup`, share slot 0 with the empty id; the count stays 1. -/
theorem empty_machine_id_accepted_witness :
    (onResult ScanDevSetup 100 nulIdFirst).machine_count = 1 ∧
    (onResult (onResult ScanDevSetup 100 nulIdFirst) 101 nulIdSecond).machine_count = 1 ∧
    cstr ((onResult (onResult ScanDevSetup 100 nulIdFirst) 101 nulIdSecond).machines 0).machineId
      = [] ∧
    ((onResult (onResult ScanDevSetup 100 nulIdFirst) 101 nulIdSecond).machines 0).addr = 22 ∧
    ∃ obs1 obs2,
      decode TARGET_DEVICE_NAME TARGET_MANUFACTURER_ID nulIdFirst = some obs1 ∧
      decode TARGET_DEVICE_NAME TARGET_MANUFACTURER_ID nulIdSecond = some obs2 ∧
      cstr obs1.machineId = [] ∧ cstr obs2.machineId = [] :=
  ⟨by decide, by decide, by decide, by decide,
    let ⟨obs1, obs2, h1, h2, h3, h4, _⟩ :=
      empty_machine_id_accepted ScanDevSetup 100 101 nulIdFirst nulIdSecond
        [0xFF, 0xFF, 0, 88, 0x01] [0xFF, 0xFF, 0, 89, 90, 0x02]
        rfl rfl (by decide) (by decide) (by decide) rfl rfl (by decide) (by decide) (by decide)
    ⟨obs1, obs2, h1, h2, h3, h4⟩⟩

end Bluer
